import Mathlib

/-!
# Wa-Tor world-update engine: a shallow embedding of `wator/world.go`

The Go program keeps a square grid `[][]*Creature`, builds a fresh grid
on every chronon and lets every fish and then every shark of the previous
grid write its fate into the fresh grid.

Modelling conventions
* A `*Creature` cell is an `Option Creature` (`nil` is `none`).
* Go `int` counters (`BreedCounter`, `Energy`, the thresholds) are unbounded
  `Int`; coordinates, sizes and population counts, which the code only ever
  holds non-negative, are `Nat`.  Go's `int` has 64 bits: `updateShark64` and
  `NewWorld64` are `updateShark` and `NewWorld` with the result of every `-`,
  `+` and `*` wrapped to 64 bits, and they settle the inputs on which the
  arithmetic overflows (a shark with energy `minInt64`, a population sum above
  `maxInt64`); elsewhere the two versions coincide.
* `rand.Intn` is an explicit stream of raw draws: the k-th call with bound
  `n` returns `draws k % n`, so quantifying over all streams covers every
  outcome of the random choices.  `rand.Perm` is a list handed to `NewWorld`.
* Grid indexing is total: reading outside the grid gives `none` and writing
  outside is a no-op.  On a `Size x Size` grid the code only indexes with
  coordinates below `Size`, where the model and Go agree.
* The goroutines of `StepParallel` share the read-only previous grid and the
  locked global random source; every worker is a function of its row range
  and of the stream of draws it receives, whatever the interleaving.
* An integer division by zero in `StepParallel` and the failures of `NewWorld`
  are explicit results (`none`, `Failure`).
-/

namespace WaTor

/-- Go `CellType`: the contents of a grid cell. -/
inductive CellType where
  | Empty
  | FishCell
  | SharkCell
deriving DecidableEq, Repr

/-- Go `Creature`. -/
structure Creature where
  Kind : CellType
  BreedCounter : Int
  Energy : Int
deriving DecidableEq, Repr

/-- Go `Params` (the numeric fields of `main.go`). -/
structure Params where
  NumShark : Int
  NumFish : Int
  FishBreed : Int
  SharkBreed : Int
  Starve : Int
  GridSize : Int
  Threads : Int
  Steps : Int
  PrintEvery : Int
deriving DecidableEq, Repr

/-- Go `[][]*Creature`: a list of rows, `Grid[y][x]`. -/
abbrev Grid := List (List (Option Creature))

/-- Read `g[y][x]`. -/
def Grid.get (g : Grid) (x y : Nat) : Option Creature :=
  (g.getD y []).getD x none

/-- Write `g[y][x] = c`. -/
def Grid.set (g : Grid) (x y : Nat) (c : Option Creature) : Grid :=
  List.set g y ((g.getD y []).set x c)

/-- The grid built by `make([][]*Creature, n)` with `n` rows of `make([]*Creature, n)`. -/
def makeGrid (n : Nat) : Grid :=
  List.replicate n (List.replicate n none)

/-- Go `World`. -/
structure World where
  Size : Nat
  Grid : WaTor.Grid
  Params : WaTor.Params

/-- The source of random draws behind `rand.Intn`. -/
structure Rand where
  draws : Nat → Nat

/-- Go `rand.Intn(n)`: a value below `n` and the advanced source. -/
def Rand.Intn (r : Rand) (n : Nat) : Nat × Rand :=
  (r.draws 0 % n, ⟨fun i => r.draws (i + 1)⟩)

/-- Go `World.CellAt`. -/
def World.CellAt (w : World) (x y : Nat) : CellType :=
  match w.Grid.get x y with
  | none => CellType.Empty
  | some c => c.Kind

/-- Go `World.Count`: the number of fish and of sharks. -/
def World.Count (w : World) : Nat × Nat :=
  (List.range w.Size).foldl (fun acc y =>
    (List.range w.Size).foldl (fun acc x =>
      match w.Grid.get x y with
      | none => acc
      | some c =>
        if c.Kind = CellType.FishCell then (acc.1 + 1, acc.2)
        else if c.Kind = CellType.SharkCell then (acc.1, acc.2 + 1)
        else acc) acc) (0, 0)

/-- Go `World.neighbours`: north, east, south, west with toroidal wrapping.
Go's `%` is the truncated remainder `Int.tmod`. -/
def World.neighbours (w : World) (x y : Nat) : List (Nat × Nat) :=
  [ (x, (Int.tmod ((y : Int) - 1 + (w.Size : Int)) (w.Size : Int)).toNat),
    ((Int.tmod ((x : Int) + 1) (w.Size : Int)).toNat, y),
    (x, (Int.tmod ((y : Int) + 1) (w.Size : Int)).toNat),
    ((Int.tmod ((x : Int) - 1 + (w.Size : Int)) (w.Size : Int)).toNat, y) ]

/-- Go `World.emptyNeighbours`: the neighbours that are empty in the current grid. -/
def World.emptyNeighbours (w : World) (x y : Nat) : List (Nat × Nat) :=
  (w.neighbours x y).filter (fun n => (w.Grid.get n.1 n.2).isNone)

/-- Go `World.fishNeighbours`: the neighbours that hold a fish in the current grid. -/
def World.fishNeighbours (w : World) (x y : Nat) : List (Nat × Nat) :=
  (w.neighbours x y).filter (fun n =>
    match w.Grid.get n.1 n.2 with
    | none => false
    | some c => decide (c.Kind = CellType.FishCell))

/-- Go `World.updateFish`. -/
def World.updateFish (w : World) (x y : Nat) (c : Creature) (newGrid : WaTor.Grid) (r : Rand) :
    WaTor.Grid × Rand :=
  let breed := c.BreedCounter + 1
  let empties := w.emptyNeighbours x y
  if empties.length = 0 then
    if newGrid.get x y = none then
      (newGrid.set x y (some ⟨CellType.FishCell, breed, 0⟩), r)
    else (newGrid, r)
  else
    let i := (r.Intn empties.length).1
    let r1 := (r.Intn empties.length).2
    let dest := empties.getD i (0, 0)
    let dx := dest.1
    let dy := dest.2
    if newGrid.get dx dy ≠ none then
      if newGrid.get x y = none then
        (newGrid.set x y (some ⟨CellType.FishCell, breed, 0⟩), r1)
      else (newGrid, r1)
    else if breed ≥ w.Params.FishBreed then
      let g1 :=
        if newGrid.get x y = none then newGrid.set x y (some ⟨CellType.FishCell, 0, 0⟩)
        else newGrid
      (g1.set dx dy (some ⟨CellType.FishCell, 0, 0⟩), r1)
    else
      (newGrid.set dx dy (some ⟨CellType.FishCell, breed, 0⟩), r1)

/-- The destination choice of `updateShark` (lines `fishN := ...` to the end of
the `if len(fishN) > 0` statement): destination, `ate`, advanced source. -/
def World.sharkChoice (w : World) (x y : Nat) (r : Rand) : (Nat × Nat) × Bool × Rand :=
  let fishN := w.fishNeighbours x y
  if fishN.length > 0 then
    (fishN.getD (r.Intn fishN.length).1 (0, 0), true, (r.Intn fishN.length).2)
  else
    let empties := w.emptyNeighbours x y
    if empties.length > 0 then
      (empties.getD (r.Intn empties.length).1 (0, 0), false, (r.Intn empties.length).2)
    else
      ((x, y), false, r)

/-- Go `World.updateShark`, the arithmetic taken in unbounded `Int`: this is the
Go result for every shark with `minInt64 < Energy` and `BreedCounter < maxInt64`
(`updateShark64_eq`); `updateShark64` has the 64-bit results. -/
def World.updateShark (w : World) (x y : Nat) (c : Creature) (newGrid : WaTor.Grid) (r : Rand) :
    WaTor.Grid × Rand :=
  let energy := c.Energy - 1
  if energy ≤ 0 then (newGrid, r)
  else
    let breed := c.BreedCounter + 1
    let ch := w.sharkChoice x y r
    let ate := ch.2.1
    let r1 := ch.2.2
    let energy := if ate then w.Params.Starve else energy
    let dest : Nat × Nat :=
      if !ate ∧ (ch.1.1 ≠ x ∨ ch.1.2 ≠ y) ∧ newGrid.get ch.1.1 ch.1.2 ≠ none then (x, y)
      else ch.1
    let moved : Prop := dest.1 ≠ x ∨ dest.2 ≠ y
    if breed ≥ w.Params.SharkBreed ∧ moved then
      let g1 :=
        if newGrid.get x y = none then
          newGrid.set x y (some ⟨CellType.SharkCell, 0, w.Params.Starve⟩)
        else newGrid
      (g1.set dest.1 dest.2 (some ⟨CellType.SharkCell, 0, energy⟩), r1)
    else
      (newGrid.set dest.1 dest.2 (some ⟨CellType.SharkCell, breed, energy⟩), r1)

/-- The fish loop over the rows `ys` (all columns), as in `Step` and in a worker. -/
def World.fishPhase (w : World) (ys : List Nat) (st : WaTor.Grid × Rand) : WaTor.Grid × Rand :=
  ys.foldl (fun st y =>
    (List.range w.Size).foldl (fun st x =>
      match w.Grid.get x y with
      | none => st
      | some c =>
        if c.Kind ≠ CellType.FishCell then st else w.updateFish x y c st.1 st.2) st) st

/-- The shark loop over the rows `ys` (all columns), as in `Step` and in a worker. -/
def World.sharkPhase (w : World) (ys : List Nat) (st : WaTor.Grid × Rand) : WaTor.Grid × Rand :=
  ys.foldl (fun st y =>
    (List.range w.Size).foldl (fun st x =>
      match w.Grid.get x y with
      | none => st
      | some c =>
        if c.Kind ≠ CellType.SharkCell then st else w.updateShark x y c st.1 st.2) st) st

/-- Go `World.Step`: the stepped world and the advanced random source. -/
def World.Step (w : World) (r : Rand) : World × Rand :=
  let st := w.sharkPhase (List.range w.Size)
    (w.fishPhase (List.range w.Size) (makeGrid w.Size, r))
  ({ w with Grid := st.1 }, st.2)

/-- The body of the merge scan of `StepParallel`: `chosen` after looking at the
private cell `c` of the next worker. -/
def mergeStep (chosen c : Option Creature) : Option Creature :=
  match c with
  | none => chosen
  | some c =>
    match chosen with
    | none => some c
    | some ch =>
      if c.Kind = CellType.SharkCell ∧ ch.Kind = CellType.FishCell then some c
      else some ch

/-- The merge of one cell of `StepParallel`: the scan of the workers' private
cells in worker-index order, starting from `chosen = nil`. -/
def mergeCell (cs : List (Option Creature)) : Option Creature :=
  cs.foldl mergeStep none

/-- The merge loop of `StepParallel` over all cells. -/
def mergeGrids (size : Nat) (localGrids : List Grid) : Grid :=
  (List.range size).map (fun y =>
    (List.range size).map (fun x => mergeCell (localGrids.map (fun lg => lg.get x y))))

/-- The body of one goroutine of `StepParallel`: the fish loop and then the
shark loop over the rows `startY .. endY - 1`, writing into the private grid. -/
def World.worker (w : World) (startY endY : Nat) (lg : WaTor.Grid) (r : Rand) : WaTor.Grid :=
  (w.sharkPhase (List.range' startY (endY - startY))
    (w.fishPhase (List.range' startY (endY - startY)) (lg, r))).1

/-- The private grids after `wg.Wait()`.  The Go loop leaves the loop at the
first `t` with `startY >= Size`; `startY` grows with `t`, so exactly the
workers with `startY < Size` run and the other private grids stay empty. -/
def World.localGrids (w : World) (threads rowsPerThread : Nat) (rs : Nat → Rand) :
    List WaTor.Grid :=
  (List.range threads).map (fun t =>
    let startY := t * rowsPerThread
    let endY := startY + rowsPerThread
    if startY ≥ w.Size then makeGrid w.Size
    else w.worker startY (if endY > w.Size then w.Size else endY) (makeGrid w.Size) (rs t))

/-- Go `World.StepParallel`.  `r` feeds the sequential fallback, `rs t` is the
stream of draws seen by worker `t`; `none` is the integer division by zero
of `rowsPerThread` when the capped thread count is 0. -/
def World.StepParallel (w : World) (threads : Int) (r : Rand) (rs : Nat → Rand) :
    Option World :=
  if threads ≤ 1 then some (w.Step r).1
  else
    let threads : Nat := if threads > (w.Size : Int) then w.Size else threads.toNat
    if threads = 0 then none
    else
      let rowsPerThread := (w.Size + threads - 1) / threads
      some { w with Grid := mergeGrids w.Size (w.localGrids threads rowsPerThread rs) }

/-- `n` successive calls of `Step`, as in the loop of `RunSimulation`. -/
def iterStep : Nat → World → Rand → World × Rand
  | 0, w, r => (w, r)
  | n + 1, w, r => iterStep n (w.Step r).1 (w.Step r).2

/-- `n` successive calls of `StepParallel threads`; call `k` uses the draws
`r k` and `rs k`. -/
def iterStepParallel (threads : Int) : Nat → World → (Nat → Rand) → (Nat → Nat → Rand) →
    Option World
  | 0, w, _, _ => some w
  | n + 1, w, r, rs =>
    match w.StepParallel threads (r 0) (rs 0) with
    | none => none
    | some w1 => iterStepParallel threads n w1 (fun k => r (k + 1)) (fun k => rs (k + 1))

/-- How `NewWorld` can fail: `os.Exit(1)` after the capacity message, or a
run-time panic (negative `make` length, index out of range, division by zero). -/
inductive Failure where
  | exit
  | crash
deriving DecidableEq, Repr

/-- One placement loop of `NewWorld`: `n` creatures `mk` at the cells of
`positions[idx], positions[idx+1], ...`; returns the grid and the new `idx`. -/
def placeCreatures (size : Nat) (positions : List Nat) (mk : Creature) :
    Nat → Nat → Grid → Option (Grid × Nat)
  | 0, idx, g => some (g, idx)
  | n + 1, idx, g =>
    match positions[idx]? with
    | none => none
    | some pos =>
      if size = 0 then none
      else placeCreatures size positions mk n (idx + 1)
        (g.set (pos % size) (pos / size) (some mk))

/-- Go `NewWorld`, the arithmetic taken in unbounded `Int`: this is the Go result
whenever `GridSize * GridSize` and `NumFish + NumShark` fit 64 bits
(`NewWorld64_eq`); `NewWorld64` has the 64-bit results.  `positions` is the
result of `rand.Perm(totalCells)`. -/
def NewWorld (p : Params) (positions : List Nat) : Except Failure World :=
  if p.GridSize < 0 then Except.error Failure.crash
  else
    let size := p.GridSize.toNat
    let totalCells := p.GridSize * p.GridSize
    if p.NumFish + p.NumShark > totalCells then Except.error Failure.exit
    else
      match placeCreatures size positions ⟨CellType.FishCell, 0, 0⟩ p.NumFish.toNat 0
          (makeGrid size) with
      | none => Except.error Failure.crash
      | some st1 =>
        match placeCreatures size positions ⟨CellType.SharkCell, 0, p.Starve⟩
            p.NumShark.toNat st1.2 st1.1 with
        | none => Except.error Failure.crash
        | some st2 => Except.ok ⟨size, st2.1, p⟩

/-- The validation of Go `parseParams`, applied to the flag values `p` read by
`flag.Parse`: `os.Exit(1)` on invalid values, otherwise `p` itself. -/
def parseParams (p : Params) : Except Failure Params :=
  if p.NumShark < 0 ∨ p.NumFish < 0 ∨ p.GridSize ≤ 0 then Except.error Failure.exit
  else if p.Steps ≤ 0 then Except.error Failure.exit
  else Except.ok p

/-! ## Predicates used in the statements -/

/-- The grid has `n` rows of `n` cells. -/
def Grid.WF (g : Grid) (n : Nat) : Prop :=
  g.length = n ∧ ∀ row ∈ g, row.length = n

instance Grid.decidableWF (g : Grid) (n : Nat) : Decidable (g.WF n) :=
  inferInstanceAs (Decidable (g.length = n ∧ ∀ row ∈ g, row.length = n))

/-- Every creature of the grid satisfies `P`. -/
def Grid.All (P : Creature → Prop) (g : Grid) : Prop :=
  ∀ x y c, g.get x y = some c → P c

/-- Boolean check that every creature of the grid passes `p`. -/
def Grid.allCells (p : Creature → Bool) (g : Grid) : Bool :=
  g.all (fun row => row.all (fun cell =>
    match cell with
    | none => true
    | some c => p c))

/-- A shark's energy does not exceed the cap `s`. -/
def energyCapped (s : Int) (c : Creature) : Prop :=
  c.Kind = CellType.SharkCell → c.Energy ≤ s

/-- A shark's energy lies between 1 and the cap `s`. -/
def energyInRange (s : Int) (c : Creature) : Prop :=
  c.Kind = CellType.SharkCell → 1 ≤ c.Energy ∧ c.Energy ≤ s

instance energyCapped.decidable (s : Int) (c : Creature) : Decidable (energyCapped s c) :=
  inferInstanceAs (Decidable (c.Kind = CellType.SharkCell → c.Energy ≤ s))

instance energyInRange.decidable (s : Int) (c : Creature) : Decidable (energyInRange s c) :=
  inferInstanceAs (Decidable (c.Kind = CellType.SharkCell → 1 ≤ c.Energy ∧ c.Energy ≤ s))

/-- The private cell `c` holds a creature of kind `k`. -/
def isKind (k : CellType) (c : Option Creature) : Bool :=
  match c with
  | none => false
  | some c => decide (c.Kind = k)

/-- The merge rule in the words of the specification: the first shark in
worker-index order if any worker wrote a shark, otherwise the first fish if any
worker wrote a fish, otherwise empty. -/
def mergeRule (cs : List (Option Creature)) : Option Creature :=
  match cs.find? (isKind CellType.SharkCell) with
  | some c => c
  | none =>
    match cs.find? (isKind CellType.FishCell) with
    | some c => c
    | none => none

/-- The creature is a fish or a shark. -/
def fishOrShark (c : Creature) : Prop :=
  c.Kind = CellType.FishCell ∨ c.Kind = CellType.SharkCell

instance fishOrShark.decidable (c : Creature) : Decidable (fishOrShark c) :=
  inferInstanceAs (Decidable (c.Kind = CellType.FishCell ∨ c.Kind = CellType.SharkCell))

/-- The number of creatures of kind `k` in the grid, row by row. -/
def Grid.count (k : CellType) (g : Grid) : Nat :=
  (g.map (fun row => row.countP (isKind k))).sum

/-- The cell `(x, y)` that `NewWorld` derives from the index `pos` on a grid of side `n`. -/
def cellOf (n pos : Nat) : Nat × Nat :=
  (pos % n, pos / n)

/-- The creature has kind fish or shark and a non-negative breed counter. -/
def dataModelOK (c : Creature) : Prop :=
  fishOrShark c ∧ 0 ≤ c.BreedCounter

/-- The creature has kind fish or shark, a non-negative breed counter, and
energy 0 if it is a fish. -/
def dataModelPost (c : Creature) : Prop :=
  fishOrShark c ∧ 0 ≤ c.BreedCounter ∧ (c.Kind = CellType.FishCell → c.Energy = 0)

instance dataModelOK.decidable (c : Creature) : Decidable (dataModelOK c) :=
  inferInstanceAs (Decidable (fishOrShark c ∧ 0 ≤ c.BreedCounter))

instance dataModelPost.decidable (c : Creature) : Decidable (dataModelPost c) :=
  inferInstanceAs (Decidable (fishOrShark c ∧ 0 ≤ c.BreedCounter ∧
    (c.Kind = CellType.FishCell → c.Energy = 0)))

/-- The grid holds no creature. -/
def Grid.isEmpty (g : Grid) : Prop :=
  ∀ x y, g.get x y = none

/-- A random source whose every raw draw is `k`. -/
def Rand.const (k : Nat) : Rand := ⟨fun _ => k⟩

/-- The empty neighbour drawn for the creature at `(x, y)`:
`empties[rand.Intn(len(empties))]`. -/
def World.emptyDest (w : World) (x y : Nat) (r : Rand) : Nat × Nat :=
  (w.emptyNeighbours x y).getD (r.Intn (w.emptyNeighbours x y).length).1 (0, 0)

/-- The random source after one call of `rand.Intn`. -/
def Rand.next (r : Rand) : Rand := ⟨fun i => r.draws (i + 1)⟩

/-- The final destination of `updateShark` for the shark at `(x, y)`: the
drawn cell, or the origin when a move to an empty neighbour is cancelled. -/
def World.sharkDest (w : World) (x y : Nat) (ng : WaTor.Grid) (r : Rand) : Nat × Nat :=
  if !(w.sharkChoice x y r).2.1 ∧
      ((w.sharkChoice x y r).1.1 ≠ x ∨ (w.sharkChoice x y r).1.2 ≠ y) ∧
      ng.get (w.sharkChoice x y r).1.1 (w.sharkChoice x y r).1.2 ≠ none then (x, y)
  else (w.sharkChoice x y r).1

/-- The energy `updateShark` gives the surviving parent: the starve threshold
after eating, otherwise the old energy less one. -/
def World.sharkEnergy (w : World) (x y : Nat) (c : Creature) (r : Rand) : Int :=
  if (w.sharkChoice x y r).2.1 then w.Params.Starve else c.Energy - 1

/-- The worker count of `StepParallel` after the cap `threads = w.Size`. -/
def World.cappedThreads (w : World) (threads : Int) : Nat :=
  if threads > (w.Size : Int) then w.Size else threads.toNat

/-- `rowsPerThread` of `StepParallel`. -/
def World.rowsPerThread (w : World) (threads : Int) : Nat :=
  (w.Size + w.cappedThreads threads - 1) / w.cappedThreads threads

/-- The four neighbours of `(x, y)` are pairwise distinct cells, none of them `(x, y)`. -/
def World.distinctNeighbours (w : World) (x y : Nat) : Prop :=
  (w.neighbours x y).Nodup ∧ (x, y) ∉ w.neighbours x y

instance World.decidableDistinctNeighbours (w : World) (x y : Nat) :
    Decidable (w.distinctNeighbours x y) :=
  inferInstanceAs (Decidable ((w.neighbours x y).Nodup ∧ (x, y) ∉ w.neighbours x y))

/-- The rows that worker `t` of `StepParallel` walks through: `startY .. endY - 1`
with `startY = t * rowsPerThread` and `endY` cut at `Size`; none when the loop
has left before starting the worker (`startY >= Size`). -/
def World.workerRows (w : World) (threads : Int) (t : Nat) : List Nat :=
  if t * w.rowsPerThread threads ≥ w.Size then []
  else List.range' (t * w.rowsPerThread threads)
    ((if t * w.rowsPerThread threads + w.rowsPerThread threads > w.Size then w.Size
      else t * w.rowsPerThread threads + w.rowsPerThread threads) -
        t * w.rowsPerThread threads)

/-- The body of the fish loops of `Step` at the cell `(x, y)`. -/
def World.fishCell (w : World) (y : Nat) (st : WaTor.Grid × Rand) (x : Nat) :
    WaTor.Grid × Rand :=
  match w.Grid.get x y with
  | none => st
  | some c =>
    if c.Kind ≠ CellType.FishCell then st else w.updateFish x y c st.1 st.2

/-- The body of the shark loops of `Step` at the cell `(x, y)`. -/
def World.sharkCell (w : World) (y : Nat) (st : WaTor.Grid × Rand) (x : Nat) :
    WaTor.Grid × Rand :=
  match w.Grid.get x y with
  | none => st
  | some c =>
    if c.Kind ≠ CellType.SharkCell then st else w.updateShark x y c st.1 st.2

/-- The state of the shark loops of `Step`, entered with `st`, when they reach
the cell `(x, y)`: the rows before `y` are done, and the columns before `x` of
row `y`. -/
def World.sharkBefore (w : World) (x y : Nat) (st : WaTor.Grid × Rand) : WaTor.Grid × Rand :=
  (List.range x).foldl (w.sharkCell y)
    ((List.range y).foldl (fun st y1 => (List.range w.Size).foldl (w.sharkCell y1) st) st)

/-- The body of the loops of `Count` at the cell `(x, y)`. -/
def World.countCell (w : World) (y : Nat) (acc : Nat × Nat) (x : Nat) : Nat × Nat :=
  match w.Grid.get x y with
  | none => acc
  | some c =>
    if c.Kind = CellType.FishCell then (acc.1 + 1, acc.2)
    else if c.Kind = CellType.SharkCell then (acc.1, acc.2 + 1)
    else acc

/-- The grid holds no shark. -/
def Grid.noShark (g : Grid) : Prop :=
  Grid.All (fun c => c.Kind ≠ CellType.SharkCell) g

/-! ## The same code with Go's 64-bit `int`

`World.updateShark` and `NewWorld` above compute `c.Energy - 1`,
`c.BreedCounter + 1`, `p.NumFish + p.NumShark` and `p.GridSize * p.GridSize` in
unbounded `Int`: they give what the Go code gives whenever the mathematical
result fits Go's `int`.  The definitions of this section are the same bodies
with every arithmetic result wrapped to 64 bits, as the Go operators do; they
cover the inputs on which the two differ, and `updateShark64_eq` and
`NewWorld64_eq` state where they coincide. -/

/-- Go `math.MinInt64`. -/
def minInt64 : Int := -9223372036854775808

/-- Go `math.MaxInt64`. -/
def maxInt64 : Int := 9223372036854775807

/-- The value of a Go `int` operation whose mathematical result is `z`:
two's-complement wrap-around into `[minInt64, maxInt64]`. -/
def wrap64 (z : Int) : Int :=
  (z + 9223372036854775808) % 18446744073709551616 - 9223372036854775808

/-- Go `World.updateShark`, with `c.Energy - 1` and `c.BreedCounter + 1` as Go's
`int` computes them. -/
def World.updateShark64 (w : World) (x y : Nat) (c : Creature) (newGrid : WaTor.Grid)
    (r : Rand) : WaTor.Grid × Rand :=
  let energy := wrap64 (c.Energy - 1)
  if energy ≤ 0 then (newGrid, r)
  else
    let breed := wrap64 (c.BreedCounter + 1)
    let ch := w.sharkChoice x y r
    let ate := ch.2.1
    let r1 := ch.2.2
    let energy := if ate then w.Params.Starve else energy
    let dest : Nat × Nat :=
      if !ate ∧ (ch.1.1 ≠ x ∨ ch.1.2 ≠ y) ∧ newGrid.get ch.1.1 ch.1.2 ≠ none then (x, y)
      else ch.1
    let moved : Prop := dest.1 ≠ x ∨ dest.2 ≠ y
    if breed ≥ w.Params.SharkBreed ∧ moved then
      let g1 :=
        if newGrid.get x y = none then
          newGrid.set x y (some ⟨CellType.SharkCell, 0, w.Params.Starve⟩)
        else newGrid
      (g1.set dest.1 dest.2 (some ⟨CellType.SharkCell, 0, energy⟩), r1)
    else
      (newGrid.set dest.1 dest.2 (some ⟨CellType.SharkCell, breed, energy⟩), r1)

/-- The shark loop of `Step` over the rows `ys`, calling `updateShark64`. -/
def World.sharkPhase64 (w : World) (ys : List Nat) (st : WaTor.Grid × Rand) :
    WaTor.Grid × Rand :=
  ys.foldl (fun st y =>
    (List.range w.Size).foldl (fun st x =>
      match w.Grid.get x y with
      | none => st
      | some c =>
        if c.Kind ≠ CellType.SharkCell then st else w.updateShark64 x y c st.1 st.2) st) st

/-- Go `World.Step`, with the shark loop calling `updateShark64`. -/
def World.Step64 (w : World) (r : Rand) : World × Rand :=
  let st := w.sharkPhase64 (List.range w.Size)
    (w.fishPhase (List.range w.Size) (makeGrid w.Size, r))
  ({ w with Grid := st.1 }, st.2)

/-- Go `NewWorld`, with `p.GridSize * p.GridSize` and `p.NumFish + p.NumShark`
as Go's `int` computes them; `positions` is the result of
`rand.Perm(totalCells)`, which panics on a negative argument. -/
def NewWorld64 (p : Params) (positions : List Nat) : Except Failure World :=
  if p.GridSize < 0 then Except.error Failure.crash
  else
    let size := p.GridSize.toNat
    let totalCells := wrap64 (p.GridSize * p.GridSize)
    if wrap64 (p.NumFish + p.NumShark) > totalCells then Except.error Failure.exit
    else if totalCells < 0 then Except.error Failure.crash
    else
      match placeCreatures size positions ⟨CellType.FishCell, 0, 0⟩ p.NumFish.toNat 0
          (makeGrid size) with
      | none => Except.error Failure.crash
      | some st1 =>
        match placeCreatures size positions ⟨CellType.SharkCell, 0, p.Starve⟩
            p.NumShark.toNat st1.2 st1.1 with
        | none => Except.error Failure.crash
        | some st2 => Except.ok ⟨size, st2.1, p⟩

/-- The start of a run with `NewWorld64`: the flags are validated, then the
world is built. -/
def startRun64 (p : Params) (positions : List Nat) : Except Failure World :=
  match parseParams p with
  | Except.error e => Except.error e
  | Except.ok q => NewWorld64 q positions

/-! ## Scenario worlds -/

/-- A 3x3 world: a shark with energy 2 and breed counter 0 at (0,0), a fish
with breed counter `b` at (0,1). -/
def sharkEatsFishWorld (p : Params) (b : Int) : World :=
  ⟨3, [[some ⟨CellType.SharkCell, 0, 2⟩, none, none],
       [some ⟨CellType.FishCell, b, 0⟩, none, none],
       [none, none, none]], p⟩

/-- A 3x3 world holding one fish with breed counter 0 at (0,0). -/
def singleFishWorld (p : Params) : World :=
  ⟨3, [[some ⟨CellType.FishCell, 0, 0⟩, none, none],
       [none, none, none],
       [none, none, none]], p⟩

/-- A 3x3 world holding one shark with energy 1 and breed counter `b` at (0,0). -/
def singleSharkWorld (p : Params) (b : Int) : World :=
  ⟨3, [[some ⟨CellType.SharkCell, b, 1⟩, none, none],
       [none, none, none],
       [none, none, none]], p⟩

/-- A 3x3 world: a shark with energy 1 and breed counter 0 at (0,0), a fish
with breed counter 0 at (0,1). -/
def hungrySharkWorld (p : Params) : World :=
  ⟨3, [[some ⟨CellType.SharkCell, 0, 1⟩, none, none],
       [some ⟨CellType.FishCell, 0, 0⟩, none, none],
       [none, none, none]], p⟩

/-- Concrete parameters with `FishBreed = 1`: every fish that moves breeds. -/
def breedingParams : Params :=
  ⟨0, 0, 1, 5, 3, 3, 1, 1, 0⟩

/-- The four toroidal neighbours of (0,0) on a 3x3 grid: north, east, south, west. -/
def originNeighbours3 : List (Nat × Nat) :=
  [(0, 2), (1, 0), (0, 1), (2, 0)]

/-- The 3x3 grid with a fish (counter 0) at (0,0) and at the `k`-th neighbour of (0,0). -/
def twoFishGrid (k : Nat) : Grid :=
  ((makeGrid 3).set 0 0 (some ⟨CellType.FishCell, 0, 0⟩)).set
    (originNeighbours3.getD k (0, 0)).1 (originNeighbours3.getD k (0, 0)).2
    (some ⟨CellType.FishCell, 0, 0⟩)

/-- A configuration for a 2x2 grid with two fish and one shark. -/
def smallParams : Params :=
  ⟨1, 2, 3, 5, 3, 2, 1, 10, 0⟩

/-- An empty 2x2 world. -/
def emptyWorld2 : World :=
  ⟨2, makeGrid 2, ⟨0, 0, 3, 5, 3, 2, 1, 1, 0⟩⟩

/-- Concrete parameters with `SharkBreed = 1`: every shark that moves breeds. -/
def sharkBreedingParams : Params :=
  ⟨0, 0, 3, 1, 3, 3, 1, 1, 0⟩

/-- A 3x3 world: a fish with breed counter `b` at (1,1), sharks with breed
counter 0 and energies `e1`, `e2` at (0,1) and (2,1). -/
def twoSharksWorld (p : Params) (b e1 e2 : Int) : World :=
  ⟨3, [[none, none, none],
       [some ⟨CellType.SharkCell, 0, e1⟩, some ⟨CellType.FishCell, b, 0⟩,
        some ⟨CellType.SharkCell, 0, e2⟩],
       [none, none, none]], p⟩

/-- The flags `-numShark 1 -numFish 0 -starve -9223372036854775808 -gridSize 1
-steps 1`. -/
def starveOverflowParams : Params :=
  ⟨1, 0, 3, 5, minInt64, 1, 1, 1, 0⟩

/-- The world `NewWorld` builds from `starveOverflowParams`: one shark whose
energy is the starve threshold. -/
def starveOverflowWorld : World :=
  ⟨1, [[some ⟨CellType.SharkCell, 0, minInt64⟩]], starveOverflowParams⟩

/-- The flags `-numShark 1 -numFish 9223372036854775807 -gridSize 1` (the other
flags at their defaults). -/
def capacityOverflowParams : Params :=
  ⟨1, maxInt64, 3, 5, 3, 1, 1, 200, 20⟩

/-- A 1x1 world holding the creature `c`, with the thresholds of `sampleParams`. -/
def lonelyWorld (c : Creature) : World :=
  ⟨1, [[some c]], ⟨0, 0, 3, 5, 3, 1, 1, 1, 0⟩⟩

/-- Concrete parameters: thresholds `FishBreed = 3`, `SharkBreed = 5`, `Starve = 3`. -/
def sampleParams : Params :=
  ⟨0, 0, 3, 5, 3, 3, 1, 1, 0⟩

/-! ## Grid reads and writes -/

theorem getD_set_eq {α : Type} (l : List α) (i : Nat) (a d : α) (h : i < l.length) :
    (l.set i a).getD i d = a := by
  simp [List.getD_eq_getElem?_getD, List.getElem?_set, h]

theorem getD_set_ne {α : Type} (l : List α) (i j : Nat) (a d : α) (h : i ≠ j) :
    (l.set i a).getD j d = l.getD j d := by
  simp [List.getD_eq_getElem?_getD, List.getElem?_set, h]

theorem getD_length {α : Type} (l : List α) (i : Nat) (d : α) (h : l.length ≤ i) :
    l.getD i d = d := by
  simp [List.getD_eq_getElem?_getD, List.getElem?_eq_none h]

theorem Grid.get_set_ne (g : Grid) (x y x' y' : Nat) (v : Option Creature)
    (h : x' ≠ x ∨ y' ≠ y) : (g.set x y v).get x' y' = g.get x' y' := by
  unfold Grid.get Grid.set
  by_cases hy : y = y'
  · subst hy
    have hx : x ≠ x' := by
      rcases h with h | h
      · exact Ne.symm h
      · exact absurd rfl h
    by_cases hl : y < g.length
    · rw [getD_set_eq _ _ _ _ hl, getD_set_ne _ _ _ _ _ hx]
    · rw [List.set_eq_of_length_le (by omega)]
  · rw [getD_set_ne _ _ _ _ _ hy]

theorem Grid.get_set_same (g : Grid) (x y : Nat) (v : Option Creature)
    (hy : y < g.length) (hx : x < (g.getD y []).length) : (g.set x y v).get x y = v := by
  unfold Grid.get Grid.set
  rw [getD_set_eq _ _ _ _ hy, getD_set_eq _ _ _ _ hx]

theorem set_getElem_same {α : Type} (l : List α) (i : Nat) (h : i < l.length) :
    l.set i (l.get ⟨i, h⟩) = l := by
  apply List.ext_getElem?
  intro n
  rw [List.getElem?_set]
  by_cases hn : i = n
  · subst hn
    simp [h]
  · simp [hn]

theorem Grid.set_outside (g : Grid) (x y : Nat) (v : Option Creature)
    (h : ¬ (y < g.length ∧ x < (g.getD y []).length)) : g.set x y v = g := by
  unfold Grid.set
  by_cases hy : y < g.length
  · have hx : (g.getD y []).length ≤ x := by
      by_contra hc
      exact h ⟨hy, by omega⟩
    rw [List.set_eq_of_length_le hx]
    simp only [List.getD_eq_getElem?_getD]
    rw [List.getElem?_eq_getElem hy]
    exact set_getElem_same g y hy
  · rw [List.set_eq_of_length_le (by omega)]

theorem Grid.get_set_cases (g : Grid) (x y x' y' : Nat) (v : Option Creature) :
    (g.set x y v).get x' y' = v ∨ (g.set x y v).get x' y' = g.get x' y' := by
  by_cases h : x' ≠ x ∨ y' ≠ y
  · exact Or.inr (Grid.get_set_ne g x y x' y' v h)
  · have hx : x' = x := by by_contra hc; exact h (Or.inl hc)
    have hy : y' = y := by by_contra hc; exact h (Or.inr hc)
    subst hx; subst hy
    by_cases hl : y' < g.length ∧ x' < (g.getD y' []).length
    · exact Or.inl (Grid.get_set_same g x' y' v hl.1 hl.2)
    · right
      rw [Grid.set_outside g x' y' v hl]

theorem Grid.WF_set (g : Grid) (n x y : Nat) (v : Option Creature) (h : g.WF n) :
    (g.set x y v).WF n := by
  obtain ⟨h1, h2⟩ := h
  refine ⟨by simp [Grid.set, h1], ?_⟩
  intro row hrow
  unfold Grid.set at hrow
  rcases List.mem_or_eq_of_mem_set hrow with hm | he
  · exact h2 row hm
  · subst he
    by_cases hl : y < g.length
    · simp only [List.length_set, List.getD_eq_getElem?_getD]
      rw [List.getElem?_eq_getElem hl]
      exact h2 _ (List.getElem_mem hl)
    · rw [List.set_eq_of_length_le (by omega)] at hrow
      exact h2 _ hrow

theorem Grid.WF_row (g : Grid) (n y : Nat) (h : g.WF n) (hy : y < n) :
    (g.getD y []).length = n := by
  obtain ⟨h1, h2⟩ := h
  have hl : y < g.length := by omega
  simp only [List.getD_eq_getElem?_getD]
  rw [List.getElem?_eq_getElem hl]
  exact h2 _ (List.getElem_mem hl)

theorem Grid.get_set_same_wf (g : Grid) (n x y : Nat) (v : Option Creature)
    (h : g.WF n) (hx : x < n) (hy : y < n) : (g.set x y v).get x y = v := by
  apply Grid.get_set_same
  · rw [h.1]; exact hy
  · rw [Grid.WF_row g n y h hy]; exact hx

theorem makeGrid_WF (n : Nat) : (makeGrid n).WF n := by
  refine ⟨by simp [makeGrid], ?_⟩
  intro row hrow
  rw [makeGrid, List.mem_replicate] at hrow
  rw [hrow.2]; simp

theorem get_makeGrid (n x y : Nat) : (makeGrid n).get x y = none := by
  unfold Grid.get makeGrid
  by_cases hy : y < n
  · have h1 : (List.replicate n (List.replicate n (none : Option Creature))).getD y [] =
        List.replicate n none := by
      simp [List.getD_eq_getElem?_getD, List.getElem?_replicate, hy]
    rw [h1]
    by_cases hx : x < n
    · simp [List.getD_eq_getElem?_getD, List.getElem?_replicate, hx]
    · exact getD_length _ _ _ (by simp; omega)
  · rw [getD_length _ y _ (by simp; omega)]
    rfl

/-! ## Case analysis of `updateFish` -/

theorem Intn_snd (r : Rand) (n : Nat) : (r.Intn n).2 = r.next := rfl

theorem Intn_fst_lt (r : Rand) (n : Nat) (h : 0 < n) : (r.Intn n).1 < n :=
  Nat.mod_lt _ h

theorem updateFish_noEmpty (w : World) (x y : Nat) (c : Creature) (ng : Grid) (r : Rand)
    (h : w.emptyNeighbours x y = []) :
    w.updateFish x y c ng r =
      (if ng.get x y = none then
        ng.set x y (some ⟨CellType.FishCell, c.BreedCounter + 1, 0⟩) else ng, r) := by
  unfold World.updateFish
  simp only [h, List.length_nil, if_true]
  split <;> rfl

theorem updateFish_blocked (w : World) (x y : Nat) (c : Creature) (ng : Grid) (r : Rand)
    (h : w.emptyNeighbours x y ≠ [])
    (hd : ng.get (w.emptyDest x y r).1 (w.emptyDest x y r).2 ≠ none) :
    w.updateFish x y c ng r =
      (if ng.get x y = none then
        ng.set x y (some ⟨CellType.FishCell, c.BreedCounter + 1, 0⟩) else ng, r.next) := by
  have hl : ¬ (w.emptyNeighbours x y).length = 0 := by
    intro h0; exact h (List.length_eq_zero.mp h0)
  unfold World.updateFish
  unfold World.emptyDest at hd
  simp only [hl, if_false, hd, ne_eq, not_false_eq_true, if_true]
  split <;> rfl

theorem updateFish_breed (w : World) (x y : Nat) (c : Creature) (ng : Grid) (r : Rand)
    (h : w.emptyNeighbours x y ≠ [])
    (hd : ng.get (w.emptyDest x y r).1 (w.emptyDest x y r).2 = none)
    (hb : c.BreedCounter + 1 ≥ w.Params.FishBreed) :
    w.updateFish x y c ng r =
      ((if ng.get x y = none then ng.set x y (some ⟨CellType.FishCell, 0, 0⟩) else ng).set
        (w.emptyDest x y r).1 (w.emptyDest x y r).2 (some ⟨CellType.FishCell, 0, 0⟩), r.next) := by
  have hl : ¬ (w.emptyNeighbours x y).length = 0 := by
    intro h0; exact h (List.length_eq_zero.mp h0)
  unfold World.updateFish
  unfold World.emptyDest at hd ⊢
  simp only [hl, if_false, hd, ne_eq, not_true_eq_false, hb, if_true]
  rfl

theorem updateFish_move (w : World) (x y : Nat) (c : Creature) (ng : Grid) (r : Rand)
    (h : w.emptyNeighbours x y ≠ [])
    (hd : ng.get (w.emptyDest x y r).1 (w.emptyDest x y r).2 = none)
    (hb : ¬ c.BreedCounter + 1 ≥ w.Params.FishBreed) :
    w.updateFish x y c ng r =
      (ng.set (w.emptyDest x y r).1 (w.emptyDest x y r).2
        (some ⟨CellType.FishCell, c.BreedCounter + 1, 0⟩), r.next) := by
  have hl : ¬ (w.emptyNeighbours x y).length = 0 := by
    intro h0; exact h (List.length_eq_zero.mp h0)
  unfold World.updateFish
  unfold World.emptyDest at hd ⊢
  simp only [hl, if_false, hd, ne_eq, not_true_eq_false, hb]
  rfl

/-! ## Case analysis of `updateShark` -/

theorem sharkChoice_fish (w : World) (x y : Nat) (r : Rand) (h : w.fishNeighbours x y ≠ []) :
    w.sharkChoice x y r =
      ((w.fishNeighbours x y).getD (r.Intn (w.fishNeighbours x y).length).1 (0, 0),
        true, r.next) := by
  have hl : (w.fishNeighbours x y).length > 0 := List.length_pos.mpr h
  unfold World.sharkChoice
  simp only [hl, if_true]
  rfl

theorem sharkChoice_empty (w : World) (x y : Nat) (r : Rand) (h : w.fishNeighbours x y = [])
    (he : w.emptyNeighbours x y ≠ []) :
    w.sharkChoice x y r =
      ((w.emptyNeighbours x y).getD (r.Intn (w.emptyNeighbours x y).length).1 (0, 0),
        false, r.next) := by
  have hl : (w.emptyNeighbours x y).length > 0 := List.length_pos.mpr he
  unfold World.sharkChoice
  simp only [h, List.length_nil, gt_iff_lt, lt_self_iff_false, if_false, hl, if_true]
  rfl

theorem sharkChoice_stay (w : World) (x y : Nat) (r : Rand) (h : w.fishNeighbours x y = [])
    (he : w.emptyNeighbours x y = []) :
    w.sharkChoice x y r = ((x, y), false, r) := by
  unfold World.sharkChoice
  simp only [h, he, List.length_nil, gt_iff_lt, lt_self_iff_false, if_false]

theorem updateShark_starve (w : World) (x y : Nat) (c : Creature) (ng : Grid) (r : Rand)
    (h : c.Energy ≤ 1) : w.updateShark x y c ng r = (ng, r) := by
  have h0 : c.Energy - 1 ≤ 0 := by omega
  unfold World.updateShark
  simp only [h0, if_true]

theorem updateShark_alive (w : World) (x y : Nat) (c : Creature) (ng : Grid) (r : Rand)
    (h : 2 ≤ c.Energy) :
    w.updateShark x y c ng r =
      if c.BreedCounter + 1 ≥ w.Params.SharkBreed ∧
          ((w.sharkDest x y ng r).1 ≠ x ∨ (w.sharkDest x y ng r).2 ≠ y) then
        ((if ng.get x y = none then
            ng.set x y (some ⟨CellType.SharkCell, 0, w.Params.Starve⟩) else ng).set
          (w.sharkDest x y ng r).1 (w.sharkDest x y ng r).2
          (some ⟨CellType.SharkCell, 0, w.sharkEnergy x y c r⟩), (w.sharkChoice x y r).2.2)
      else
        (ng.set (w.sharkDest x y ng r).1 (w.sharkDest x y ng r).2
          (some ⟨CellType.SharkCell, c.BreedCounter + 1, w.sharkEnergy x y c r⟩),
          (w.sharkChoice x y r).2.2) := by
  have h0 : ¬ c.Energy - 1 ≤ 0 := by omega
  unfold World.updateShark
  simp only [h0, if_false]
  rfl

/-! ## Neighbour geometry -/

theorem neighbours_eq (w : World) (x y : Nat) :
    w.neighbours x y =
      [ (x, (y + w.Size - 1) % w.Size), ((x + 1) % w.Size, y),
        (x, (y + 1) % w.Size), ((x + w.Size - 1) % w.Size, y) ] := by
  have key : ∀ a n : Nat, (Int.tmod ((a : Int) - 1 + (n : Int)) (n : Int)).toNat =
      (a + n - 1) % n := by
    intro a n
    by_cases h : a + n = 0
    · have ha : a = 0 := by omega
      have hn : n = 0 := by omega
      subst ha; subst hn
      decide
    · have e : ((a : Int) - 1 + (n : Int)) = ((a + n - 1 : Nat) : Int) := by omega
      rw [e, ← Int.ofNat_tmod]
      exact Int.toNat_ofNat _
  have key2 : ∀ a n : Nat, (Int.tmod ((a : Int) + 1) (n : Int)).toNat = (a + 1) % n := by
    intro a n
    have e : ((a : Int) + 1) = ((a + 1 : Nat) : Int) := by omega
    rw [e, ← Int.ofNat_tmod]
    exact Int.toNat_ofNat _
  unfold World.neighbours
  rw [key, key, key2, key2]

theorem neighbours_three (g : Grid) (p : Params) (x y : Nat) :
    (World.mk 3 g p).neighbours x y =
      [ (x, (y + 3 - 1) % 3), ((x + 1) % 3, y), (x, (y + 1) % 3), ((x + 3 - 1) % 3, y) ] :=
  neighbours_eq _ x y

/-! ## Scenario: a shark next to a fish -/

theorem sharkEats_empties (p : Params) (b : Int) :
    (sharkEatsFishWorld p b).emptyNeighbours 0 1 = [(1, 1), (0, 2), (2, 1)] := by
  unfold World.emptyNeighbours sharkEatsFishWorld
  rw [neighbours_three]
  rfl

theorem sharkEats_fishN (p : Params) (b : Int) :
    (sharkEatsFishWorld p b).fishNeighbours 0 0 = [(0, 1)] := by
  unfold World.fishNeighbours sharkEatsFishWorld
  rw [neighbours_three]
  rfl

theorem sharkEats_step (p : Params) (b : Int) (r : Rand) :
    ((sharkEatsFishWorld p b).Step r).1.Grid =
      ((sharkEatsFishWorld p b).updateShark 0 0 ⟨CellType.SharkCell, 0, 2⟩
        ((sharkEatsFishWorld p b).updateFish 0 1 ⟨CellType.FishCell, b, 0⟩ (makeGrid 3) r).1
        ((sharkEatsFishWorld p b).updateFish 0 1 ⟨CellType.FishCell, b, 0⟩ (makeGrid 3) r).2).1 :=
  rfl

theorem sharkEats_choice (p : Params) (b : Int) (r : Rand) :
    (sharkEatsFishWorld p b).sharkChoice 0 0 r = ((0, 1), true, r.next) := by
  rw [sharkChoice_fish _ _ _ _ (by rw [sharkEats_fishN]; exact List.cons_ne_nil _ _)]
  rw [sharkEats_fishN]
  have h1 : (r.Intn [((0 : Nat), (1 : Nat))].length).1 = 0 := Nat.mod_one _
  rw [h1]
  rfl

theorem sharkEats_updateShark (p : Params) (b : Int) (ng : Grid) (r : Rand)
    (hs : p.Starve = 3) (hb : 2 ≤ p.SharkBreed) :
    ((sharkEatsFishWorld p b).updateShark 0 0 ⟨CellType.SharkCell, 0, 2⟩ ng r).1 =
      ng.set 0 1 (some ⟨CellType.SharkCell, 1, 3⟩) := by
  have hsd : (sharkEatsFishWorld p b).sharkDest 0 0 ng r = (0, 1) := by
    unfold World.sharkDest
    rw [sharkEats_choice]
    rfl
  have hse : (sharkEatsFishWorld p b).sharkEnergy 0 0 ⟨CellType.SharkCell, 0, 2⟩ r = 3 := by
    unfold World.sharkEnergy
    rw [sharkEats_choice]
    exact hs
  have hnb : ¬ ((0 : Int) + 1 ≥ (sharkEatsFishWorld p b).Params.SharkBreed ∧
      (((0 : Nat), (1 : Nat)).1 ≠ 0 ∨ ((0 : Nat), (1 : Nat)).2 ≠ 0)) := by
    intro h
    have h2 : (0 : Int) + 1 ≥ p.SharkBreed := h.1
    omega
  rw [updateShark_alive _ _ _ _ _ _ (by decide), hsd, hse, if_neg hnb]
  rfl

/-- C1 (the code at the scenario's input): after one `Step`, for
every outcome of the random choices, the shark is at (0,1) with energy 3 and
(0,0) is empty, but the fish has moved out of reach before the shark phase and
survives: `Count` is one fish and one shark. -/
theorem sharkEats_fish_survives (p : Params) (b : Int) (r : Rand)
    (hs : p.Starve = 3) (hb : 2 ≤ p.SharkBreed) :
    ((sharkEatsFishWorld p b).Step r).1.Grid.get 0 1 = some ⟨CellType.SharkCell, 1, 3⟩ ∧
    ((sharkEatsFishWorld p b).Step r).1.Grid.get 0 0 = none ∧
    ((sharkEatsFishWorld p b).Step r).1.Count = (1, 1) := by
  have hne : (sharkEatsFishWorld p b).emptyNeighbours 0 1 ≠ [] := by
    rw [sharkEats_empties]; exact List.cons_ne_nil _ _
  have hk : r.draws 0 % 3 < 3 := Nat.mod_lt _ (by decide)
  have hdest : (sharkEatsFishWorld p b).emptyDest 0 1 r =
      [((1 : Nat), (1 : Nat)), (0, 2), (2, 1)].getD (r.draws 0 % 3) (0, 0) := by
    unfold World.emptyDest
    rw [sharkEats_empties]
    rfl
  unfold World.Count
  rw [sharkEats_step, sharkEats_updateShark p b _ _ hs hb]
  generalize r.draws 0 % 3 = k at hk hdest
  by_cases hbr : b + 1 ≥ p.FishBreed
  · rw [updateFish_breed _ _ _ _ _ _ hne (by rw [get_makeGrid]) hbr, hdest]
    interval_cases k <;> exact ⟨rfl, rfl, rfl⟩
  · rw [updateFish_move _ _ _ _ _ _ hne (by rw [get_makeGrid]) hbr, hdest]
    interval_cases k <;> exact ⟨rfl, rfl, rfl⟩

theorem sharkEats_fish_survives_witness :
    (sampleParams.Starve = 3 ∧ 2 ≤ sampleParams.SharkBreed) ∧
    ((sharkEatsFishWorld sampleParams 0).Step (Rand.const 0)).1.Count = (1, 1) :=
  ⟨by decide, (sharkEats_fish_survives sampleParams 0 (Rand.const 0) (by decide) (by decide)).2.2⟩

/-! ## Bounds -/

theorem Grid.get_some_lt (g : Grid) (n x y : Nat) (c : Creature) (h : g.WF n)
    (hc : g.get x y = some c) : x < n ∧ y < n := by
  have hy : y < n := by
    by_contra hlt
    have : g.get x y = none := by
      unfold Grid.get
      rw [getD_length g y [] (by rw [h.1]; omega)]
      rfl
    rw [this] at hc
    cases hc
  refine ⟨?_, hy⟩
  by_contra hlt
  have : g.get x y = none := by
    unfold Grid.get
    exact getD_length _ x none (by rw [Grid.WF_row g n y h hy]; omega)
  rw [this] at hc
  cases hc

theorem getD_mem {α : Type} (l : List α) (i : Nat) (d : α) (h : i < l.length) :
    l.getD i d ∈ l := by
  rw [List.getD_eq_getElem?_getD, List.getElem?_eq_getElem h]
  exact List.getElem_mem h

theorem fishNeighbours_spec (w : World) (x y : Nat) (d : Nat × Nat)
    (h : d ∈ w.fishNeighbours x y) :
    d ∈ w.neighbours x y ∧ ∃ c, w.Grid.get d.1 d.2 = some c ∧ c.Kind = CellType.FishCell := by
  unfold World.fishNeighbours at h
  rw [List.mem_filter] at h
  refine ⟨h.1, ?_⟩
  have h2 := h.2
  cases hg : w.Grid.get d.1 d.2 with
  | none => rw [hg] at h2; cases h2
  | some c =>
    rw [hg] at h2
    exact ⟨c, rfl, of_decide_eq_true h2⟩

theorem emptyNeighbours_spec (w : World) (x y : Nat) (d : Nat × Nat)
    (h : d ∈ w.emptyNeighbours x y) :
    d ∈ w.neighbours x y ∧ w.Grid.get d.1 d.2 = none := by
  unfold World.emptyNeighbours at h
  rw [List.mem_filter] at h
  refine ⟨h.1, ?_⟩
  have h2 := h.2
  cases hg : w.Grid.get d.1 d.2 with
  | none => rfl
  | some c => rw [hg] at h2; cases h2

theorem neighbours_lt (w : World) (x y : Nat) (d : Nat × Nat) (hx : x < w.Size)
    (hy : y < w.Size) (h : d ∈ w.neighbours x y) : d.1 < w.Size ∧ d.2 < w.Size := by
  have hpos : 0 < w.Size := by omega
  rw [neighbours_eq] at h
  simp only [List.mem_cons, List.mem_singleton, List.not_mem_nil, or_false] at h
  rcases h with h | h | h | h <;> subst h <;>
    first
    | exact ⟨hx, Nat.mod_lt _ hpos⟩
    | exact ⟨Nat.mod_lt _ hpos, hy⟩

theorem sharkDest_ate (w : World) (x y : Nat) (ng : Grid) (r : Rand)
    (hf : w.fishNeighbours x y ≠ []) :
    (w.sharkChoice x y r).2.1 = true ∧ w.sharkDest x y ng r = (w.sharkChoice x y r).1 ∧
      w.sharkDest x y ng r ∈ w.fishNeighbours x y := by
  have hl : 0 < (w.fishNeighbours x y).length := List.length_pos.mpr hf
  have hc := sharkChoice_fish w x y r hf
  have hd : w.sharkDest x y ng r = (w.sharkChoice x y r).1 := by
    unfold World.sharkDest
    rw [hc]
    simp
  refine ⟨by rw [hc], hd, ?_⟩
  rw [hd, hc]
  exact getD_mem _ _ _ (Intn_fst_lt r _ hl)

/-! ## C2: a shark with a fish neighbour -/

theorem hungryShark_fishN (p : Params) :
    (hungrySharkWorld p).fishNeighbours 0 0 = [(0, 1)] := by
  unfold World.fishNeighbours hungrySharkWorld
  rw [neighbours_three]
  rfl

/-- C2 (the claim as stated fails): the shark of `hungrySharkWorld` has energy 1
and the fish at (0,1) among its previous-grid neighbours, yet `updateShark`
writes no shark at a fish-neighbour cell: the shark starves before it looks
for fish. -/
theorem hungry_shark_does_not_eat :
    (hungrySharkWorld sampleParams).Grid.get 0 0 = some ⟨CellType.SharkCell, 0, 1⟩ ∧
    (hungrySharkWorld sampleParams).fishNeighbours 0 0 ≠ [] ∧
    ¬ ∃ d ∈ (hungrySharkWorld sampleParams).fishNeighbours 0 0, ∃ b : Int,
        ((hungrySharkWorld sampleParams).updateShark 0 0 ⟨CellType.SharkCell, 0, 1⟩
          (makeGrid 3) (Rand.const 0)).1.get d.1 d.2 =
          some ⟨CellType.SharkCell, b, sampleParams.Starve⟩ := by
  refine ⟨rfl, by rw [hungryShark_fishN]; exact List.cons_ne_nil _ _, ?_⟩
  rintro ⟨d, _, b, h⟩
  rw [updateShark_starve _ _ _ _ _ _ (by decide), get_makeGrid] at h
  cases h

/-- C2 (amended): a shark with energy at least 2, whatever its breed counter,
whose previous-grid neighbourhood holds a fish marks `ate`, and for every
random choice `updateShark` writes the parent shark into the next grid at one
of those fish-neighbour cells with energy equal to the starve threshold. -/
theorem updateShark_eats (w : World) (x y : Nat) (c : Creature) (ng : Grid) (r : Rand)
    (hw : w.Grid.WF w.Size) (hng : ng.WF w.Size) (he : 2 ≤ c.Energy)
    (hf : w.fishNeighbours x y ≠ []) :
    (w.sharkChoice x y r).2.1 = true ∧
    ∃ d ∈ w.fishNeighbours x y, ∃ b : Int,
      (b = 0 ∨ b = c.BreedCounter + 1) ∧
      (w.updateShark x y c ng r).1.get d.1 d.2 =
        some ⟨CellType.SharkCell, b, w.Params.Starve⟩ := by
  obtain ⟨hate, _, hmem⟩ := sharkDest_ate w x y ng r hf
  refine ⟨hate, w.sharkDest x y ng r, hmem, ?_⟩
  obtain ⟨_, cf, hcf, _⟩ := fishNeighbours_spec w x y _ hmem
  obtain ⟨hdx, hdy⟩ := Grid.get_some_lt _ _ _ _ _ hw hcf
  have hen : w.sharkEnergy x y c r = w.Params.Starve := by
    unfold World.sharkEnergy
    rw [hate]
    rfl
  rw [updateShark_alive _ _ _ _ _ _ he, hen]
  split
  · refine ⟨0, Or.inl rfl, ?_⟩
    apply Grid.get_set_same_wf _ w.Size _ _ _ _ hdx hdy
    split
    · exact Grid.WF_set _ _ _ _ _ hng
    · exact hng
  · exact ⟨c.BreedCounter + 1, Or.inr rfl, Grid.get_set_same_wf _ w.Size _ _ _ hng hdx hdy⟩

theorem updateShark_eats_witness :
    (sharkEatsFishWorld sampleParams 0).sharkChoice 0 0 (Rand.const 0) = ((0, 1), true, (Rand.const 0).next) ∧
    ∃ d ∈ (sharkEatsFishWorld sampleParams 0).fishNeighbours 0 0, ∃ b : Int,
      (b = 0 ∨ b = 0 + 1) ∧
      ((sharkEatsFishWorld sampleParams 0).updateShark 0 0 ⟨CellType.SharkCell, 0, 2⟩
        (makeGrid 3) (Rand.const 0)).1.get d.1 d.2 =
        some ⟨CellType.SharkCell, b, sampleParams.Starve⟩ :=
  ⟨sharkEats_choice _ _ _,
   (updateShark_eats (sharkEatsFishWorld sampleParams 0) 0 0 ⟨CellType.SharkCell, 0, 2⟩
    (makeGrid 3) (Rand.const 0) (by decide) (makeGrid_WF 3) (by decide)
    (by rw [sharkEats_fishN]; exact List.cons_ne_nil _ _)).2⟩

/-! ## C3: a creature that does not move does not reproduce -/

theorem updateFish_stays (w : World) (x y : Nat) (c : Creature) (ng : Grid) (r : Rand)
    (hstay : w.emptyNeighbours x y = [] ∨
      ng.get (w.emptyDest x y r).1 (w.emptyDest x y r).2 ≠ none) :
    (w.updateFish x y c ng r).1 =
      if ng.get x y = none then
        ng.set x y (some ⟨CellType.FishCell, c.BreedCounter + 1, 0⟩) else ng := by
  by_cases he : w.emptyNeighbours x y = []
  · rw [updateFish_noEmpty _ _ _ _ _ _ he]
  · rcases hstay with h | h
    · exact absurd h he
    · rw [updateFish_blocked _ _ _ _ _ _ he h]

theorem sharkDest_stays (w : World) (x y : Nat) (ng : Grid) (r : Rand)
    (hf : w.fishNeighbours x y = [])
    (hstay : w.emptyNeighbours x y = [] ∨
      ng.get (w.emptyDest x y r).1 (w.emptyDest x y r).2 ≠ none) :
    (w.sharkChoice x y r).2.1 = false ∧ w.sharkDest x y ng r = (x, y) := by
  by_cases he : w.emptyNeighbours x y = []
  · have hc := sharkChoice_stay w x y r hf he
    refine ⟨by rw [hc], ?_⟩
    unfold World.sharkDest
    rw [hc]
    simp
  · have hc := sharkChoice_empty w x y r hf he
    have hocc : ng.get (w.emptyDest x y r).1 (w.emptyDest x y r).2 ≠ none := by
      rcases hstay with h | h
      · exact absurd h he
      · exact h
    refine ⟨by rw [hc], ?_⟩
    unfold World.sharkDest
    rw [hc]
    unfold World.emptyDest at hocc
    by_cases hmv : ((w.emptyNeighbours x y).getD (r.Intn (w.emptyNeighbours x y).length).1 (0, 0)).1 ≠ x ∨
        ((w.emptyNeighbours x y).getD (r.Intn (w.emptyNeighbours x y).length).1 (0, 0)).2 ≠ y
    · rw [if_pos ⟨by simp, hmv, hocc⟩]
    · rw [if_neg (fun h => hmv h.2.1)]
      have h1 : ((w.emptyNeighbours x y).getD (r.Intn (w.emptyNeighbours x y).length).1 (0, 0)).1 = x := by
        by_contra hc1; exact hmv (Or.inl hc1)
      have h2 : ((w.emptyNeighbours x y).getD (r.Intn (w.emptyNeighbours x y).length).1 (0, 0)).2 = y := by
        by_contra hc2; exact hmv (Or.inr hc2)
      exact Prod.ext h1 h2

theorem updateShark_stays (w : World) (x y : Nat) (c : Creature) (ng : Grid) (r : Rand)
    (he : 2 ≤ c.Energy) (hne : (w.sharkChoice x y r).2.1 = false)
    (hd : w.sharkDest x y ng r = (x, y)) :
    (w.updateShark x y c ng r).1 =
      ng.set x y (some ⟨CellType.SharkCell, c.BreedCounter + 1, c.Energy - 1⟩) := by
  have hen : w.sharkEnergy x y c r = c.Energy - 1 := by
    unfold World.sharkEnergy
    rw [hne]
    rfl
  rw [updateShark_alive _ _ _ _ _ _ he, hen, hd]
  rw [if_neg (by intro h; rcases h.2 with h2 | h2 <;> exact h2 rfl)]

/-- C3: a creature that does not move does not reproduce, whatever its breed
counter.  A fish with no previous-grid empty neighbour, or whose drawn
destination is occupied in the next grid, changes no cell but its origin, and
there writes (if the cell is free) a fish with counter old+1.  A shark with
energy at least 2, no fish neighbour, and no empty neighbour or an occupied
drawn one, has its origin as final destination and changes only the origin
cell, writing a shark with counter old+1 and energy old-1. -/
theorem no_move_no_reproduction (w : World) (x y : Nat) (c : Creature) (ng : Grid) (r : Rand)
    (hng : ng.WF w.Size) (hx : x < w.Size) (hy : y < w.Size)
    (hstay : w.emptyNeighbours x y = [] ∨
      ng.get (w.emptyDest x y r).1 (w.emptyDest x y r).2 ≠ none) :
    ((∀ x1 y1, (x1 ≠ x ∨ y1 ≠ y) → (w.updateFish x y c ng r).1.get x1 y1 = ng.get x1 y1) ∧
      (ng.get x y ≠ none → (w.updateFish x y c ng r).1 = ng) ∧
      (ng.get x y = none → (w.updateFish x y c ng r).1.get x y =
        some ⟨CellType.FishCell, c.BreedCounter + 1, 0⟩)) ∧
    (2 ≤ c.Energy → w.fishNeighbours x y = [] →
      w.sharkDest x y ng r = (x, y) ∧
      (∀ x1 y1, (x1 ≠ x ∨ y1 ≠ y) → (w.updateShark x y c ng r).1.get x1 y1 = ng.get x1 y1) ∧
      (w.updateShark x y c ng r).1.get x y =
        some ⟨CellType.SharkCell, c.BreedCounter + 1, c.Energy - 1⟩) := by
  constructor
  · rw [updateFish_stays w x y c ng r hstay]
    refine ⟨?_, ?_, ?_⟩
    · intro x1 y1 hne
      split
      · exact Grid.get_set_ne _ _ _ _ _ _ hne
      · rfl
    · intro hocc
      rw [if_neg hocc]
    · intro hfree
      rw [if_pos hfree]
      exact Grid.get_set_same_wf _ _ _ _ _ hng hx hy
  · intro he hf
    obtain ⟨hne, hd⟩ := sharkDest_stays w x y ng r hf hstay
    rw [updateShark_stays w x y c ng r he hne hd]
    exact ⟨hd, fun x1 y1 h => Grid.get_set_ne _ _ _ _ _ _ h,
      Grid.get_set_same_wf _ _ _ _ _ hng hx hy⟩

theorem neighbours_of_size (w : World) (n x y : Nat) (h : w.Size = n) :
    w.neighbours x y =
      [ (x, (y + n - 1) % n), ((x + 1) % n, y), (x, (y + 1) % n), ((x + n - 1) % n, y) ] := by
  subst h
  exact neighbours_eq w x y

theorem lonely_empties (c : Creature) : (lonelyWorld c).emptyNeighbours 0 0 = [] := by
  unfold World.emptyNeighbours
  rw [neighbours_of_size _ 1 _ _ rfl]
  rfl

theorem lonely_fishN (b e : Int) :
    (lonelyWorld ⟨CellType.SharkCell, b, e⟩).fishNeighbours 0 0 = [] := by
  unfold World.fishNeighbours
  rw [neighbours_of_size _ 1 _ _ rfl]
  rfl

theorem no_move_no_reproduction_witness :
    ((lonelyWorld ⟨CellType.FishCell, 10, 0⟩).emptyNeighbours 0 0 = [] ∧
      (10 : Int) + 1 ≥ (lonelyWorld ⟨CellType.FishCell, 10, 0⟩).Params.FishBreed) ∧
    ((lonelyWorld ⟨CellType.FishCell, 10, 0⟩).updateFish 0 0 ⟨CellType.FishCell, 10, 0⟩
      (makeGrid 1) (Rand.const 0)).1.get 0 0 = some ⟨CellType.FishCell, 10 + 1, 0⟩ ∧
    ((lonelyWorld ⟨CellType.SharkCell, 10, 5⟩).updateShark 0 0 ⟨CellType.SharkCell, 10, 5⟩
      (makeGrid 1) (Rand.const 0)).1.get 0 0 = some ⟨CellType.SharkCell, 10 + 1, 5 - 1⟩ :=
  ⟨⟨lonely_empties _, by decide⟩,
   (no_move_no_reproduction (lonelyWorld ⟨CellType.FishCell, 10, 0⟩) 0 0
      ⟨CellType.FishCell, 10, 0⟩ (makeGrid 1) (Rand.const 0) (makeGrid_WF 1) (by decide)
      (by decide) (Or.inl (lonely_empties _))).1.2.2 rfl,
   ((no_move_no_reproduction (lonelyWorld ⟨CellType.SharkCell, 10, 5⟩) 0 0
      ⟨CellType.SharkCell, 10, 5⟩ (makeGrid 1) (Rand.const 0) (makeGrid_WF 1) (by decide)
      (by decide) (Or.inl (lonely_empties _))).2 (by decide) (lonely_fishN _ _)).2.2⟩

/-! ## Invariants of the update rules -/

theorem foldl_inv {α β : Type} (I : β → Prop) (f : β → α → β) (l : List α) (init : β)
    (h0 : I init) (hstep : ∀ st a, a ∈ l → I st → I (f st a)) : I (l.foldl f init) := by
  induction l generalizing init with
  | nil => exact h0
  | cons a t ih =>
    rw [List.foldl_cons]
    apply ih
    · exact hstep init a (List.mem_cons_self a t) h0
    · intro st b hb hI
      exact hstep st b (List.mem_cons_of_mem a hb) hI

theorem Grid.All_set (P : Creature → Prop) (g : Grid) (x y : Nat) (c : Creature)
    (hg : Grid.All P g) (hc : P c) : Grid.All P (g.set x y (some c)) := by
  intro x1 y1 c1 h1
  rcases Grid.get_set_cases g x y x1 y1 (some c) with h | h
  · rw [h] at h1
    cases h1
    exact hc
  · rw [h] at h1
    exact hg x1 y1 c1 h1

theorem Grid.All_makeGrid (P : Creature → Prop) (n : Nat) : Grid.All P (makeGrid n) := by
  intro x y c h
  rw [get_makeGrid] at h
  cases h

theorem updateFish_All (P : Creature → Prop) (w : World) (x y : Nat) (c : Creature)
    (ng : Grid) (r : Rand)
    (hP : ∀ b : Int, (b = 0 ∨ b = c.BreedCounter + 1) → P ⟨CellType.FishCell, b, 0⟩)
    (hng : Grid.All P ng) : Grid.All P (w.updateFish x y c ng r).1 := by
  have hstay : Grid.All P (if ng.get x y = none then
      ng.set x y (some ⟨CellType.FishCell, c.BreedCounter + 1, 0⟩) else ng) := by
    split
    · exact Grid.All_set P _ _ _ _ hng (hP _ (Or.inr rfl))
    · exact hng
  by_cases he : w.emptyNeighbours x y = []
  · rw [updateFish_noEmpty _ _ _ _ _ _ he]
    exact hstay
  · by_cases hd : ng.get (w.emptyDest x y r).1 (w.emptyDest x y r).2 = none
    · by_cases hb : c.BreedCounter + 1 ≥ w.Params.FishBreed
      · rw [updateFish_breed _ _ _ _ _ _ he hd hb]
        apply Grid.All_set P _ _ _ _ _ (hP _ (Or.inl rfl))
        split
        · exact Grid.All_set P _ _ _ _ hng (hP _ (Or.inl rfl))
        · exact hng
      · rw [updateFish_move _ _ _ _ _ _ he hd hb]
        exact Grid.All_set P _ _ _ _ hng (hP _ (Or.inr rfl))
    · rw [updateFish_blocked _ _ _ _ _ _ he hd]
      exact hstay

theorem sharkEnergy_cases (w : World) (x y : Nat) (c : Creature) (r : Rand) :
    w.sharkEnergy x y c r = w.Params.Starve ∨ w.sharkEnergy x y c r = c.Energy - 1 := by
  unfold World.sharkEnergy
  split
  · exact Or.inl rfl
  · exact Or.inr rfl

theorem updateShark_All (P : Creature → Prop) (w : World) (x y : Nat) (c : Creature)
    (ng : Grid) (r : Rand)
    (hchild : 2 ≤ c.Energy → P ⟨CellType.SharkCell, 0, w.Params.Starve⟩)
    (hparent : 2 ≤ c.Energy → ∀ b e : Int, (b = 0 ∨ b = c.BreedCounter + 1) →
      (e = w.Params.Starve ∨ e = c.Energy - 1) → P ⟨CellType.SharkCell, b, e⟩)
    (hng : Grid.All P ng) : Grid.All P (w.updateShark x y c ng r).1 := by
  by_cases he : c.Energy ≤ 1
  · rw [updateShark_starve _ _ _ _ _ _ he]
    exact hng
  · have he2 : 2 ≤ c.Energy := by omega
    rw [updateShark_alive _ _ _ _ _ _ he2]
    split
    · apply Grid.All_set P _ _ _ _ _ (hparent he2 _ _ (Or.inl rfl) (sharkEnergy_cases w x y c r))
      split
      · exact Grid.All_set P _ _ _ _ hng (hchild he2)
      · exact hng
    · exact Grid.All_set P _ _ _ _ hng
        (hparent he2 _ _ (Or.inr rfl) (sharkEnergy_cases w x y c r))

theorem fishPhase_All (P : Creature → Prop) (w : World) (ys : List Nat) (st : Grid × Rand)
    (hP : ∀ x y c, w.Grid.get x y = some c → c.Kind = CellType.FishCell →
      ∀ b : Int, (b = 0 ∨ b = c.BreedCounter + 1) → P ⟨CellType.FishCell, b, 0⟩)
    (hst : Grid.All P st.1) : Grid.All P (w.fishPhase ys st).1 := by
  unfold World.fishPhase
  apply foldl_inv (fun s : Grid × Rand => Grid.All P s.1) _ _ _ hst
  intro s y _ hs
  apply foldl_inv (fun s : Grid × Rand => Grid.All P s.1) _ _ _ hs
  intro s1 x _ hs1
  cases hg : w.Grid.get x y with
  | none => exact hs1
  | some c =>
    show Grid.All P (if c.Kind ≠ CellType.FishCell then s1 else w.updateFish x y c s1.1 s1.2).1
    split
    · exact hs1
    · rename_i hk
      exact updateFish_All P w x y c _ _ (hP x y c hg (not_not.mp hk)) hs1

theorem sharkPhase_All (P : Creature → Prop) (w : World) (ys : List Nat) (st : Grid × Rand)
    (hchild : ∀ x y c, w.Grid.get x y = some c → c.Kind = CellType.SharkCell →
      2 ≤ c.Energy → P ⟨CellType.SharkCell, 0, w.Params.Starve⟩)
    (hparent : ∀ x y c, w.Grid.get x y = some c → c.Kind = CellType.SharkCell →
      2 ≤ c.Energy → ∀ b e : Int, (b = 0 ∨ b = c.BreedCounter + 1) →
      (e = w.Params.Starve ∨ e = c.Energy - 1) → P ⟨CellType.SharkCell, b, e⟩)
    (hst : Grid.All P st.1) : Grid.All P (w.sharkPhase ys st).1 := by
  unfold World.sharkPhase
  apply foldl_inv (fun s : Grid × Rand => Grid.All P s.1) _ _ _ hst
  intro s y _ hs
  apply foldl_inv (fun s : Grid × Rand => Grid.All P s.1) _ _ _ hs
  intro s1 x _ hs1
  cases hg : w.Grid.get x y with
  | none => exact hs1
  | some c =>
    show Grid.All P (if c.Kind ≠ CellType.SharkCell then s1 else w.updateShark x y c s1.1 s1.2).1
    split
    · exact hs1
    · rename_i hk
      exact updateShark_All P w x y c _ _ (hchild x y c hg (not_not.mp hk))
        (hparent x y c hg (not_not.mp hk)) hs1

/-! ## The merge of `StepParallel` -/

theorem mergeCell_foldl_mem (cs : List (Option Creature)) (chosen : Option Creature)
    (c : Creature) (h : cs.foldl mergeStep chosen = some c) :
    chosen = some c ∨ some c ∈ cs := by
  induction cs generalizing chosen with
  | nil => exact Or.inl h
  | cons a t ih =>
    rw [List.foldl_cons] at h
    rcases ih _ h with h1 | h1
    · cases a with
      | none => exact Or.inl h1
      | some a1 =>
        cases chosen with
        | none => exact Or.inr (by rw [← h1]; exact List.mem_cons_self _ _)
        | some ch =>
          unfold mergeStep at h1
          simp only at h1
          split at h1
          · exact Or.inr (by rw [← h1]; exact List.mem_cons_self _ _)
          · exact Or.inl h1
    · exact Or.inr (List.mem_cons_of_mem _ h1)

theorem mergeCell_mem (cs : List (Option Creature)) (c : Creature)
    (h : mergeCell cs = some c) : some c ∈ cs := by
  rcases mergeCell_foldl_mem cs none c h with h1 | h1
  · cases h1
  · exact h1

theorem getD_map_range {α : Type} (f : Nat → α) (n i : Nat) (d : α) :
    ((List.range n).map f).getD i d = if i < n then f i else d := by
  rw [List.getD_eq_getElem?_getD, List.getElem?_map]
  by_cases h : i < n
  · rw [List.getElem?_range h, if_pos h]
    rfl
  · rw [List.getElem?_eq_none (by rw [List.length_range]; omega), if_neg h]
    rfl

theorem get_mergeGrids (n : Nat) (lgs : List Grid) (x y : Nat) (hx : x < n) (hy : y < n) :
    (mergeGrids n lgs).get x y = mergeCell (lgs.map (fun lg => lg.get x y)) := by
  unfold Grid.get mergeGrids
  rw [getD_map_range, if_pos hy, getD_map_range, if_pos hx]
  rfl

theorem get_mergeGrids_outside (n : Nat) (lgs : List Grid) (x y : Nat)
    (h : ¬ (x < n ∧ y < n)) : (mergeGrids n lgs).get x y = none := by
  unfold Grid.get mergeGrids
  rw [getD_map_range]
  by_cases hy : y < n
  · have hx : ¬ x < n := fun hx => h ⟨hx, hy⟩
    rw [if_pos hy, getD_map_range, if_neg hx]
  · rw [if_neg hy]
    rfl

theorem mergeGrids_WF (n : Nat) (lgs : List Grid) : (mergeGrids n lgs).WF n := by
  refine ⟨by simp [mergeGrids], ?_⟩
  intro row hrow
  unfold mergeGrids at hrow
  rw [List.mem_map] at hrow
  obtain ⟨y, _, hy⟩ := hrow
  rw [← hy]
  simp

theorem mergeGrids_All (P : Creature → Prop) (n : Nat) (lgs : List Grid)
    (h : ∀ lg ∈ lgs, Grid.All P lg) : Grid.All P (mergeGrids n lgs) := by
  intro x y c hc
  by_cases hb : x < n ∧ y < n
  · rw [get_mergeGrids n lgs x y hb.1 hb.2] at hc
    have hm := mergeCell_mem _ c hc
    rw [List.mem_map] at hm
    obtain ⟨lg, hlg, hget⟩ := hm
    exact h lg hlg x y c hget
  · rw [get_mergeGrids_outside n lgs x y hb] at hc
    cases hc

theorem worker_All (P : Creature → Prop) (w : World) (startY endY : Nat) (r : Rand)
    (hfish : ∀ x y c, w.Grid.get x y = some c → c.Kind = CellType.FishCell →
      ∀ b : Int, (b = 0 ∨ b = c.BreedCounter + 1) → P ⟨CellType.FishCell, b, 0⟩)
    (hchild : ∀ x y c, w.Grid.get x y = some c → c.Kind = CellType.SharkCell →
      2 ≤ c.Energy → P ⟨CellType.SharkCell, 0, w.Params.Starve⟩)
    (hparent : ∀ x y c, w.Grid.get x y = some c → c.Kind = CellType.SharkCell →
      2 ≤ c.Energy → ∀ b e : Int, (b = 0 ∨ b = c.BreedCounter + 1) →
      (e = w.Params.Starve ∨ e = c.Energy - 1) → P ⟨CellType.SharkCell, b, e⟩) :
    Grid.All P (w.worker startY endY (makeGrid w.Size) r) := by
  unfold World.worker
  apply sharkPhase_All P w _ _ hchild hparent
  apply fishPhase_All P w _ _ hfish
  exact Grid.All_makeGrid P _

theorem Step_All (P : Creature → Prop) (w : World) (r : Rand)
    (hfish : ∀ x y c, w.Grid.get x y = some c → c.Kind = CellType.FishCell →
      ∀ b : Int, (b = 0 ∨ b = c.BreedCounter + 1) → P ⟨CellType.FishCell, b, 0⟩)
    (hchild : ∀ x y c, w.Grid.get x y = some c → c.Kind = CellType.SharkCell →
      2 ≤ c.Energy → P ⟨CellType.SharkCell, 0, w.Params.Starve⟩)
    (hparent : ∀ x y c, w.Grid.get x y = some c → c.Kind = CellType.SharkCell →
      2 ≤ c.Energy → ∀ b e : Int, (b = 0 ∨ b = c.BreedCounter + 1) →
      (e = w.Params.Starve ∨ e = c.Energy - 1) → P ⟨CellType.SharkCell, b, e⟩) :
    Grid.All P (w.Step r).1.Grid := by
  unfold World.Step
  apply sharkPhase_All P w _ _ hchild hparent
  apply fishPhase_All P w _ _ hfish
  exact Grid.All_makeGrid P _

theorem StepParallel_seq (w : World) (threads : Int) (r : Rand) (rs : Nat → Rand)
    (ht : threads ≤ 1) : w.StepParallel threads r rs = some (w.Step r).1 := by
  unfold World.StepParallel
  rw [if_pos ht]

theorem StepParallel_par (w : World) (threads : Int) (r : Rand) (rs : Nat → Rand)
    (ht : ¬ threads ≤ 1) :
    w.StepParallel threads r rs =
      if w.cappedThreads threads = 0 then none
      else some { w with Grid := (mergeGrids w.Size
        (w.localGrids (w.cappedThreads threads) (w.rowsPerThread threads) rs)) } := by
  unfold World.StepParallel
  rw [if_neg ht]
  rfl

theorem cappedThreads_pos (w : World) (threads : Int) (hsize : 1 ≤ w.Size)
    (ht : ¬ threads ≤ 1) : 1 ≤ w.cappedThreads threads := by
  unfold World.cappedThreads
  split <;> omega

theorem StepParallel_isSome (w : World) (threads : Int) (r : Rand) (rs : Nat → Rand)
    (hsize : 1 ≤ w.Size) : (w.StepParallel threads r rs).isSome = true := by
  by_cases ht : threads ≤ 1
  · rw [StepParallel_seq _ _ _ _ ht]
    rfl
  · have hpos := cappedThreads_pos w threads hsize ht
    rw [StepParallel_par _ _ _ _ ht, if_neg (by omega)]
    rfl

theorem localGrids_All (P : Creature → Prop) (w : World) (threads rows : Nat)
    (rs : Nat → Rand)
    (hfish : ∀ x y c, w.Grid.get x y = some c → c.Kind = CellType.FishCell →
      ∀ b : Int, (b = 0 ∨ b = c.BreedCounter + 1) → P ⟨CellType.FishCell, b, 0⟩)
    (hchild : ∀ x y c, w.Grid.get x y = some c → c.Kind = CellType.SharkCell →
      2 ≤ c.Energy → P ⟨CellType.SharkCell, 0, w.Params.Starve⟩)
    (hparent : ∀ x y c, w.Grid.get x y = some c → c.Kind = CellType.SharkCell →
      2 ≤ c.Energy → ∀ b e : Int, (b = 0 ∨ b = c.BreedCounter + 1) →
      (e = w.Params.Starve ∨ e = c.Energy - 1) → P ⟨CellType.SharkCell, b, e⟩) :
    ∀ lg ∈ w.localGrids threads rows rs, Grid.All P lg := by
  intro lg hlg
  unfold World.localGrids at hlg
  rw [List.mem_map] at hlg
  obtain ⟨t, _, ht⟩ := hlg
  rw [← ht]
  simp only
  split
  · exact Grid.All_makeGrid P _
  · exact worker_All P w _ _ _ hfish hchild hparent

theorem StepParallel_All (P : Creature → Prop) (w w1 : World) (threads : Int) (r : Rand)
    (rs : Nat → Rand)
    (hfish : ∀ x y c, w.Grid.get x y = some c → c.Kind = CellType.FishCell →
      ∀ b : Int, (b = 0 ∨ b = c.BreedCounter + 1) → P ⟨CellType.FishCell, b, 0⟩)
    (hchild : ∀ x y c, w.Grid.get x y = some c → c.Kind = CellType.SharkCell →
      2 ≤ c.Energy → P ⟨CellType.SharkCell, 0, w.Params.Starve⟩)
    (hparent : ∀ x y c, w.Grid.get x y = some c → c.Kind = CellType.SharkCell →
      2 ≤ c.Energy → ∀ b e : Int, (b = 0 ∨ b = c.BreedCounter + 1) →
      (e = w.Params.Starve ∨ e = c.Energy - 1) → P ⟨CellType.SharkCell, b, e⟩)
    (h : w.StepParallel threads r rs = some w1) : Grid.All P w1.Grid := by
  by_cases ht : threads ≤ 1
  · rw [StepParallel_seq _ _ _ _ ht] at h
    cases h
    exact Step_All P w r hfish hchild hparent
  · rw [StepParallel_par _ _ _ _ ht] at h
    split at h
    · cases h
    · cases h
      exact mergeGrids_All P _ _ (localGrids_All P w _ _ rs hfish hchild hparent)

/-! ## C4: the energy cap -/

theorem Grid.get_mem (g : Grid) (x y : Nat) (c : Creature) (h : g.get x y = some c) :
    ∃ row ∈ g, some c ∈ row := by
  unfold Grid.get at h
  by_cases hy : y < g.length
  · by_cases hx : x < (g.getD y []).length
    · refine ⟨g.getD y [], getD_mem g y [] hy, ?_⟩
      rw [← h]
      exact getD_mem _ x none hx
    · rw [getD_length _ x none (by omega)] at h
      cases h
  · rw [getD_length g y [] (by omega)] at h
    cases h

theorem Grid.All_of_allCells (P : Creature → Prop) (p : Creature → Bool) (g : Grid)
    (hp : ∀ c, p c = true → P c) (h : g.allCells p = true) : Grid.All P g := by
  intro x y c hc
  obtain ⟨row, hrow, hmem⟩ := Grid.get_mem g x y c hc
  unfold Grid.allCells at h
  rw [List.all_eq_true] at h
  have h1 := h row hrow
  rw [List.all_eq_true] at h1
  exact hp c (h1 (some c) hmem)

theorem Step_energy (w : World) (r : Rand) (hst : 1 ≤ w.Params.Starve)
    (hcap : Grid.All (energyCapped w.Params.Starve) w.Grid) :
    Grid.All (energyInRange w.Params.Starve) (w.Step r).1.Grid := by
  apply Step_All
  · intro _ _ _ _ _ _ _ hk
    cases hk
  · intro _ _ _ _ _ _ _
    exact ⟨hst, le_refl _⟩
  · intro x y c hg hk he b e _ hee _
    have hc : c.Energy ≤ w.Params.Starve := hcap x y c hg hk
    show 1 ≤ e ∧ e ≤ w.Params.Starve
    rcases hee with h | h <;> subst h <;> constructor <;> omega

theorem StepParallel_energy (w w1 : World) (threads : Int) (r : Rand) (rs : Nat → Rand)
    (hst : 1 ≤ w.Params.Starve) (hcap : Grid.All (energyCapped w.Params.Starve) w.Grid)
    (h : w.StepParallel threads r rs = some w1) :
    Grid.All (energyInRange w.Params.Starve) w1.Grid := by
  refine StepParallel_All (energyInRange w.Params.Starve) w w1 threads r rs ?_ ?_ ?_ h
  · intro _ _ _ _ _ _ _ hk
    cases hk
  · intro _ _ _ _ _ _ _
    exact ⟨hst, le_refl _⟩
  · intro x y c hg hk he b e _ hee _
    have hc : c.Energy ≤ w.Params.Starve := hcap x y c hg hk
    show 1 ≤ e ∧ e ≤ w.Params.Starve
    rcases hee with h | h <;> subst h <;> constructor <;> omega

theorem energyCapped_of_inRange (s : Int) (g : Grid) (h : Grid.All (energyInRange s) g) :
    Grid.All (energyCapped s) g :=
  fun x y c hc hk => (h x y c hc hk).2

theorem StepParallel_params (w w1 : World) (threads : Int) (r : Rand) (rs : Nat → Rand)
    (h : w.StepParallel threads r rs = some w1) : w1.Params = w.Params ∧ w1.Size = w.Size := by
  by_cases ht : threads ≤ 1
  · rw [StepParallel_seq _ _ _ _ ht] at h
    cases h
    exact ⟨rfl, rfl⟩
  · rw [StepParallel_par _ _ _ _ ht] at h
    split at h
    · cases h
    · cases h
      exact ⟨rfl, rfl⟩

theorem iterStep_energy (n : Nat) (w : World) (r : Rand) (hst : 1 ≤ w.Params.Starve)
    (hcap : Grid.All (energyCapped w.Params.Starve) w.Grid) :
    Grid.All (energyCapped w.Params.Starve) (iterStep n w r).1.Grid := by
  induction n generalizing w r with
  | zero => exact hcap
  | succ k ih =>
    show Grid.All _ (iterStep k (w.Step r).1 (w.Step r).2).1.Grid
    exact ih (w.Step r).1 (w.Step r).2 hst
      (energyCapped_of_inRange _ _ (Step_energy w r hst hcap))

theorem iterStepParallel_energy (threads : Int) (n : Nat) (w w1 : World) (r : Nat → Rand)
    (rs : Nat → Nat → Rand) (hst : 1 ≤ w.Params.Starve)
    (hcap : Grid.All (energyCapped w.Params.Starve) w.Grid)
    (h : iterStepParallel threads n w r rs = some w1) :
    Grid.All (energyCapped w.Params.Starve) w1.Grid := by
  induction n generalizing w r rs with
  | zero =>
    cases h
    exact hcap
  | succ k ih =>
    unfold iterStepParallel at h
    cases hs : w.StepParallel threads (r 0) (rs 0) with
    | none =>
      rw [hs] at h
      cases h
    | some w2 =>
      rw [hs] at h
      have hp := (StepParallel_params w w2 threads _ _ hs).1
      have h2 := energyCapped_of_inRange _ _ (StepParallel_energy w w2 threads _ _ hst hcap hs)
      rw [← hp] at h2 hst ⊢
      exact ih w2 _ _ hst h2 h

/-- C4: if the starve threshold is at least 1 and every shark of the current
grid has energy at most the starve threshold, then after one `Step`, and after
one `StepParallel` with any thread count, for every outcome of the random
choices every shark of the new grid has energy between 1 and the starve
threshold; on a grid of size at least 1 `StepParallel` does return a world.
Hence the cap holds after any number of sequential or parallel steps. -/
theorem energy_cap_preserved (w : World) (hst : 1 ≤ w.Params.Starve)
    (hcap : Grid.All (energyCapped w.Params.Starve) w.Grid) :
    (∀ r : Rand, Grid.All (energyInRange w.Params.Starve) (w.Step r).1.Grid) ∧
    (∀ (threads : Int) (r : Rand) (rs : Nat → Rand) (w1 : World),
      w.StepParallel threads r rs = some w1 →
      Grid.All (energyInRange w.Params.Starve) w1.Grid) ∧
    (1 ≤ w.Size → ∀ (threads : Int) (r : Rand) (rs : Nat → Rand),
      (w.StepParallel threads r rs).isSome = true) ∧
    (∀ (n : Nat) (r : Rand),
      Grid.All (energyCapped w.Params.Starve) (iterStep n w r).1.Grid) ∧
    (∀ (threads : Int) (n : Nat) (r : Nat → Rand) (rs : Nat → Nat → Rand) (w1 : World),
      iterStepParallel threads n w r rs = some w1 →
      Grid.All (energyCapped w.Params.Starve) w1.Grid) :=
  ⟨fun r => Step_energy w r hst hcap,
    fun threads r rs w1 h => StepParallel_energy w w1 threads r rs hst hcap h,
    fun hsize threads r rs => StepParallel_isSome w threads r rs hsize,
    fun n r => iterStep_energy n w r hst hcap,
    fun threads n r rs w1 h => iterStepParallel_energy threads n w w1 r rs hst hcap h⟩

theorem energy_cap_preserved_witness :
    (1 ≤ (sharkEatsFishWorld sampleParams 0).Params.Starve ∧
      Grid.allCells (fun c => decide (energyCapped 3 c))
        (sharkEatsFishWorld sampleParams 0).Grid = true) ∧
    Grid.All (energyInRange 3) ((sharkEatsFishWorld sampleParams 0).Step (Rand.const 0)).1.Grid :=
  ⟨⟨by decide, by decide⟩,
   (energy_cap_preserved (sharkEatsFishWorld sampleParams 0) (by decide)
    (Grid.All_of_allCells _ (fun c => decide (energyCapped 3 c)) _
      (fun _ h => of_decide_eq_true h) (by decide))).1 (Rand.const 0)⟩

/-! ## C5: which writes check occupancy -/

theorem Grid.get_set_of_occupied (g : Grid) (x y x1 y1 : Nat) (v : Option Creature)
    (hocc : g.get x1 y1 ≠ none) (hfree : g.get x y = none) :
    (g.set x y v).get x1 y1 = g.get x1 y1 := by
  apply Grid.get_set_ne
  by_contra hc
  have hx : x1 = x := by by_contra h; exact hc (Or.inl h)
  have hy : y1 = y := by by_contra h; exact hc (Or.inr h)
  subst hx; subst hy
  exact hocc hfree

theorem updateFish_keeps_occupied (w : World) (x y : Nat) (c : Creature) (ng : Grid)
    (r : Rand) (x1 y1 : Nat) (hocc : ng.get x1 y1 ≠ none) :
    (w.updateFish x y c ng r).1.get x1 y1 = ng.get x1 y1 := by
  have hstay : ∀ v, (if ng.get x y = none then ng.set x y v else ng).get x1 y1 =
      ng.get x1 y1 := by
    intro v
    split
    · rename_i hfree
      exact Grid.get_set_of_occupied ng x y x1 y1 v hocc hfree
    · rfl
  by_cases he : w.emptyNeighbours x y = []
  · rw [updateFish_noEmpty _ _ _ _ _ _ he]
    exact hstay _
  · by_cases hd : ng.get (w.emptyDest x y r).1 (w.emptyDest x y r).2 = none
    · have hne : x1 ≠ (w.emptyDest x y r).1 ∨ y1 ≠ (w.emptyDest x y r).2 := by
        by_contra hc
        have hx : x1 = (w.emptyDest x y r).1 := by by_contra h; exact hc (Or.inl h)
        have hy : y1 = (w.emptyDest x y r).2 := by by_contra h; exact hc (Or.inr h)
        rw [hx, hy] at hocc
        exact hocc hd
      by_cases hb : c.BreedCounter + 1 ≥ w.Params.FishBreed
      · rw [updateFish_breed _ _ _ _ _ _ he hd hb]
        show Grid.get (Grid.set _ _ _ _) x1 y1 = _
        rw [Grid.get_set_ne _ _ _ _ _ _ hne]
        exact hstay _
      · rw [updateFish_move _ _ _ _ _ _ he hd hb]
        exact Grid.get_set_ne _ _ _ _ _ _ hne
    · rw [updateFish_blocked _ _ _ _ _ _ he hd]
      exact hstay _

theorem sharkDest_cases (w : World) (x y : Nat) (ng : Grid) (r : Rand) :
    w.sharkDest x y ng r ∈ w.fishNeighbours x y ∨ w.sharkDest x y ng r = (x, y) ∨
      ng.get (w.sharkDest x y ng r).1 (w.sharkDest x y ng r).2 = none := by
  by_cases hf : w.fishNeighbours x y = []
  · right
    by_cases hocc : ng.get (w.emptyDest x y r).1 (w.emptyDest x y r).2 = none
    · by_cases he : w.emptyNeighbours x y = []
      · exact Or.inl (sharkDest_stays w x y ng r hf (Or.inl he)).2
      · right
        have hc := sharkChoice_empty w x y r hf he
        have hd : w.sharkDest x y ng r = w.emptyDest x y r := by
          unfold World.sharkDest
          rw [hc]
          unfold World.emptyDest at hocc
          rw [if_neg (fun h => h.2.2 hocc)]
          rfl
        rw [hd]
        exact hocc
    · exact Or.inl (sharkDest_stays w x y ng r hf (Or.inr hocc)).2
  · exact Or.inl (sharkDest_ate w x y ng r hf).2.2

theorem updateShark_keeps_occupied (w : World) (x y : Nat) (c : Creature) (ng : Grid)
    (r : Rand) (x1 y1 : Nat) (hocc : ng.get x1 y1 ≠ none) (horig : x1 ≠ x ∨ y1 ≠ y)
    (hfn : (x1, y1) ∉ w.fishNeighbours x y) :
    (w.updateShark x y c ng r).1.get x1 y1 = ng.get x1 y1 := by
  by_cases he : c.Energy ≤ 1
  · rw [updateShark_starve _ _ _ _ _ _ he]
  · have hne : x1 ≠ (w.sharkDest x y ng r).1 ∨ y1 ≠ (w.sharkDest x y ng r).2 := by
      by_contra hc
      have hx : x1 = (w.sharkDest x y ng r).1 := by by_contra h; exact hc (Or.inl h)
      have hy : y1 = (w.sharkDest x y ng r).2 := by by_contra h; exact hc (Or.inr h)
      have hp : (x1, y1) = w.sharkDest x y ng r := Prod.ext hx hy
      rcases sharkDest_cases w x y ng r with h | h | h
      · rw [← hp] at h
        exact hfn h
      · rw [← hp] at h
        cases h
        rcases horig with h1 | h1 <;> exact h1 rfl
      · rw [← hp] at h
        exact hocc h
    rw [updateShark_alive _ _ _ _ _ _ (by omega)]
    split
    · show Grid.get (Grid.set _ _ _ _) x1 y1 = _
      rw [Grid.get_set_ne _ _ _ _ _ _ hne]
      split
      · exact Grid.get_set_ne _ _ _ _ _ _ horig
      · rfl
    · exact Grid.get_set_ne _ _ _ _ _ _ hne

/-- C5 (the claim as stated fails): in `sharkEatsFishWorld` with `FishBreed = 1`
the fish phase of `Step` writes a child fish into next-grid cell (0,1); the
shark update that follows writes the shark into that occupied cell and the
fish written there is replaced. -/
theorem shark_replaces_written_fish :
    ((sharkEatsFishWorld breedingParams 0).fishPhase (List.range 3)
        (makeGrid 3, Rand.const 0)).1.get 0 1 = some ⟨CellType.FishCell, 0, 0⟩ ∧
    ((sharkEatsFishWorld breedingParams 0).updateShark 0 0 ⟨CellType.SharkCell, 0, 2⟩
        ((sharkEatsFishWorld breedingParams 0).fishPhase (List.range 3)
          (makeGrid 3, Rand.const 0)).1
        ((sharkEatsFishWorld breedingParams 0).fishPhase (List.range 3)
          (makeGrid 3, Rand.const 0)).2).1.get 0 1 = some ⟨CellType.SharkCell, 1, 3⟩ ∧
    ((sharkEatsFishWorld breedingParams 0).Step (Rand.const 0)).1.Grid.get 0 1 =
      some ⟨CellType.SharkCell, 1, 3⟩ := by
  decide

/-! ## C6: a single fish breeds -/

theorem singleFish_empties (p : Params) :
    (singleFishWorld p).emptyNeighbours 0 0 = originNeighbours3 := by
  unfold World.emptyNeighbours singleFishWorld
  rw [neighbours_three]
  rfl

theorem singleFish_step (p : Params) (r : Rand) :
    ((singleFishWorld p).Step r).1 =
      ⟨3, ((singleFishWorld p).updateFish 0 0 ⟨CellType.FishCell, 0, 0⟩ (makeGrid 3) r).1, p⟩ :=
  rfl

theorem singleFish_grid (p : Params) (r : Rand) (hfb : p.FishBreed = 1) :
    ((singleFishWorld p).Step r).1 = ⟨3, twoFishGrid (r.draws 0 % 4), p⟩ := by
  have hne : (singleFishWorld p).emptyNeighbours 0 0 ≠ [] := by
    rw [singleFish_empties]; exact List.cons_ne_nil _ _
  have hdest : (singleFishWorld p).emptyDest 0 0 r =
      originNeighbours3.getD (r.draws 0 % 4) (0, 0) := by
    unfold World.emptyDest
    rw [singleFish_empties]
    rfl
  have hb : (0 : Int) + 1 ≥ (singleFishWorld p).Params.FishBreed := by
    show (0 : Int) + 1 ≥ p.FishBreed
    omega
  rw [singleFish_step, updateFish_breed _ _ _ _ _ _ hne (by rw [get_makeGrid]) hb, hdest]
  rfl

theorem Count_params (n : Nat) (g : Grid) (p q : Params) :
    (World.mk n g p).Count = (World.mk n g q).Count := rfl

theorem twoFishGrid_spec : ∀ k < 4,
    (twoFishGrid k).get 0 0 = some ⟨CellType.FishCell, 0, 0⟩ ∧
    (∃ d ∈ originNeighbours3,
      (twoFishGrid k).get d.1 d.2 = some ⟨CellType.FishCell, 0, 0⟩ ∧
      ∀ x < 3, ∀ y < 3, (x, y) ≠ (0, 0) → (x, y) ≠ d → (twoFishGrid k).get x y = none) ∧
    (World.mk 3 (twoFishGrid k) sampleParams).Count = (2, 0) := by
  intro k hk
  interval_cases k
  · exact ⟨by decide, ⟨(0, 2), by decide, by decide, by decide⟩, by decide⟩
  · exact ⟨by decide, ⟨(1, 0), by decide, by decide, by decide⟩, by decide⟩
  · exact ⟨by decide, ⟨(0, 1), by decide, by decide, by decide⟩, by decide⟩
  · exact ⟨by decide, ⟨(2, 0), by decide, by decide, by decide⟩, by decide⟩

/-- C6: on a 3x3 world with fish breed threshold 1 holding only a fish with
breed counter 0 at (0,0), after one `Step`, for every random choice: (0,0)
holds a fish with counter 0, exactly one of the four toroidal neighbours
(0,2), (1,0), (0,1), (2,0) holds a fish with counter 0, every other cell is
empty, and `Count` is 2 fish and 0 sharks. -/
theorem single_fish_breeds (p : Params) (r : Rand) (hfb : p.FishBreed = 1) :
    ((singleFishWorld p).Step r).1.Grid.get 0 0 = some ⟨CellType.FishCell, 0, 0⟩ ∧
    (∃ d ∈ originNeighbours3,
      ((singleFishWorld p).Step r).1.Grid.get d.1 d.2 = some ⟨CellType.FishCell, 0, 0⟩ ∧
      ∀ x < 3, ∀ y < 3, (x, y) ≠ (0, 0) → (x, y) ≠ d →
        ((singleFishWorld p).Step r).1.Grid.get x y = none) ∧
    ((singleFishWorld p).Step r).1.Count = (2, 0) := by
  rw [singleFish_grid p r hfb, Count_params 3 _ p sampleParams]
  exact twoFishGrid_spec (r.draws 0 % 4) (Nat.mod_lt _ (by decide))

theorem single_fish_breeds_witness :
    breedingParams.FishBreed = 1 ∧
    ((singleFishWorld breedingParams).Step (Rand.const 6)).1.Grid.get 0 1 =
      some ⟨CellType.FishCell, 0, 0⟩ ∧
    ((singleFishWorld breedingParams).Step (Rand.const 6)).1.Count = (2, 0) :=
  ⟨rfl, by decide, (single_fish_breeds breedingParams (Rand.const 6) rfl).2.2⟩

/-! ## C7: starvation -/

theorem wrap64_id (z : Int) (h1 : minInt64 ≤ z) (h2 : z ≤ maxInt64) : wrap64 z = z := by
  unfold wrap64
  unfold minInt64 at h1
  unfold maxInt64 at h2
  omega

theorem wrap64_min_pred : wrap64 (minInt64 - 1) = maxInt64 := by decide

theorem wrap64_max_succ : wrap64 (maxInt64 + 1) = minInt64 := by decide

/-- Where the decrement and the increment stay in range, the 64-bit shark update
is the unbounded one. -/
theorem updateShark64_eq (w : World) (x y : Nat) (c : Creature) (ng : Grid) (r : Rand)
    (he1 : minInt64 < c.Energy) (he2 : c.Energy ≤ maxInt64)
    (hb1 : minInt64 ≤ c.BreedCounter) (hb2 : c.BreedCounter < maxInt64) :
    w.updateShark64 x y c ng r = w.updateShark x y c ng r := by
  have h1 : wrap64 (c.Energy - 1) = c.Energy - 1 := by
    apply wrap64_id
    · unfold minInt64 at *; omega
    · unfold maxInt64 at *; omega
  have h2 : wrap64 (c.BreedCounter + 1) = c.BreedCounter + 1 := by
    apply wrap64_id
    · unfold minInt64 at *; omega
    · unfold maxInt64 at *; omega
  unfold World.updateShark64 World.updateShark
  rw [h1, h2]

/-- The 64-bit shark update of `c` is the unbounded update of the creature whose
decrement and increment give the wrapped results. -/
theorem updateShark64_as_updateShark (w : World) (x y : Nat) (c : Creature) (ng : Grid)
    (r : Rand) :
    w.updateShark64 x y c ng r =
      w.updateShark x y ⟨c.Kind, wrap64 (c.BreedCounter + 1) - 1, wrap64 (c.Energy - 1) + 1⟩
        ng r := by
  unfold World.updateShark64 World.updateShark
  simp only [Int.sub_add_cancel, Int.add_sub_cancel]

theorem updateShark64_starve (w : World) (x y : Nat) (c : Creature) (ng : Grid) (r : Rand)
    (h1 : minInt64 < c.Energy) (h2 : c.Energy ≤ 1) :
    w.updateShark64 x y c ng r = (ng, r) := by
  have h : wrap64 (c.Energy - 1) = c.Energy - 1 := by
    apply wrap64_id
    · unfold minInt64 at *; omega
    · unfold maxInt64 at *; omega
  unfold World.updateShark64
  rw [h]
  exact if_pos (by omega)

theorem starveOverflow_choice (r : Rand) :
    starveOverflowWorld.sharkChoice 0 0 r = ((0, 0), false, r) := by
  have hn : starveOverflowWorld.neighbours 0 0 = [(0, 0), (0, 0), (0, 0), (0, 0)] := by
    rw [neighbours_of_size _ 1 _ _ rfl]
  have hf : starveOverflowWorld.fishNeighbours 0 0 = [] := by
    unfold World.fishNeighbours
    rw [hn]
    rfl
  have he : starveOverflowWorld.emptyNeighbours 0 0 = [] := by
    unfold World.emptyNeighbours
    rw [hn]
    rfl
  exact sharkChoice_stay _ _ _ _ hf he

theorem starveOverflow_update (r : Rand) :
    starveOverflowWorld.updateShark64 0 0 ⟨CellType.SharkCell, 0, minInt64⟩ (makeGrid 1) r =
      ([[some ⟨CellType.SharkCell, 1, maxInt64⟩]], r) := by
  unfold World.updateShark64
  rw [starveOverflow_choice]
  rfl

theorem starveOverflow_step (r : Rand) :
    (starveOverflowWorld.Step64 r).1.Grid =
      (starveOverflowWorld.updateShark64 0 0 ⟨CellType.SharkCell, 0, minInt64⟩
        (makeGrid 1) r).1 :=
  rfl

/-- C7 (the code at the failing input): the flags `-numShark 1 -numFish 0
-starve -9223372036854775808 -gridSize 1 -steps 1` pass `parseParams`, and
`NewWorld` builds a 1x1 world whose shark has energy `minInt64`, which is at
most 1.  The shark update wraps `minInt64 - 1` to `maxInt64`, finds the energy
positive and writes the shark into the next grid: after one `Step` the shark is
alive with energy `maxInt64`, for every random source, where the claim has the
next grid unchanged. -/
theorem starve_overflow_shark_survives :
    parseParams starveOverflowParams = Except.ok starveOverflowParams ∧
    NewWorld64 starveOverflowParams [0] = Except.ok starveOverflowWorld ∧
    starveOverflowWorld.Grid.get 0 0 = some ⟨CellType.SharkCell, 0, minInt64⟩ ∧
    minInt64 ≤ 1 ∧
    wrap64 (minInt64 - 1) = maxInt64 ∧
    (∀ r : Rand,
      starveOverflowWorld.updateShark64 0 0 ⟨CellType.SharkCell, 0, minInt64⟩ (makeGrid 1) r =
        ([[some ⟨CellType.SharkCell, 1, maxInt64⟩]], r) ∧
      (starveOverflowWorld.updateShark64 0 0 ⟨CellType.SharkCell, 0, minInt64⟩
        (makeGrid 1) r).1 ≠ makeGrid 1 ∧
      (starveOverflowWorld.Step64 r).1.Grid = [[some ⟨CellType.SharkCell, 1, maxInt64⟩]] ∧
      (starveOverflowWorld.Step64 r).1.Count = (0, 1)) := by
  refine ⟨rfl, rfl, by decide, by decide, by decide, fun r => ⟨?_, ?_, ?_, ?_⟩⟩
  · exact starveOverflow_update r
  · rw [starveOverflow_update]
    exact fun h => by cases h
  · rw [starveOverflow_step, starveOverflow_update]
  · have hw : (starveOverflowWorld.Step64 r).1 =
        ⟨1, [[some ⟨CellType.SharkCell, 1, maxInt64⟩]], starveOverflowParams⟩ := by
      show World.mk 1 (starveOverflowWorld.Step64 r).1.Grid starveOverflowParams = _
      rw [starveOverflow_step, starveOverflow_update]
    rw [hw]
    decide

/-- The scenario of the starvation rule with 64-bit arithmetic: energy 1 is
above `minInt64`, the shark dies and the 3x3 world is empty after one step. -/
theorem singleShark_step64_empty (p : Params) (b : Int) (r : Rand) :
    ((singleSharkWorld p b).Step64 r).1.Grid = makeGrid 3 := by
  show ((singleSharkWorld p b).updateShark64 0 0 ⟨CellType.SharkCell, b, 1⟩ (makeGrid 3) r).1 = _
  have h : minInt64 < (1 : Int) := by decide
  rw [updateShark64_starve _ _ _ _ _ _ h (le_refl (1 : Int))]

/-! ## C8: the empty world -/

theorem foldl_fixed {α β : Type} (f : β → α → β) (l : List α) (init : β)
    (h : ∀ st a, f st a = st) : l.foldl f init = init := by
  induction l generalizing init with
  | nil => rfl
  | cons a t ih => rw [List.foldl_cons, h, ih]

theorem fishPhase_empty (w : World) (ys : List Nat) (st : Grid × Rand)
    (h : w.Grid.isEmpty) : w.fishPhase ys st = st := by
  unfold World.fishPhase
  apply foldl_fixed
  intro s y
  apply foldl_fixed
  intro s1 x
  rw [h x y]

theorem sharkPhase_empty (w : World) (ys : List Nat) (st : Grid × Rand)
    (h : w.Grid.isEmpty) : w.sharkPhase ys st = st := by
  unfold World.sharkPhase
  apply foldl_fixed
  intro s y
  apply foldl_fixed
  intro s1 x
  rw [h x y]

theorem isEmpty_of_eq_makeGrid (g : Grid) (n : Nat) (h : g = makeGrid n) : g.isEmpty := by
  intro x y
  rw [h]
  exact get_makeGrid n x y

theorem Count_empty (w : World) (h : w.Grid.isEmpty) : w.Count = (0, 0) := by
  unfold World.Count
  apply foldl_fixed
  intro s y
  apply foldl_fixed
  intro s1 x
  rw [h x y]

theorem Step_empty (w : World) (r : Rand) (h : w.Grid = makeGrid w.Size) :
    w.Step r = (w, r) := by
  have he := isEmpty_of_eq_makeGrid _ _ h
  unfold World.Step
  rw [fishPhase_empty w _ _ he, sharkPhase_empty w _ _ he]
  show (World.mk w.Size (makeGrid w.Size) w.Params, r) = (w, r)
  rw [← h]

theorem mergeCell_all_none (cs : List (Option Creature)) (h : ∀ c ∈ cs, c = none) :
    mergeCell cs = none := by
  cases hm : mergeCell cs with
  | none => rfl
  | some c =>
    have := h _ (mergeCell_mem cs c hm)
    cases this

theorem mergeGrids_empty (n : Nat) (lgs : List Grid) (h : ∀ lg ∈ lgs, lg.isEmpty) :
    mergeGrids n lgs = makeGrid n := by
  have hc : ∀ x y, mergeCell (lgs.map (fun lg => lg.get x y)) = none := by
    intro x y
    apply mergeCell_all_none
    intro c hc
    rw [List.mem_map] at hc
    obtain ⟨lg, hlg, hget⟩ := hc
    rw [← hget]
    exact h lg hlg x y
  unfold mergeGrids makeGrid
  simp only [hc, List.map_const', List.length_range]

theorem worker_empty (w : World) (startY endY : Nat) (lg : Grid) (r : Rand)
    (h : w.Grid.isEmpty) : w.worker startY endY lg r = lg := by
  unfold World.worker
  rw [fishPhase_empty w _ _ h, sharkPhase_empty w _ _ h]

theorem StepParallel_empty (w : World) (threads : Int) (r : Rand) (rs : Nat → Rand)
    (hsize : 1 ≤ w.Size) (h : w.Grid = makeGrid w.Size) :
    w.StepParallel threads r rs = some w := by
  have he := isEmpty_of_eq_makeGrid _ _ h
  by_cases ht : threads ≤ 1
  · rw [StepParallel_seq _ _ _ _ ht, Step_empty w r h]
  · have hpos := cappedThreads_pos w threads hsize ht
    rw [StepParallel_par _ _ _ _ ht, if_neg (by omega)]
    have hm : mergeGrids w.Size
        (w.localGrids (w.cappedThreads threads) (w.rowsPerThread threads) rs) =
        makeGrid w.Size := by
      apply mergeGrids_empty
      intro lg hlg
      unfold World.localGrids at hlg
      rw [List.mem_map] at hlg
      obtain ⟨t, _, hlt⟩ := hlg
      rw [← hlt]
      simp only
      split
      · exact isEmpty_of_eq_makeGrid _ _ rfl
      · rw [worker_empty w _ _ _ _ he]
        exact isEmpty_of_eq_makeGrid _ _ rfl
    rw [hm, ← h]

theorem iterStep_empty (n : Nat) (w : World) (r : Rand) (h : w.Grid = makeGrid w.Size) :
    iterStep n w r = (w, r) := by
  induction n with
  | zero => rfl
  | succ k ih =>
    show iterStep k (w.Step r).1 (w.Step r).2 = (w, r)
    rw [Step_empty w r h]
    exact ih

theorem iterStepParallel_empty (threads : Int) (n : Nat) (w : World) (r : Nat → Rand)
    (rs : Nat → Nat → Rand) (hsize : 1 ≤ w.Size) (h : w.Grid = makeGrid w.Size) :
    iterStepParallel threads n w r rs = some w := by
  induction n generalizing r rs with
  | zero => rfl
  | succ k ih =>
    unfold iterStepParallel
    rw [StepParallel_empty w threads _ _ hsize h]
    exact ih _ _

/-- C8: the empty world is a fixed point.  For every grid size at least 1,
every thread count and every number `n` of steps, `n` calls of `Step`, and `n`
calls of `StepParallel`, on a world whose grid is the `Size x Size` grid without
creatures return that same world (and leave the random source untouched): the
grid keeps its size, holds no creature, and `Count` is (0, 0). -/
theorem empty_world_fixed_point (w : World) (n : Nat) (threads : Int) (r : Rand)
    (rp : Nat → Rand) (rs : Nat → Nat → Rand)
    (hsize : 1 ≤ w.Size) (hempty : w.Grid = makeGrid w.Size) :
    iterStep n w r = (w, r) ∧
    iterStepParallel threads n w rp rs = some w ∧
    w.Grid.WF w.Size ∧ w.Grid.isEmpty ∧ w.Count = (0, 0) := by
  refine ⟨iterStep_empty n w r hempty, iterStepParallel_empty threads n w rp rs hsize hempty,
    ?_, isEmpty_of_eq_makeGrid _ _ hempty, Count_empty w (isEmpty_of_eq_makeGrid _ _ hempty)⟩
  rw [hempty]
  exact makeGrid_WF _

theorem empty_world_fixed_point_witness :
    (1 ≤ (World.mk 3 (makeGrid 3) sampleParams).Size ∧
      (World.mk 3 (makeGrid 3) sampleParams).Grid = makeGrid 3) ∧
    (iterStep 5 (World.mk 3 (makeGrid 3) sampleParams) (Rand.const 1)).1.Count = (0, 0) ∧
    (iterStepParallel 4 5 (World.mk 3 (makeGrid 3) sampleParams) (fun _ => Rand.const 1)
      (fun _ _ => Rand.const 2)).isSome = true := by
  have h := empty_world_fixed_point (World.mk 3 (makeGrid 3) sampleParams) 5 4 (Rand.const 1)
    (fun _ => Rand.const 1) (fun _ _ => Rand.const 2) (by decide) rfl
  refine ⟨⟨by decide, rfl⟩, ?_, ?_⟩
  · rw [h.1]
    exact h.2.2.2.2
  · rw [h.2.1]
    rfl

/-! ## C10: the merge rule -/

theorem mergeStep_some_some (ch a : Creature) :
    mergeStep (some ch) (some a) =
      if a.Kind = CellType.SharkCell ∧ ch.Kind = CellType.FishCell then some a
      else some ch := rfl

theorem foldl_mergeStep_keep (cs : List (Option Creature)) (ch : Creature)
    (h : ch.Kind ≠ CellType.FishCell) : cs.foldl mergeStep (some ch) = some ch := by
  induction cs with
  | nil => rfl
  | cons a t ih =>
    rw [List.foldl_cons]
    cases a with
    | none => exact ih
    | some a1 =>
      rw [mergeStep_some_some, if_neg (fun hc => h hc.2)]
      exact ih

theorem foldl_mergeStep_fish (cs : List (Option Creature)) (ch : Creature)
    (h : ch.Kind = CellType.FishCell) :
    cs.foldl mergeStep (some ch) =
      match cs.find? (isKind CellType.SharkCell) with
      | some c => c
      | none => some ch := by
  induction cs with
  | nil => rfl
  | cons a t ih =>
    rw [List.foldl_cons]
    cases a with
    | none =>
      rw [List.find?_cons_of_neg _ (by simp [isKind])]
      exact ih
    | some a1 =>
      rw [mergeStep_some_some]
      by_cases hk : a1.Kind = CellType.SharkCell
      · rw [if_pos ⟨hk, h⟩, List.find?_cons_of_pos _ (by simp [isKind, hk])]
        exact foldl_mergeStep_keep t a1 (by rw [hk]; decide)
      · rw [if_neg (fun hc => hk hc.1), List.find?_cons_of_neg _ (by simp [isKind, hk])]
        exact ih

theorem mergeCell_eq_mergeRule (cs : List (Option Creature))
    (hk : ∀ c, some c ∈ cs → fishOrShark c) : mergeCell cs = mergeRule cs := by
  unfold mergeCell mergeRule
  induction cs with
  | nil => rfl
  | cons a t ih =>
    have ht : ∀ c, some c ∈ t → fishOrShark c :=
      fun c hc => hk c (List.mem_cons_of_mem _ hc)
    rw [List.foldl_cons]
    cases a with
    | none =>
      rw [List.find?_cons_of_neg _ (by simp [isKind]),
        List.find?_cons_of_neg _ (by simp [isKind])]
      exact ih ht
    | some a1 =>
      show t.foldl mergeStep (some a1) = _
      rcases hk a1 (List.mem_cons_self _ _) with hf | hs
      · rw [foldl_mergeStep_fish t a1 hf,
          List.find?_cons_of_neg _ (by simp [isKind, hf])]
        cases t.find? (isKind CellType.SharkCell) with
        | some c => rfl
        | none =>
          show some a1 = match List.find? (isKind CellType.FishCell) (some a1 :: t) with
            | some c => c
            | none => none
          rw [List.find?_cons_of_pos _ (by simp [isKind, hf])]
      · rw [foldl_mergeStep_keep t a1 (by rw [hs]; decide),
          List.find?_cons_of_pos _ (by simp [isKind, hs])]

theorem mergeRule_shark (cs : List (Option Creature)) (s : Creature) (hs : some s ∈ cs)
    (hkind : s.Kind = CellType.SharkCell) :
    ∃ s1, mergeRule cs = some s1 ∧ s1.Kind = CellType.SharkCell := by
  unfold mergeRule
  cases hf : cs.find? (isKind CellType.SharkCell) with
  | none =>
    rw [List.find?_eq_none] at hf
    have := hf (some s) hs
    simp [isKind, hkind] at this
  | some c =>
    have hc := List.find?_some hf
    cases c with
    | none => simp [isKind] at hc
    | some s1 =>
      exact ⟨s1, rfl, by simpa [isKind] using hc⟩

theorem foldl_mergeStep_isSome (cs : List (Option Creature)) (ch : Creature) :
    ∃ c1, cs.foldl mergeStep (some ch) = some c1 := by
  induction cs generalizing ch with
  | nil => exact ⟨ch, rfl⟩
  | cons a t ih =>
    rw [List.foldl_cons]
    cases a with
    | none => exact ih ch
    | some a1 =>
      rw [mergeStep_some_some]
      split
      · exact ih a1
      · exact ih ch

theorem mergeCell_isSome_of_mem (cs : List (Option Creature)) (c : Creature)
    (h : some c ∈ cs) : ∃ c1, mergeCell cs = some c1 := by
  unfold mergeCell
  induction cs with
  | nil => cases h
  | cons a t ih =>
    rw [List.foldl_cons]
    cases a with
    | none =>
      rcases List.mem_cons.mp h with h1 | h1
      · cases h1
      · exact ih h1
    | some a1 => exact foldl_mergeStep_isSome t a1

theorem mergeCell_eq_none_iff (cs : List (Option Creature)) :
    mergeCell cs = none ↔ ∀ c ∈ cs, c = none := by
  constructor
  · intro h c hc
    cases c with
    | none => rfl
    | some c1 =>
      obtain ⟨c2, h2⟩ := mergeCell_isSome_of_mem cs c1 hc
      rw [h] at h2
      cases h2
  · exact mergeCell_all_none cs

theorem localGrids_fishOrShark (w : World) (threads rows : Nat) (rs : Nat → Rand) :
    ∀ lg ∈ w.localGrids threads rows rs, Grid.All fishOrShark lg :=
  localGrids_All fishOrShark w threads rows rs
    (fun _ _ _ _ _ _ _ => Or.inl rfl)
    (fun _ _ _ _ _ _ => Or.inr rfl)
    (fun _ _ _ _ _ _ _ _ _ _ => Or.inr rfl)

theorem mergeGrids_eq_mergeRule (n : Nat) (lgs : List Grid) (x y : Nat) (hx : x < n)
    (hy : y < n) (hk : ∀ lg ∈ lgs, Grid.All fishOrShark lg) :
    (mergeGrids n lgs).get x y = mergeRule (lgs.map (fun lg => lg.get x y)) := by
  rw [get_mergeGrids n lgs x y hx hy]
  apply mergeCell_eq_mergeRule
  intro c hc
  rw [List.mem_map] at hc
  obtain ⟨lg, hlg, hget⟩ := hc
  exact hk lg hlg x y c hget

/-- C10: the merge rule of `StepParallel`.  For every cell of the grid and every
list of private grids whose creatures are fish or sharks, the merged cell is
the first shark in worker-index order if any worker wrote a shark there,
otherwise the first fish if any worker wrote a fish there, otherwise empty.
Hence a shark beats a fish whatever the worker order, and the merged cell is
empty exactly when no worker wrote to it.  The private grids that the workers
of `StepParallel` produce always meet the condition. -/
theorem merge_rule (n : Nat) (lgs : List Grid) (x y : Nat) (hx : x < n) (hy : y < n)
    (hk : ∀ lg ∈ lgs, Grid.All fishOrShark lg) :
    (mergeGrids n lgs).get x y = mergeRule (lgs.map (fun lg => lg.get x y)) ∧
    (∀ lg ∈ lgs, ∀ s, lg.get x y = some s → s.Kind = CellType.SharkCell →
      ∃ s1, (mergeGrids n lgs).get x y = some s1 ∧ s1.Kind = CellType.SharkCell) ∧
    ((mergeGrids n lgs).get x y = none ↔ ∀ lg ∈ lgs, lg.get x y = none) ∧
    (∀ (w : World) (threads rows : Nat) (rs : Nat → Rand), x < w.Size → y < w.Size →
      (mergeGrids w.Size (w.localGrids threads rows rs)).get x y =
        mergeRule ((w.localGrids threads rows rs).map (fun lg => lg.get x y))) := by
  have h1 := mergeGrids_eq_mergeRule n lgs x y hx hy hk
  refine ⟨h1, ?_, ?_, ?_⟩
  · intro lg hlg s hs hkind
    rw [h1]
    exact mergeRule_shark _ s (List.mem_map.mpr ⟨lg, hlg, hs⟩) hkind
  · rw [get_mergeGrids n lgs x y hx hy, mergeCell_eq_none_iff]
    constructor
    · intro h lg hlg
      exact h _ (List.mem_map.mpr ⟨lg, hlg, rfl⟩)
    · intro h c hc
      rw [List.mem_map] at hc
      obtain ⟨lg, hlg, hget⟩ := hc
      rw [← hget]
      exact h lg hlg
  · intro w threads rows rs hxw hyw
    exact mergeGrids_eq_mergeRule _ _ x y hxw hyw (localGrids_fishOrShark w threads rows rs)

theorem merge_rule_witness :
    (mergeGrids 1 [[[some ⟨CellType.FishCell, 1, 0⟩]], [[none]],
        [[some ⟨CellType.SharkCell, 2, 3⟩]], [[some ⟨CellType.SharkCell, 4, 1⟩]]]).get 0 0 =
      mergeRule [some ⟨CellType.FishCell, 1, 0⟩, none, some ⟨CellType.SharkCell, 2, 3⟩,
        some ⟨CellType.SharkCell, 4, 1⟩] ∧
    mergeRule [some ⟨CellType.FishCell, 1, 0⟩, none, some ⟨CellType.SharkCell, 2, 3⟩,
        some ⟨CellType.SharkCell, 4, 1⟩] = some ⟨CellType.SharkCell, 2, 3⟩ :=
  ⟨(merge_rule 1 [[[some ⟨CellType.FishCell, 1, 0⟩]], [[none]],
      [[some ⟨CellType.SharkCell, 2, 3⟩]], [[some ⟨CellType.SharkCell, 4, 1⟩]]] 0 0
      (by decide) (by decide)
      (fun lg hlg => Grid.All_of_allCells fishOrShark (fun c => decide (fishOrShark c)) lg
        (fun _ h => of_decide_eq_true h)
        (by
          simp only [List.mem_cons, List.mem_singleton, List.not_mem_nil, or_false] at hlg
          rcases hlg with h | h | h | h <;> subst h <;> decide))).1,
   by decide⟩

/-! ## Counting creatures -/

theorem map_range_getD {α : Type} (l : List α) (d : α) :
    (List.range l.length).map (fun i => l.getD i d) = l := by
  apply List.ext_getElem?
  intro i
  rw [List.getElem?_map]
  by_cases h : i < l.length
  · rw [List.getElem?_range h, List.getElem?_eq_getElem h]
    show some (l.getD i d) = _
    rw [List.getD_eq_getElem?_getD, List.getElem?_eq_getElem h]
    rfl
  · rw [List.getElem?_eq_none (by rw [List.length_range]; omega),
      List.getElem?_eq_none (by omega)]
    rfl

theorem foldl_range_getD {α β : Type} (f : β → α → β) (l : List α) (d : α) (init : β) :
    (List.range l.length).foldl (fun acc i => f acc (l.getD i d)) init = l.foldl f init := by
  have h := List.foldl_map (fun i => l.getD i d) f (List.range l.length) init
  rw [map_range_getD] at h
  exact h.symm

/-- The body of the inner loop of `Count` on one cell. -/
theorem countRow_foldl (row : List (Option Creature)) (acc : Nat × Nat) :
    row.foldl (fun acc cell =>
      match cell with
      | none => acc
      | some c =>
        if c.Kind = CellType.FishCell then (acc.1 + 1, acc.2)
        else if c.Kind = CellType.SharkCell then (acc.1, acc.2 + 1)
        else acc) acc =
      (acc.1 + row.countP (isKind CellType.FishCell),
        acc.2 + row.countP (isKind CellType.SharkCell)) := by
  induction row generalizing acc with
  | nil => rfl
  | cons a t ih =>
    rw [List.foldl_cons, ih]
    cases a with
    | none =>
      rw [List.countP_cons_of_neg _ _ (by simp [isKind]),
        List.countP_cons_of_neg _ _ (by simp [isKind])]
    | some c =>
      by_cases hf : c.Kind = CellType.FishCell
      · rw [List.countP_cons_of_pos _ _ (by simp [isKind, hf]),
          List.countP_cons_of_neg _ _ (by simp [isKind, hf])]
        simp only [hf, if_true]
        ext <;> (simp <;> omega)
      · by_cases hs : c.Kind = CellType.SharkCell
        · rw [List.countP_cons_of_neg _ _ (by simp [isKind, hf]),
            List.countP_cons_of_pos _ _ (by simp [isKind, hs])]
          simp only [hf, hs, if_true, if_false]
          ext <;> (simp <;> omega)
        · rw [List.countP_cons_of_neg _ _ (by simp [isKind, hf]),
            List.countP_cons_of_neg _ _ (by simp [isKind, hs])]
          simp only [hf, hs, if_false]

theorem countRows_foldl (g : Grid) (acc : Nat × Nat) :
    g.foldl (fun acc row =>
      (acc.1 + row.countP (isKind CellType.FishCell),
        acc.2 + row.countP (isKind CellType.SharkCell))) acc =
      (acc.1 + g.count CellType.FishCell, acc.2 + g.count CellType.SharkCell) := by
  unfold Grid.count
  induction g generalizing acc with
  | nil => rfl
  | cons a t ih =>
    rw [List.foldl_cons, ih]
    simp only [List.map_cons, List.sum_cons]
    ext <;> (simp; omega)

theorem Count_eq_count (w : World) (h : w.Grid.WF w.Size) :
    w.Count = (w.Grid.count CellType.FishCell, w.Grid.count CellType.SharkCell) := by
  have hrow : ∀ y, y ∈ List.range w.Size → ∀ acc : Nat × Nat,
      (List.range w.Size).foldl (fun acc x =>
        match w.Grid.get x y with
        | none => acc
        | some c =>
          if c.Kind = CellType.FishCell then (acc.1 + 1, acc.2)
          else if c.Kind = CellType.SharkCell then (acc.1, acc.2 + 1)
          else acc) acc =
      (acc.1 + (w.Grid.getD y []).countP (isKind CellType.FishCell),
        acc.2 + (w.Grid.getD y []).countP (isKind CellType.SharkCell)) := by
    intro y hy acc
    have hlen : (w.Grid.getD y []).length = w.Size :=
      Grid.WF_row _ _ _ h (List.mem_range.mp hy)
    rw [← countRow_foldl, ← foldl_range_getD _ (w.Grid.getD y []) none acc, hlen]
    rfl
  unfold World.Count
  rw [List.foldl_ext _ (fun acc y =>
    (acc.1 + (w.Grid.getD y []).countP (isKind CellType.FishCell),
      acc.2 + (w.Grid.getD y []).countP (isKind CellType.SharkCell))) (0, 0)
    (fun acc y hy => hrow y hy acc)]
  have hlen : w.Grid.length = w.Size := h.1
  rw [← hlen, foldl_range_getD (fun (acc : Nat × Nat) (row : List (Option Creature)) =>
    (acc.1 + row.countP (isKind CellType.FishCell),
      acc.2 + row.countP (isKind CellType.SharkCell))) w.Grid [] (0, 0), countRows_foldl]
  simp

theorem sum_map_set (f : List (Option Creature) → Nat) (g : Grid) (i : Nat)
    (row : List (Option Creature)) (h : i < g.length) :
    ((List.set g i row).map f).sum + f (g.getD i []) = (g.map f).sum + f row := by
  induction g generalizing i with
  | nil => cases h
  | cons a t ih =>
    cases i with
    | zero =>
      simp only [List.set_cons_zero, List.map_cons, List.sum_cons, List.getD_cons_zero]
      omega
    | succ j =>
      have hj : j < t.length := by
        simp only [List.length_cons] at h
        omega
      have := ih j hj
      simp only [List.set_cons_succ, List.map_cons, List.sum_cons, List.getD_cons_succ]
      omega

theorem Grid.count_set (k : CellType) (g : Grid) (n x y : Nat) (c : Creature)
    (h : g.WF n) (hx : x < n) (hy : y < n) (hfree : g.get x y = none) :
    (g.set x y (some c)).count k = g.count k + if c.Kind = k then 1 else 0 := by
  have hylen : y < g.length := by rw [h.1]; exact hy
  have hxlen : x < (g.getD y []).length := by rw [Grid.WF_row g n y h hy]; exact hx
  have hold : isKind k ((g.getD y []).get ⟨x, hxlen⟩) = false := by
    have : (g.getD y []).get ⟨x, hxlen⟩ = none := by
      unfold Grid.get at hfree
      rw [List.getD_eq_getElem?_getD, List.getElem?_eq_getElem hxlen] at hfree
      exact hfree
    rw [this]
    rfl
  have hrow : ((g.getD y []).set x (some c)).countP (isKind k) =
      (g.getD y []).countP (isKind k) + if c.Kind = k then 1 else 0 := by
    rw [List.countP_set _ _ _ _ hxlen]
    have hold2 : isKind k (g.getD y [])[x] = false := hold
    rw [hold2]
    by_cases hk : c.Kind = k
    · simp [isKind, hk]
    · simp [isKind, hk]
  have hs := sum_map_set (fun row => row.countP (isKind k)) g y
    ((g.getD y []).set x (some c)) hylen
  unfold Grid.count Grid.set
  simp only at hs
  rw [hrow] at hs
  omega

theorem count_makeGrid (k : CellType) (n : Nat) : (makeGrid n).count k = 0 := by
  unfold Grid.count makeGrid
  have h : ∀ row ∈ List.replicate n (List.replicate n (none : Option Creature)),
      (fun row => List.countP (isKind k) row) row = 0 := by
    intro row hrow
    rw [List.mem_replicate] at hrow
    rw [hrow.2]
    simp only
    rw [List.countP_eq_zero]
    intro a ha
    rw [List.mem_replicate] at ha
    rw [ha.2]
    simp [isKind]
  rw [List.sum_eq_zero]
  intro v hv
  rw [List.mem_map] at hv
  obtain ⟨row, hrow, hval⟩ := hv
  rw [← hval]
  exact h row hrow

/-! ## C9: placement in `NewWorld` -/

theorem cellOf_lt (n pos : Nat) (h : pos < n * n) : (cellOf n pos).1 < n ∧ (cellOf n pos).2 < n := by
  have hn : 0 < n := by
    rcases Nat.eq_zero_or_pos n with h0 | h0
    · subst h0; simp at h
    · exact h0
  exact ⟨Nat.mod_lt _ hn, Nat.div_lt_of_lt_mul h⟩

theorem cellOf_inj (n a b : Nat) (h : cellOf n a = cellOf n b) : a = b := by
  unfold cellOf at h
  have h1 : a % n = b % n := congrArg Prod.fst h
  have h2 : a / n = b / n := congrArg Prod.snd h
  rw [← Nat.div_add_mod a n, ← Nat.div_add_mod b n, h1, h2]

theorem perm_range_spec (positions : List Nat) (m : Nat)
    (hperm : positions.Perm (List.range m)) :
    positions.length = m ∧ (∀ i, i < positions.length → positions.getD i 0 < m) ∧
    (∀ i j, i < j → j < positions.length → positions.getD i 0 ≠ positions.getD j 0) := by
  have hlen : positions.length = m := by rw [hperm.length_eq, List.length_range]
  have hnd : positions.Nodup := hperm.nodup_iff.mpr (List.nodup_range m)
  refine ⟨hlen, ?_, ?_⟩
  · intro i hi
    have hm : positions.getD i 0 ∈ positions := getD_mem positions i 0 hi
    exact List.mem_range.mp (hperm.mem_iff.mp hm)
  · intro i j hij hj heq
    have hi : i < positions.length := by omega
    rw [List.getD_eq_getElem?_getD, List.getD_eq_getElem?_getD,
      List.getElem?_eq_getElem hi, List.getElem?_eq_getElem hj] at heq
    have h2 : positions[i] = positions[j] := heq
    have := (List.Nodup.getElem_inj_iff hnd).mp h2
    omega

theorem place_spec (n : Nat) (positions : List Nat) (mk : Creature) (hn : 0 < n)
    (hbound : ∀ i, i < positions.length → positions.getD i 0 < n * n)
    (hdist : ∀ i j, i < j → j < positions.length → positions.getD i 0 ≠ positions.getD j 0) :
    ∀ (k idx : Nat) (g : Grid), idx + k ≤ positions.length → g.WF n →
      (∀ i, idx ≤ i → i < positions.length →
        g.get (cellOf n (positions.getD i 0)).1 (cellOf n (positions.getD i 0)).2 = none) →
      ∃ g1, placeCreatures n positions mk k idx g = some (g1, idx + k) ∧ g1.WF n ∧
        (∀ i, idx + k ≤ i → i < positions.length →
          g1.get (cellOf n (positions.getD i 0)).1 (cellOf n (positions.getD i 0)).2 = none) ∧
        (∀ i, idx ≤ i → i < idx + k →
          g1.get (cellOf n (positions.getD i 0)).1 (cellOf n (positions.getD i 0)).2 =
            some mk) ∧
        (∀ x y, (∀ i, idx ≤ i → i < idx + k → cellOf n (positions.getD i 0) ≠ (x, y)) →
          g1.get x y = g.get x y) ∧
        (∀ kd, g1.count kd = g.count kd + if mk.Kind = kd then k else 0) := by
  intro k
  induction k with
  | zero =>
    intro idx g _ hwf hfree
    refine ⟨g, rfl, hwf, hfree, ?_, fun _ _ _ => rfl, ?_⟩
    · intro i h1 h2
      omega
    · intro kd
      simp
  | succ k ih =>
    intro idx g hlen hwf hfree
    have hidx : idx < positions.length := by omega
    have hpos : positions[idx]? = some (positions.getD idx 0) := by
      rw [List.getD_eq_getElem?_getD, List.getElem?_eq_getElem hidx]
      rfl
    have hcell := cellOf_lt n _ (hbound idx hidx)
    have hne : ∀ i, idx + 1 ≤ i → i < positions.length →
        (cellOf n (positions.getD i 0)).1 ≠ (cellOf n (positions.getD idx 0)).1 ∨
        (cellOf n (positions.getD i 0)).2 ≠ (cellOf n (positions.getD idx 0)).2 := by
      intro i h1 h2
      by_contra hc
      have hx : (cellOf n (positions.getD i 0)).1 = (cellOf n (positions.getD idx 0)).1 := by
        by_contra h; exact hc (Or.inl h)
      have hy : (cellOf n (positions.getD i 0)).2 = (cellOf n (positions.getD idx 0)).2 := by
        by_contra h; exact hc (Or.inr h)
      exact hdist idx i (by omega) h2 (cellOf_inj n _ _ (Prod.ext hx hy)).symm
    obtain ⟨g1, hrun, hwf1, hfree1, hset1, hframe1, hcount1⟩ :=
      ih (idx + 1)
        (g.set (cellOf n (positions.getD idx 0)).1 (cellOf n (positions.getD idx 0)).2 (some mk))
        (by omega) (Grid.WF_set _ _ _ _ _ hwf)
        (by
          intro i h1 h2
          rw [Grid.get_set_ne _ _ _ _ _ _ (hne i h1 h2)]
          exact hfree i (by omega) h2)
    refine ⟨g1, ?_, hwf1, ?_, ?_, ?_, ?_⟩
    · unfold placeCreatures
      rw [hpos]
      simp only [Nat.pos_iff_ne_zero.mp hn, if_false]
      rw [show idx + (k + 1) = idx + 1 + k by omega]
      exact hrun
    · intro i h1 h2
      exact hfree1 i (by omega) h2
    · intro i h1 h2
      by_cases hi : i = idx
      · subst hi
        rw [hframe1 _ _ (by
          intro j hj1 hj2 heq
          have := cellOf_inj n _ _ heq
          exact hdist i j (by omega) (by omega) this.symm)]
        exact Grid.get_set_same_wf _ _ _ _ _ hwf hcell.1 hcell.2
      · exact hset1 i (by omega) (by omega)
    · intro x y hxy
      rw [hframe1 x y (fun i h1 h2 => hxy i (by omega) (by omega))]
      apply Grid.get_set_ne
      have := hxy idx (le_refl _) (by omega)
      by_contra hc
      apply this
      have hx : x = (cellOf n (positions.getD idx 0)).1 := by
        by_contra h; exact hc (Or.inl h)
      have hy : y = (cellOf n (positions.getD idx 0)).2 := by
        by_contra h; exact hc (Or.inr h)
      exact Prod.ext hx.symm hy.symm
    · intro kd
      rw [hcount1 kd, Grid.count_set kd g n _ _ mk hwf hcell.1 hcell.2
        (hfree idx (le_refl _) hidx)]
      split <;> omega

theorem place_All (P : Creature → Prop) (n : Nat) (positions : List Nat) (mk : Creature)
    (hmk : P mk) :
    ∀ (k idx : Nat) (g : Grid) (res : Grid × Nat),
      placeCreatures n positions mk k idx g = some res → Grid.All P g → Grid.All P res.1 := by
  intro k
  induction k with
  | zero =>
    intro idx g res h hg
    unfold placeCreatures at h
    cases h
    exact hg
  | succ k ih =>
    intro idx g res h hg
    unfold placeCreatures at h
    cases hp : positions[idx]? with
    | none =>
      rw [hp] at h
      cases h
    | some pos =>
      rw [hp] at h
      simp only at h
      split at h
      · cases h
      · exact ih _ _ res h (Grid.All_set P _ _ _ _ hg hmk)

/-- C9: for every configuration with `GridSize >= 1`, `NumFish >= 0`,
`NumShark >= 0` and `NumFish + NumShark <= GridSize * GridSize`, and every
permutation of the cell indices, `NewWorld` returns a world whose grid is
`GridSize x GridSize`, `Count` is `(NumFish, NumShark)`, distinct indices map
to distinct cells `(pos mod GridSize, pos div GridSize)`, the first `NumFish`
cells hold fish with breed counter 0 and energy 0, the next `NumShark` cells
hold sharks with breed counter 0 and energy `Starve`, and the grid holds no
other kind of creature. -/
theorem newWorld_placement (p : Params) (positions : List Nat)
    (hsize : 1 ≤ p.GridSize) (hf : 0 ≤ p.NumFish) (hs : 0 ≤ p.NumShark)
    (hcap : p.NumFish + p.NumShark ≤ p.GridSize * p.GridSize)
    (hperm : positions.Perm (List.range (p.GridSize.toNat * p.GridSize.toNat))) :
    ∃ w, NewWorld p positions = Except.ok w ∧
      w.Size = p.GridSize.toNat ∧ w.Params = p ∧ w.Grid.WF w.Size ∧
      ((w.Count.1 : Int) = p.NumFish ∧ (w.Count.2 : Int) = p.NumShark) ∧
      (∀ i j, i < j → j < positions.length →
        cellOf w.Size (positions.getD i 0) ≠ cellOf w.Size (positions.getD j 0)) ∧
      (∀ i : Nat, (i : Int) < p.NumFish →
        w.Grid.get (cellOf w.Size (positions.getD i 0)).1
          (cellOf w.Size (positions.getD i 0)).2 = some ⟨CellType.FishCell, 0, 0⟩) ∧
      (∀ i : Nat, p.NumFish ≤ (i : Int) → (i : Int) < p.NumFish + p.NumShark →
        w.Grid.get (cellOf w.Size (positions.getD i 0)).1
          (cellOf w.Size (positions.getD i 0)).2 = some ⟨CellType.SharkCell, 0, p.Starve⟩) ∧
      Grid.All (fun c => c = ⟨CellType.FishCell, 0, 0⟩ ∨
        c = ⟨CellType.SharkCell, 0, p.Starve⟩) w.Grid := by
  obtain ⟨hlen, hbound, hdist⟩ := perm_range_spec positions _ hperm
  have hn : 0 < p.GridSize.toNat := by omega
  have hsq : ((p.GridSize.toNat * p.GridSize.toNat : Nat) : Int) = p.GridSize * p.GridSize := by
    rw [Nat.cast_mul, Int.toNat_of_nonneg (by omega)]
  have hfit : p.NumFish.toNat + p.NumShark.toNat ≤ positions.length := by
    rw [hlen]
    have : ((p.NumFish.toNat + p.NumShark.toNat : Nat) : Int) ≤
        ((p.GridSize.toNat * p.GridSize.toNat : Nat) : Int) := by
      rw [hsq, Nat.cast_add, Int.toNat_of_nonneg hf, Int.toNat_of_nonneg hs]
      exact hcap
    exact_mod_cast this
  have hbound1 : ∀ i, i < positions.length →
      positions.getD i 0 < p.GridSize.toNat * p.GridSize.toNat := hbound
  obtain ⟨g1, hrun1, hwf1, hfree1, hset1, _, hcount1⟩ :=
    place_spec p.GridSize.toNat positions ⟨CellType.FishCell, 0, 0⟩ hn hbound1 hdist
      p.NumFish.toNat 0 (makeGrid p.GridSize.toNat) (by omega) (makeGrid_WF _)
      (fun i _ _ => get_makeGrid _ _ _)
  obtain ⟨g2, hrun2, hwf2, _, hset2, hframe2, hcount2⟩ :=
    place_spec p.GridSize.toNat positions ⟨CellType.SharkCell, 0, p.Starve⟩ hn hbound1 hdist
      p.NumShark.toNat (0 + p.NumFish.toNat) g1 (by omega) hwf1 hfree1
  have hres : NewWorld p positions = Except.ok ⟨p.GridSize.toNat, g2, p⟩ := by
    unfold NewWorld
    rw [if_neg (by omega), if_neg (by omega)]
    simp only [hrun1, hrun2]
  have hall : Grid.All (fun c => c = ⟨CellType.FishCell, 0, 0⟩ ∨
      c = ⟨CellType.SharkCell, 0, p.Starve⟩) g2 := by
    have hall1 := place_All (fun c => c = ⟨CellType.FishCell, 0, 0⟩ ∨
      c = ⟨CellType.SharkCell, 0, p.Starve⟩) _ positions _ (Or.inl rfl) _ _ _ _ hrun1
      (Grid.All_makeGrid _ _)
    exact place_All (fun c => c = ⟨CellType.FishCell, 0, 0⟩ ∨
      c = ⟨CellType.SharkCell, 0, p.Starve⟩) _ positions _ (Or.inr rfl) _ _ _ _ hrun2 hall1
  refine ⟨⟨p.GridSize.toNat, g2, p⟩, hres, rfl, rfl, hwf2, ?_, ?_, ?_, ?_, hall⟩
  · rw [Count_eq_count _ hwf2]
    simp only
    rw [hcount2, hcount1, hcount2, hcount1, count_makeGrid, count_makeGrid]
    simp only [reduceCtorEq, if_true, if_false]
    constructor <;> omega
  · intro i j hij hj heq
    exact hdist i j hij hj (cellOf_inj _ _ _ heq)
  · intro i hi
    have hi2 : i < 0 + p.NumFish.toNat := by omega
    show g2.get _ _ = _
    rw [hframe2 _ _ (by
      intro j hj1 hj2 heq
      have := cellOf_inj _ _ _ heq
      exact hdist i j (by omega) (by omega) this.symm)]
    exact hset1 i (by omega) hi2
  · intro i hi1 hi2
    exact hset2 i (by omega) (by omega)

theorem newWorld_placement_witness :
    ((1 : Int) ≤ smallParams.GridSize ∧ 0 ≤ smallParams.NumFish ∧ 0 ≤ smallParams.NumShark ∧
      smallParams.NumFish + smallParams.NumShark ≤ smallParams.GridSize * smallParams.GridSize ∧
      [2, 0, 3, 1].Perm (List.range (smallParams.GridSize.toNat * smallParams.GridSize.toNat))) ∧
    ∃ w, NewWorld smallParams [2, 0, 3, 1] = Except.ok w ∧ w.Size = 2 ∧
      ((w.Count.1 : Int) = 2 ∧ (w.Count.2 : Int) = 1) := by
  obtain ⟨w, h1, h2, _, _, h5, _⟩ := newWorld_placement smallParams [2, 0, 3, 1]
    (by decide) (by decide) (by decide) (by decide) (by decide)
  exact ⟨⟨by decide, by decide, by decide, by decide, by decide⟩, w, h1, h2, h5⟩

/-! ## C11: toroidal neighbour geometry -/

theorem emod_pred_toNat (a n : Nat) (hn : 1 ≤ n) :
    (((a : Int) - 1) % (n : Int)).toNat = (a + n - 1) % n := by
  have e : ((a : Int) - 1) % (n : Int) = (((a + n - 1 : Nat) : Int)) % (n : Int) := by
    have e1 : (((a + n - 1 : Nat) : Int)) = ((a : Int) - 1) + (n : Int) := by omega
    rw [e1, Int.add_emod_self]
  rw [e, ← Int.natCast_mod]
  exact Int.toNat_ofNat _

theorem emod_succ_toNat (a n : Nat) :
    (((a : Int) + 1) % (n : Int)).toNat = (a + 1) % n := by
  have e : ((a : Int) + 1) = ((a + 1 : Nat) : Int) := by omega
  rw [e, ← Int.natCast_mod]
  exact Int.toNat_ofNat _

/-- C11: for every `Size >= 1` and every cell `(x, y)` of the grid,
`neighbours(x, y)` is exactly the list north `(x, (y-1) mod Size)`, east
`((x+1) mod Size, y)`, south `(x, (y+1) mod Size)`, west `((x-1) mod Size, y)`
(`mod` the mathematical remainder), and every returned coordinate lies in
`[0, Size) x [0, Size)`, hence inside a `Size x Size` grid. -/
theorem neighbours_geometry (w : World) (x y : Nat) (hs : 1 ≤ w.Size) (hx : x < w.Size)
    (hy : y < w.Size) :
    w.neighbours x y =
      [ (x, (((y : Int) - 1) % (w.Size : Int)).toNat),
        ((((x : Int) + 1) % (w.Size : Int)).toNat, y),
        (x, (((y : Int) + 1) % (w.Size : Int)).toNat),
        ((((x : Int) - 1) % (w.Size : Int)).toNat, y) ] ∧
    (∀ d ∈ w.neighbours x y, d.1 < w.Size ∧ d.2 < w.Size) ∧
    (∀ g : Grid, g.WF w.Size → ∀ d ∈ w.neighbours x y,
      d.2 < g.length ∧ d.1 < (g.getD d.2 []).length) := by
  refine ⟨?_, fun d hd => neighbours_lt w x y d hx hy hd, ?_⟩
  · rw [neighbours_eq, emod_pred_toNat _ _ hs, emod_pred_toNat _ _ hs, emod_succ_toNat,
      emod_succ_toNat]
  · intro g hg d hd
    obtain ⟨h1, h2⟩ := neighbours_lt w x y d hx hy hd
    refine ⟨by rw [hg.1]; exact h2, ?_⟩
    rw [Grid.WF_row g _ _ hg h2]
    exact h1

theorem neighbours_geometry_witness :
    (1 ≤ (singleFishWorld sampleParams).Size ∧ 0 < (singleFishWorld sampleParams).Size) ∧
    (singleFishWorld sampleParams).neighbours 0 0 = [(0, 2), (1, 0), (0, 1), (2, 0)] :=
  ⟨by decide, (neighbours_geometry (singleFishWorld sampleParams) 0 0 (by decide) (by decide)
    (by decide)).1⟩

/-! ## C12: four distinct neighbours -/

theorem pred_mod (a n : Nat) (ha : a < n) :
    (a + n - 1) % n = if a = 0 then n - 1 else a - 1 := by
  split
  · rename_i h0
    subst h0
    rw [Nat.zero_add]
    exact Nat.mod_eq_of_lt (by omega)
  · rename_i h0
    have e : a + n - 1 = (a - 1) + n := by omega
    rw [e, Nat.add_mod_right]
    exact Nat.mod_eq_of_lt (by omega)

theorem succ_mod (a n : Nat) (ha : a < n) :
    (a + 1) % n = if a + 1 = n then 0 else a + 1 := by
  split
  · rename_i h0
    rw [h0]
    exact Nat.mod_self n
  · exact Nat.mod_eq_of_lt (by omega)

/-- C12 (the claim as stated fails): on the 1x1 grid the four neighbours of
(0,0) are all (0,0) itself, and on the 2x2 grid north equals south and east
equals west, so a positive grid size does not give four distinct neighbours. -/
theorem small_grids_repeat_neighbours :
    (1 ≤ (lonelyWorld ⟨CellType.FishCell, 0, 0⟩).Size ∧
      (lonelyWorld ⟨CellType.FishCell, 0, 0⟩).neighbours 0 0 = [(0, 0), (0, 0), (0, 0), (0, 0)] ∧
      ¬ (lonelyWorld ⟨CellType.FishCell, 0, 0⟩).distinctNeighbours 0 0) ∧
    (1 ≤ emptyWorld2.Size ∧
      emptyWorld2.neighbours 0 0 = [(0, 1), (1, 0), (0, 1), (1, 0)] ∧
      ¬ emptyWorld2.distinctNeighbours 0 0) := by
  decide

/-- C12 (amended): for every grid size of at least 3 and every cell `(x, y)` of
the grid, the four coordinates returned by `neighbours(x, y)` are four pairwise
distinct cells, none of them equal to `(x, y)` itself. -/
theorem neighbours_distinct (w : World) (x y : Nat) (hs : 3 ≤ w.Size) (hx : x < w.Size)
    (hy : y < w.Size) :
    (w.neighbours x y).length = 4 ∧ w.distinctNeighbours x y := by
  refine ⟨rfl, ?_⟩
  unfold World.distinctNeighbours
  rw [neighbours_eq, pred_mod x _ hx, pred_mod y _ hy, succ_mod x _ hx, succ_mod y _ hy]
  simp only [List.nodup_cons, List.mem_cons, List.mem_singleton, List.not_mem_nil,
    List.nodup_nil, Prod.mk.injEq, not_or, or_false, and_true, not_false_eq_true]
  split_ifs <;> omega

theorem neighbours_distinct_witness :
    (3 ≤ (singleFishWorld sampleParams).Size) ∧
    (singleFishWorld sampleParams).distinctNeighbours 1 2 :=
  ⟨by decide, (neighbours_distinct (singleFishWorld sampleParams) 1 2 (by decide) (by decide)
    (by decide)).2⟩

/-! ## C13: configuration validation -/

theorem NewWorld_ok (p : Params) (positions : List Nat)
    (hsize : 1 ≤ p.GridSize) (hf : 0 ≤ p.NumFish) (hs : 0 ≤ p.NumShark)
    (hcap : p.NumFish + p.NumShark ≤ p.GridSize * p.GridSize)
    (hperm : positions.Perm (List.range (p.GridSize.toNat * p.GridSize.toNat))) :
    ∃ g, NewWorld p positions = Except.ok ⟨p.GridSize.toNat, g, p⟩ := by
  obtain ⟨hlen, hbound, hdist⟩ := perm_range_spec positions _ hperm
  have hn : 0 < p.GridSize.toNat := by omega
  have hsq : ((p.GridSize.toNat * p.GridSize.toNat : Nat) : Int) = p.GridSize * p.GridSize := by
    rw [Nat.cast_mul, Int.toNat_of_nonneg (by omega)]
  have hfit : p.NumFish.toNat + p.NumShark.toNat ≤ positions.length := by
    rw [hlen]
    have : ((p.NumFish.toNat + p.NumShark.toNat : Nat) : Int) ≤
        ((p.GridSize.toNat * p.GridSize.toNat : Nat) : Int) := by
      rw [hsq, Nat.cast_add, Int.toNat_of_nonneg hf, Int.toNat_of_nonneg hs]
      exact hcap
    exact_mod_cast this
  obtain ⟨g1, hrun1, hwf1, hfree1, _, _, _⟩ :=
    place_spec p.GridSize.toNat positions ⟨CellType.FishCell, 0, 0⟩ hn hbound hdist
      p.NumFish.toNat 0 (makeGrid p.GridSize.toNat) (by omega) (makeGrid_WF _)
      (fun i _ _ => get_makeGrid _ _ _)
  obtain ⟨g2, hrun2, _, _, _, _, _⟩ :=
    place_spec p.GridSize.toNat positions ⟨CellType.SharkCell, 0, p.Starve⟩ hn hbound hdist
      p.NumShark.toNat (0 + p.NumFish.toNat) g1 (by omega) hwf1 hfree1
  refine ⟨g2, ?_⟩
  unfold NewWorld
  rw [if_neg (by omega), if_neg (by omega)]
  simp only [hrun1, hrun2]

theorem parseParams_ok (p : Params) (hsize : 0 < p.GridSize) (hsteps : 0 < p.Steps)
    (hf : 0 ≤ p.NumFish) (hs : 0 ≤ p.NumShark) : parseParams p = Except.ok p := by
  unfold parseParams
  rw [if_neg (by omega), if_neg (by omega)]

theorem parseParams_cases (p : Params) :
    parseParams p = Except.error Failure.exit ∨
      (parseParams p = Except.ok p ∧ 0 < p.GridSize ∧ 0 < p.Steps) := by
  unfold parseParams
  split
  · exact Or.inl rfl
  · split
    · exact Or.inl rfl
    · exact Or.inr ⟨rfl, by omega, by omega⟩

theorem NewWorld_over_capacity (p : Params) (positions : List Nat)
    (hcap : p.NumFish + p.NumShark > p.GridSize * p.GridSize) :
    NewWorld p positions = Except.error
      (if p.GridSize < 0 then Failure.crash else Failure.exit) := by
  unfold NewWorld
  split
  · rfl
  · rw [if_pos hcap]

theorem NewWorld64_eq (p : Params) (positions : List Nat)
    (hprod : p.GridSize * p.GridSize ≤ maxInt64)
    (hlo : minInt64 ≤ p.NumFish + p.NumShark) (hhi : p.NumFish + p.NumShark ≤ maxInt64) :
    NewWorld64 p positions = NewWorld p positions := by
  have hsq : 0 ≤ p.GridSize * p.GridSize := mul_self_nonneg _
  have h1 : wrap64 (p.GridSize * p.GridSize) = p.GridSize * p.GridSize :=
    wrap64_id _ (le_trans (by decide) hsq) hprod
  have h2 : wrap64 (p.NumFish + p.NumShark) = p.NumFish + p.NumShark := wrap64_id _ hlo hhi
  unfold NewWorld64 NewWorld
  rw [h1, h2]
  simp only [if_neg (not_lt.mpr hsq)]

theorem placeCreatures_short (size : Nat) (positions : List Nat) (mk : Creature)
    (n idx pos : Nat) (g : Grid) (hsize : size ≠ 0) (h0 : positions[idx]? = some pos)
    (h1 : positions[idx + 1]? = none) :
    placeCreatures size positions mk (n + 2) idx g = none := by
  unfold placeCreatures
  simp only [h0]
  rw [if_neg hsize]
  unfold placeCreatures
  simp only [h1]

theorem capacityOverflow_newWorld :
    NewWorld64 capacityOverflowParams [0] = Except.error Failure.crash := by
  have hn : capacityOverflowParams.NumFish.toNat = 9223372036854775805 + 2 := by decide
  have hp : placeCreatures 1 [0] ⟨CellType.FishCell, 0, 0⟩
      capacityOverflowParams.NumFish.toNat 0 (makeGrid 1) = none := by
    rw [hn]
    exact placeCreatures_short 1 [0] _ _ 0 0 _ (by decide) rfl rfl
  unfold NewWorld64
  rw [if_neg (by decide), if_neg (by decide), if_neg (by decide)]
  have hsz : capacityOverflowParams.GridSize.toNat = 1 := rfl
  simp only [hsz, hp]

/-- C13 (the code at the failing input): the flags `-numShark 1 -numFish
9223372036854775807 -gridSize 1` pass `parseParams`; the population exceeds the
single cell of the grid, but the 64-bit sum `NumFish + NumShark` wraps to
`minInt64`, so the capacity test of `NewWorld` does not fire: the first fish is
placed, the second placement reads `positions[1]` of a one-element permutation
and the run panics, where the claim has the configuration rejected by the
capacity test before any creature is placed. -/
theorem capacity_overflow_not_rejected :
    parseParams capacityOverflowParams = Except.ok capacityOverflowParams ∧
    capacityOverflowParams.NumFish + capacityOverflowParams.NumShark >
      capacityOverflowParams.GridSize * capacityOverflowParams.GridSize ∧
    wrap64 (capacityOverflowParams.NumFish + capacityOverflowParams.NumShark) = minInt64 ∧
    ¬ (wrap64 (capacityOverflowParams.NumFish + capacityOverflowParams.NumShark) >
      wrap64 (capacityOverflowParams.GridSize * capacityOverflowParams.GridSize)) ∧
    placeCreatures 1 [0] ⟨CellType.FishCell, 0, 0⟩ 1 0 (makeGrid 1) =
      some ([[some ⟨CellType.FishCell, 0, 0⟩]], 1) ∧
    placeCreatures 1 [0] ⟨CellType.FishCell, 0, 0⟩ 2 0 (makeGrid 1) = none ∧
    NewWorld64 capacityOverflowParams [0] = Except.error Failure.crash ∧
    startRun64 capacityOverflowParams [0] = Except.error Failure.crash ∧
    startRun64 capacityOverflowParams [0] ≠ Except.error Failure.exit := by
  have hs : startRun64 capacityOverflowParams [0] = Except.error Failure.crash := by
    show NewWorld64 capacityOverflowParams [0] = _
    exact capacityOverflow_newWorld
  refine ⟨rfl, by decide, by decide, by decide, by decide, by decide,
    capacityOverflow_newWorld, hs, ?_⟩
  rw [hs]
  exact fun h => by cases h

/-- Where the capacity sum and the cell count stay in the 64-bit range, the run
rejects and accepts configurations as the validation intends. -/
theorem startRun64_in_range (p : Params) (positions : List Nat)
    (hprod : p.GridSize * p.GridSize ≤ maxInt64)
    (hlo : minInt64 ≤ p.NumFish + p.NumShark) (hhi : p.NumFish + p.NumShark ≤ maxInt64) :
    ((p.NumFish + p.NumShark > p.GridSize * p.GridSize ∨ p.GridSize ≤ 0 ∨ p.Steps ≤ 0) →
      startRun64 p positions = Except.error Failure.exit) ∧
    (0 ≤ p.NumFish → 0 ≤ p.NumShark → 0 < p.GridSize → 0 < p.Steps →
      p.NumFish + p.NumShark ≤ p.GridSize * p.GridSize →
      positions.Perm (List.range (p.GridSize.toNat * p.GridSize.toNat)) →
      ∃ w, startRun64 p positions = Except.ok w ∧ w.Size = p.GridSize.toNat ∧ w.Params = p) := by
  refine ⟨?_, ?_⟩
  · intro h
    unfold startRun64
    rcases parseParams_cases p with hp | ⟨hp, hg, hst⟩
    · rw [hp]
    · rw [hp]
      simp only
      have hcap : p.NumFish + p.NumShark > p.GridSize * p.GridSize := by
        rcases h with h | h | h
        · exact h
        · omega
        · omega
      rw [NewWorld64_eq p positions hprod hlo hhi, NewWorld_over_capacity p positions hcap,
        if_neg (by omega)]
  · intro hf hs hg hst hcap hperm
    have hp := parseParams_ok p hg hst hf hs
    obtain ⟨g, hw⟩ := NewWorld_ok p positions (by omega) hf hs hcap hperm
    refine ⟨⟨_, g, p⟩, ?_, rfl, rfl⟩
    unfold startRun64
    rw [hp]
    show NewWorld64 p positions = _
    rw [NewWorld64_eq p positions hprod hlo hhi]
    exact hw

/-! ## C14: feeding priority -/

theorem updateShark_get_dest (w : World) (x y : Nat) (c : Creature) (ng : Grid) (r : Rand)
    (hng : ng.WF w.Size) (he : 2 ≤ c.Energy)
    (hdx : (w.sharkDest x y ng r).1 < w.Size) (hdy : (w.sharkDest x y ng r).2 < w.Size) :
    (w.updateShark x y c ng r).1.get (w.sharkDest x y ng r).1 (w.sharkDest x y ng r).2 =
      some ⟨CellType.SharkCell,
        if c.BreedCounter + 1 ≥ w.Params.SharkBreed ∧
          ((w.sharkDest x y ng r).1 ≠ x ∨ (w.sharkDest x y ng r).2 ≠ y) then 0
        else c.BreedCounter + 1,
        w.sharkEnergy x y c r⟩ := by
  rw [updateShark_alive _ _ _ _ _ _ he]
  split
  · apply Grid.get_set_same_wf _ w.Size _ _ _ _ hdx hdy
    split
    · exact Grid.WF_set _ _ _ _ _ hng
    · exact hng
  · exact Grid.get_set_same_wf _ w.Size _ _ _ hng hdx hdy

theorem fish_not_empty_neighbour (w : World) (x y : Nat) (d : Nat × Nat)
    (h : d ∈ w.fishNeighbours x y) : d ∉ w.emptyNeighbours x y := by
  intro he
  obtain ⟨_, c, hc, _⟩ := fishNeighbours_spec w x y d h
  have hn := (emptyNeighbours_spec w x y d he).2
  rw [hn] at hc
  cases hc

theorem sharkEnergy_ate (w : World) (x y : Nat) (c : Creature) (r : Rand)
    (h : (w.sharkChoice x y r).2.1 = true) : w.sharkEnergy x y c r = w.Params.Starve := by
  unfold World.sharkEnergy
  rw [h]
  rfl

/-- C14: a shark with energy at least 2 that has a fish among its previous-grid
neighbours goes, for every random choice, to one of those fish cells, never to
an empty neighbour, and after `updateShark` the next grid holds at that
destination a shark with energy exactly the starve threshold, whatever the
next-grid cell held before the call. -/
theorem shark_feeding_priority (w : World) (x y : Nat) (c : Creature) (ng : Grid) (r : Rand)
    (hw : w.Grid.WF w.Size) (hng : ng.WF w.Size) (he : 2 ≤ c.Energy)
    (hf : w.fishNeighbours x y ≠ []) :
    w.sharkDest x y ng r ∈ w.fishNeighbours x y ∧
    w.sharkDest x y ng r ∉ w.emptyNeighbours x y ∧
    (∃ b : Int, (w.updateShark x y c ng r).1.get (w.sharkDest x y ng r).1
      (w.sharkDest x y ng r).2 = some ⟨CellType.SharkCell, b, w.Params.Starve⟩) ∧
    (∀ prior : Option Creature, ∃ b : Int,
      (w.updateShark x y c
        (ng.set (w.sharkDest x y ng r).1 (w.sharkDest x y ng r).2 prior) r).1.get
        (w.sharkDest x y ng r).1 (w.sharkDest x y ng r).2 =
        some ⟨CellType.SharkCell, b, w.Params.Starve⟩) := by
  obtain ⟨hate, hd, hmem⟩ := sharkDest_ate w x y ng r hf
  obtain ⟨_, cf, hcf, _⟩ := fishNeighbours_spec w x y _ hmem
  obtain ⟨hdx, hdy⟩ := Grid.get_some_lt _ _ _ _ _ hw hcf
  refine ⟨hmem, fish_not_empty_neighbour w x y _ hmem, ?_, ?_⟩
  · have h := updateShark_get_dest w x y c ng r hng he hdx hdy
    rw [sharkEnergy_ate w x y c r hate] at h
    exact ⟨_, h⟩
  · intro prior
    have hd2 : w.sharkDest x y (ng.set (w.sharkDest x y ng r).1 (w.sharkDest x y ng r).2 prior) r =
        w.sharkDest x y ng r := by
      rw [(sharkDest_ate w x y _ r hf).2.1, hd]
    have h := updateShark_get_dest w x y c
      (ng.set (w.sharkDest x y ng r).1 (w.sharkDest x y ng r).2 prior) r
      (Grid.WF_set _ _ _ _ _ hng) he (by rw [hd2]; exact hdx) (by rw [hd2]; exact hdy)
    rw [hd2, sharkEnergy_ate w x y c r hate] at h
    exact ⟨_, h⟩

theorem shark_feeding_priority_witness :
    ((sharkEatsFishWorld sampleParams 0).fishNeighbours 0 0 ≠ [] ∧
      (sharkEatsFishWorld sampleParams 0).emptyNeighbours 0 0 ≠ []) ∧
    (sharkEatsFishWorld sampleParams 0).sharkDest 0 0 (makeGrid 3) (Rand.const 2) ∈
      (sharkEatsFishWorld sampleParams 0).fishNeighbours 0 0 :=
  ⟨by decide,
   (shark_feeding_priority (sharkEatsFishWorld sampleParams 0) 0 0 ⟨CellType.SharkCell, 0, 2⟩
    (makeGrid 3) (Rand.const 2) (by decide) (makeGrid_WF 3) (by decide) (by decide)).1⟩

/-! ## C15: the fish move rule -/

theorem emptyDest_mem (w : World) (x y : Nat) (r : Rand) (h : w.emptyNeighbours x y ≠ []) :
    w.emptyDest x y r ∈ w.emptyNeighbours x y := by
  unfold World.emptyDest
  exact getD_mem _ _ _ (Intn_fst_lt r _ (List.length_pos.mpr h))

theorem emptyDest_spec (w : World) (x y : Nat) (c : Creature) (r : Rand)
    (hx : x < w.Size) (hy : y < w.Size) (hc : w.Grid.get x y = some c)
    (h : w.emptyNeighbours x y ≠ []) :
    (w.emptyDest x y r).1 < w.Size ∧ (w.emptyDest x y r).2 < w.Size ∧
      ((w.emptyDest x y r).1 ≠ x ∨ (w.emptyDest x y r).2 ≠ y) ∧
      w.Grid.get (w.emptyDest x y r).1 (w.emptyDest x y r).2 = none := by
  obtain ⟨hn, hfree⟩ := emptyNeighbours_spec w x y _ (emptyDest_mem w x y r h)
  obtain ⟨h1, h2⟩ := neighbours_lt w x y _ hx hy hn
  refine ⟨h1, h2, ?_, hfree⟩
  by_contra hcon
  have e1 : (w.emptyDest x y r).1 = x := by by_contra h; exact hcon (Or.inl h)
  have e2 : (w.emptyDest x y r).2 = y := by by_contra h; exact hcon (Or.inr h)
  rw [e1, e2, hc] at hfree
  cases hfree

/-- C15: when the fish at `(x, y)` has a previous-grid empty neighbour and the
drawn destination `(dx, dy)` is empty in the next grid, then with
`breed = old counter + 1`: if `breed >= FishBreed` the next grid afterwards holds
a fish with counter 0 and energy 0 at `(dx, dy)` and, if `(x, y)` was empty in
the next grid, a fish with counter 0 and energy 0 at `(x, y)`; if
`breed < FishBreed` it holds a fish with counter `breed` and energy 0 at
`(dx, dy)` and `(x, y)` is left unchanged. -/
theorem fish_move_rule (w : World) (x y : Nat) (c : Creature) (ng : Grid) (r : Rand)
    (hng : ng.WF w.Size) (hx : x < w.Size) (hy : y < w.Size)
    (hc : w.Grid.get x y = some c) (hne : w.emptyNeighbours x y ≠ [])
    (hd : ng.get (w.emptyDest x y r).1 (w.emptyDest x y r).2 = none) :
    w.emptyDest x y r ∈ w.emptyNeighbours x y ∧
    (c.BreedCounter + 1 ≥ w.Params.FishBreed →
      (w.updateFish x y c ng r).1.get (w.emptyDest x y r).1 (w.emptyDest x y r).2 =
        some ⟨CellType.FishCell, 0, 0⟩ ∧
      (ng.get x y = none →
        (w.updateFish x y c ng r).1.get x y = some ⟨CellType.FishCell, 0, 0⟩)) ∧
    (c.BreedCounter + 1 < w.Params.FishBreed →
      (w.updateFish x y c ng r).1.get (w.emptyDest x y r).1 (w.emptyDest x y r).2 =
        some ⟨CellType.FishCell, c.BreedCounter + 1, 0⟩ ∧
      (w.updateFish x y c ng r).1.get x y = ng.get x y) := by
  obtain ⟨hdx, hdy, hneq, _⟩ := emptyDest_spec w x y c r hx hy hc hne
  have hneq2 : x ≠ (w.emptyDest x y r).1 ∨ y ≠ (w.emptyDest x y r).2 := by
    rcases hneq with h | h
    · exact Or.inl (Ne.symm h)
    · exact Or.inr (Ne.symm h)
  refine ⟨emptyDest_mem w x y r hne, ?_, ?_⟩
  · intro hb
    rw [updateFish_breed _ _ _ _ _ _ hne hd hb]
    constructor
    · apply Grid.get_set_same_wf _ w.Size _ _ _ _ hdx hdy
      split
      · exact Grid.WF_set _ _ _ _ _ hng
      · exact hng
    · intro hfree
      show Grid.get (Grid.set _ _ _ _) x y = _
      rw [Grid.get_set_ne _ _ _ _ _ _ hneq2, if_pos hfree]
      exact Grid.get_set_same_wf _ _ _ _ _ hng hx hy
  · intro hb
    rw [updateFish_move _ _ _ _ _ _ hne hd (by omega)]
    exact ⟨Grid.get_set_same_wf _ _ _ _ _ hng hdx hdy, Grid.get_set_ne _ _ _ _ _ _ hneq2⟩

theorem fish_move_rule_witness :
    ((singleFishWorld breedingParams).emptyNeighbours 0 0 ≠ [] ∧
      (0 : Int) + 1 ≥ (singleFishWorld breedingParams).Params.FishBreed) ∧
    ((singleFishWorld breedingParams).updateFish 0 0 ⟨CellType.FishCell, 0, 0⟩ (makeGrid 3)
      (Rand.const 1)).1.get 0 0 = some ⟨CellType.FishCell, 0, 0⟩ :=
  ⟨by decide,
   ((fish_move_rule (singleFishWorld breedingParams) 0 0 ⟨CellType.FishCell, 0, 0⟩ (makeGrid 3)
    (Rand.const 1) (makeGrid_WF 3) (by decide) (by decide) rfl (by decide)
    (get_makeGrid 3 _ _)).2.1 (by decide)).2 (get_makeGrid 3 0 0)⟩

/-! ## C16: the shark reproduction rule -/

theorem sharkDest_moved_mem (w : World) (x y : Nat) (ng : Grid) (r : Rand)
    (hmv : (w.sharkDest x y ng r).1 ≠ x ∨ (w.sharkDest x y ng r).2 ≠ y) :
    w.sharkDest x y ng r ∈ w.neighbours x y := by
  by_cases hf : w.fishNeighbours x y = []
  · by_cases he : w.emptyNeighbours x y = []
    · have h := (sharkDest_stays w x y ng r hf (Or.inl he)).2
      rw [h] at hmv
      rcases hmv with h1 | h1 <;> exact absurd rfl h1
    · have hc := sharkChoice_empty w x y r hf he
      have hd : w.sharkDest x y ng r = w.emptyDest x y r := by
        have hcases : w.sharkDest x y ng r = (x, y) ∨
            w.sharkDest x y ng r = (w.sharkChoice x y r).1 := by
          unfold World.sharkDest
          split
          · exact Or.inl rfl
          · exact Or.inr rfl
        rcases hcases with h1 | h1
        · rw [h1] at hmv
          rcases hmv with h2 | h2 <;> exact absurd rfl h2
        · rw [h1, hc]
          rfl
      rw [hd]
      exact (emptyNeighbours_spec w x y _ (emptyDest_mem w x y r he)).1
  · exact (fishNeighbours_spec w x y _ (sharkDest_ate w x y ng r hf).2.2).1

/-- C16: for a shark with energy at least 2 whose final destination differs
from its origin, with `breed = old counter + 1`: if `breed >= SharkBreed` the
parent written at the destination has breed counter 0 and, if the origin cell
was empty in the next grid, a child shark with counter 0 and energy equal to
the starve threshold is written at the origin; if `breed < SharkBreed` the
parent has counter `breed` and the origin cell of the next grid is left
unchanged.  The parent's energy is the starve threshold after eating and the
old energy less one otherwise. -/
theorem shark_reproduction_rule (w : World) (x y : Nat) (c : Creature) (ng : Grid)
    (r : Rand) (hng : ng.WF w.Size) (hx : x < w.Size) (hy : y < w.Size)
    (he : 2 ≤ c.Energy)
    (hmv : (w.sharkDest x y ng r).1 ≠ x ∨ (w.sharkDest x y ng r).2 ≠ y) :
    (w.sharkEnergy x y c r = w.Params.Starve ∨ w.sharkEnergy x y c r = c.Energy - 1) ∧
    (c.BreedCounter + 1 ≥ w.Params.SharkBreed →
      (w.updateShark x y c ng r).1.get (w.sharkDest x y ng r).1 (w.sharkDest x y ng r).2 =
        some ⟨CellType.SharkCell, 0, w.sharkEnergy x y c r⟩ ∧
      (ng.get x y = none →
        (w.updateShark x y c ng r).1.get x y =
          some ⟨CellType.SharkCell, 0, w.Params.Starve⟩)) ∧
    (c.BreedCounter + 1 < w.Params.SharkBreed →
      (w.updateShark x y c ng r).1.get (w.sharkDest x y ng r).1 (w.sharkDest x y ng r).2 =
        some ⟨CellType.SharkCell, c.BreedCounter + 1, w.sharkEnergy x y c r⟩ ∧
      (w.updateShark x y c ng r).1.get x y = ng.get x y) := by
  obtain ⟨hdx, hdy⟩ := neighbours_lt w x y _ hx hy (sharkDest_moved_mem w x y ng r hmv)
  have hneq2 : x ≠ (w.sharkDest x y ng r).1 ∨ y ≠ (w.sharkDest x y ng r).2 := by
    rcases hmv with h | h
    · exact Or.inl (Ne.symm h)
    · exact Or.inr (Ne.symm h)
  refine ⟨sharkEnergy_cases w x y c r, ?_, ?_⟩
  · intro hb
    rw [updateShark_alive _ _ _ _ _ _ he, if_pos ⟨hb, hmv⟩]
    constructor
    · apply Grid.get_set_same_wf _ w.Size _ _ _ _ hdx hdy
      split
      · exact Grid.WF_set _ _ _ _ _ hng
      · exact hng
    · intro hfree
      show Grid.get (Grid.set _ _ _ _) x y = _
      rw [Grid.get_set_ne _ _ _ _ _ _ hneq2, if_pos hfree]
      exact Grid.get_set_same_wf _ _ _ _ _ hng hx hy
  · intro hb
    rw [updateShark_alive _ _ _ _ _ _ he, if_neg (fun h => by omega)]
    exact ⟨Grid.get_set_same_wf _ _ _ _ _ hng hdx hdy, Grid.get_set_ne _ _ _ _ _ _ hneq2⟩

theorem shark_reproduction_rule_witness :
    ((2 : Int) ≤ 2 ∧
      ((sharkEatsFishWorld sharkBreedingParams 0).sharkDest 0 0 (makeGrid 3) (Rand.const 0)).2 ≠ 0 ∧
      (0 : Int) + 1 ≥ (sharkEatsFishWorld sharkBreedingParams 0).Params.SharkBreed) ∧
    ((sharkEatsFishWorld sharkBreedingParams 0).updateShark 0 0 ⟨CellType.SharkCell, 0, 2⟩
      (makeGrid 3) (Rand.const 0)).1.get 0 0 = some ⟨CellType.SharkCell, 0, 3⟩ :=
  ⟨by decide,
   ((shark_reproduction_rule (sharkEatsFishWorld sharkBreedingParams 0) 0 0
    ⟨CellType.SharkCell, 0, 2⟩ (makeGrid 3) (Rand.const 0) (makeGrid_WF 3) (by decide)
    (by decide) (by decide) (Or.inr (by decide))).2.1 (by decide)).2 (get_makeGrid 3 0 0)⟩

/-! ## C17: the frame of `updateFish` -/

theorem Grid.count_set_add (k : CellType) (g : Grid) (x y : Nat) (c : Creature) :
    (g.set x y (some c)).count k + (if isKind k (g.get x y) = true then 1 else 0) =
      g.count k +
        (if (y < g.length ∧ x < (g.getD y []).length) ∧ c.Kind = k then 1 else 0) := by
  by_cases hb : y < g.length ∧ x < (g.getD y []).length
  · obtain ⟨hylen, hxlen⟩ := hb
    have hget : g.get x y = (g.getD y [])[x] := by
      unfold Grid.get
      rw [List.getD_eq_getElem?_getD, List.getElem?_eq_getElem hxlen]
      rfl
    have hrow := List.countP_set (isKind k) (g.getD y []) x (some c) hxlen
    have hA : (if isKind k (g.getD y [])[x] = true then 1 else 0) ≤
        (g.getD y []).countP (isKind k) := by
      split
      · rename_i hp
        have : 0 < (g.getD y []).countP (isKind k) := by
          rw [List.countP_pos_iff]
          exact ⟨_, List.getElem_mem hxlen, hp⟩
        omega
      · omega
    have hB : (if isKind k (some c) = true then 1 else 0) =
        (if (y < g.length ∧ x < (g.getD y []).length) ∧ c.Kind = k then 1 else 0) := by
      by_cases hk : c.Kind = k
      · rw [if_pos (by simp [isKind, hk]), if_pos ⟨⟨hylen, hxlen⟩, hk⟩]
      · rw [if_neg (by simp [isKind, hk]), if_neg (fun h => hk h.2)]
    have hs := sum_map_set (fun row => row.countP (isKind k)) g y
      ((g.getD y []).set x (some c)) hylen
    simp only at hs
    unfold Grid.count Grid.set
    rw [hget, ← hB]
    rw [hrow] at hs
    omega
  · have hget : g.get x y = none := by
      unfold Grid.get
      by_cases hy : y < g.length
      · exact getD_length _ x none (by
          by_contra hc
          exact hb ⟨hy, by omega⟩)
      · rw [getD_length g y [] (by omega)]
        rfl
    rw [Grid.set_outside g x y _ hb, hget, if_neg (by simp [isKind]),
      if_neg (fun h => hb h.1)]

theorem Grid.count_set_le (k : CellType) (g : Grid) (x y : Nat) (c : Creature) :
    (g.set x y (some c)).count k ≤ g.count k + 1 := by
  have h := Grid.count_set_add k g x y c
  split at h <;> split at h <;> omega

theorem Grid.count_set_ge (k : CellType) (g : Grid) (x y : Nat) (c : Creature)
    (hfree : g.get x y = none) : g.count k ≤ (g.set x y (some c)).count k := by
  have h := Grid.count_set_add k g x y c
  rw [hfree, if_neg (by simp [isKind])] at h
  omega

theorem Grid.count_set_other (k : CellType) (g : Grid) (x y : Nat) (c : Creature)
    (hfree : g.get x y = none) (hk : c.Kind ≠ k) :
    (g.set x y (some c)).count k = g.count k := by
  have h := Grid.count_set_add k g x y c
  rw [hfree, if_neg (by simp [isKind]), if_neg (fun h => hk h.2)] at h
  omega

theorem Grid.isKind_get_inb (k : CellType) (g : Grid) (x y : Nat)
    (h : isKind k (g.get x y) = true) : y < g.length ∧ x < (g.getD y []).length := by
  by_contra hb
  have hget : g.get x y = none := by
    unfold Grid.get
    by_cases hy : y < g.length
    · exact getD_length _ x none (by
        by_contra hc
        exact hb ⟨hy, by omega⟩)
    · rw [getD_length g y [] (by omega)]
      rfl
  rw [hget] at h
  cases h

theorem Grid.count_set_ge_kind (k : CellType) (g : Grid) (x y : Nat) (c : Creature)
    (hk : c.Kind = k) : g.count k ≤ (g.set x y (some c)).count k := by
  have h := Grid.count_set_add k g x y c
  by_cases hold : isKind k (g.get x y) = true
  · rw [if_pos hold, if_pos ⟨Grid.isKind_get_inb k g x y hold, hk⟩] at h
    omega
  · rw [if_neg hold] at h
    omega

theorem Grid.count_set_not_kind (k : CellType) (g : Grid) (x y : Nat) (c : Creature)
    (hold : ¬ isKind k (g.get x y) = true) (hk : c.Kind ≠ k) :
    (g.set x y (some c)).count k = g.count k := by
  have h := Grid.count_set_add k g x y c
  rw [if_neg hold, if_neg (fun h => hk h.2)] at h
  omega

theorem stayGrid_count (ng : Grid) (x y : Nat) (b : Int) :
    ng.count CellType.FishCell ≤
      (if ng.get x y = none then ng.set x y (some ⟨CellType.FishCell, b, 0⟩)
        else ng).count CellType.FishCell ∧
    (if ng.get x y = none then ng.set x y (some ⟨CellType.FishCell, b, 0⟩)
        else ng).count CellType.FishCell ≤ ng.count CellType.FishCell + 1 ∧
    (if ng.get x y = none then ng.set x y (some ⟨CellType.FishCell, b, 0⟩)
        else ng).count CellType.SharkCell = ng.count CellType.SharkCell := by
  split
  · rename_i hfree
    exact ⟨Grid.count_set_ge _ _ _ _ _ hfree, Grid.count_set_le _ _ _ _ _,
      Grid.count_set_other _ _ _ _ _ hfree (fun h => by cases h)⟩
  · exact ⟨le_refl _, Nat.le_succ _, rfl⟩

theorem stayGrid_not_shark (ng : Grid) (x y x1 y1 : Nat) (b : Int)
    (h : ng.get x1 y1 = none) :
    ¬ isKind CellType.SharkCell
      ((if ng.get x y = none then ng.set x y (some ⟨CellType.FishCell, b, 0⟩)
        else ng).get x1 y1) = true := by
  split
  · rcases Grid.get_set_cases ng x y x1 y1 (some ⟨CellType.FishCell, b, 0⟩) with h1 | h1
    · rw [h1]
      simp [isKind]
    · rw [h1, h]
      simp [isKind]
  · rw [h]
    simp [isKind]

theorem updateFish_count (w : World) (x y : Nat) (c : Creature) (ng : Grid) (r : Rand) :
    ng.count CellType.FishCell ≤ (w.updateFish x y c ng r).1.count CellType.FishCell ∧
    (w.updateFish x y c ng r).1.count CellType.FishCell ≤ ng.count CellType.FishCell + 2 ∧
    (c.BreedCounter + 1 < w.Params.FishBreed →
      (w.updateFish x y c ng r).1.count CellType.FishCell ≤ ng.count CellType.FishCell + 1) ∧
    (w.updateFish x y c ng r).1.count CellType.SharkCell = ng.count CellType.SharkCell := by
  have hstay := stayGrid_count ng x y (c.BreedCounter + 1)
  by_cases he : w.emptyNeighbours x y = []
  · rw [updateFish_noEmpty _ _ _ _ _ _ he]
    dsimp only
    exact ⟨hstay.1, by omega, fun _ => hstay.2.1, hstay.2.2⟩
  · by_cases hd : ng.get (w.emptyDest x y r).1 (w.emptyDest x y r).2 = none
    · by_cases hb : c.BreedCounter + 1 ≥ w.Params.FishBreed
      · rw [updateFish_breed _ _ _ _ _ _ he hd hb]
        have h0 := stayGrid_count ng x y 0
        have h1 := Grid.count_set_le CellType.FishCell
          (if ng.get x y = none then ng.set x y (some ⟨CellType.FishCell, 0, 0⟩) else ng)
          (w.emptyDest x y r).1 (w.emptyDest x y r).2 ⟨CellType.FishCell, 0, 0⟩
        have h2 := Grid.count_set_ge_kind CellType.FishCell
          (if ng.get x y = none then ng.set x y (some ⟨CellType.FishCell, 0, 0⟩) else ng)
          (w.emptyDest x y r).1 (w.emptyDest x y r).2 ⟨CellType.FishCell, 0, 0⟩ rfl
        have h3 := Grid.count_set_not_kind CellType.SharkCell
          (if ng.get x y = none then ng.set x y (some ⟨CellType.FishCell, 0, 0⟩) else ng)
          (w.emptyDest x y r).1 (w.emptyDest x y r).2 ⟨CellType.FishCell, 0, 0⟩
          (stayGrid_not_shark ng x y _ _ 0 hd) (by decide)
        dsimp only
        refine ⟨by omega, by omega, fun hlt => by omega, by omega⟩
      · rw [updateFish_move _ _ _ _ _ _ he hd hb]
        dsimp only
        exact ⟨Grid.count_set_ge _ _ _ _ _ hd,
          le_trans (Grid.count_set_le _ _ _ _ _) (Nat.le_succ _),
          fun _ => Grid.count_set_le _ _ _ _ _,
          Grid.count_set_other _ _ _ _ _ hd (fun h => by cases h)⟩
    · rw [updateFish_blocked _ _ _ _ _ _ he hd]
      dsimp only
      exact ⟨hstay.1, by omega, fun _ => hstay.2.1, hstay.2.2⟩

theorem updateFish_frame (w : World) (x y : Nat) (c : Creature) (ng : Grid) (r : Rand)
    (x1 y1 : Nat) (horig : x1 ≠ x ∨ y1 ≠ y)
    (hdest : w.emptyNeighbours x y = [] ∨
      (x1 ≠ (w.emptyDest x y r).1 ∨ y1 ≠ (w.emptyDest x y r).2)) :
    (w.updateFish x y c ng r).1.get x1 y1 = ng.get x1 y1 := by
  have hstay : ∀ v, (if ng.get x y = none then ng.set x y v else ng).get x1 y1 =
      ng.get x1 y1 := by
    intro v
    split
    · exact Grid.get_set_ne _ _ _ _ _ _ horig
    · rfl
  by_cases he : w.emptyNeighbours x y = []
  · rw [updateFish_noEmpty _ _ _ _ _ _ he]
    exact hstay _
  · have hne : x1 ≠ (w.emptyDest x y r).1 ∨ y1 ≠ (w.emptyDest x y r).2 := by
      rcases hdest with h | h
      · exact absurd h he
      · exact h
    by_cases hd : ng.get (w.emptyDest x y r).1 (w.emptyDest x y r).2 = none
    · by_cases hb : c.BreedCounter + 1 ≥ w.Params.FishBreed
      · rw [updateFish_breed _ _ _ _ _ _ he hd hb]
        show Grid.get (Grid.set _ _ _ _) x1 y1 = _
        rw [Grid.get_set_ne _ _ _ _ _ _ hne]
        exact hstay _
      · rw [updateFish_move _ _ _ _ _ _ he hd hb]
        exact Grid.get_set_ne _ _ _ _ _ _ hne
    · rw [updateFish_blocked _ _ _ _ _ _ he hd]
      exact hstay _

/-- C17: for every fish, every next grid and every random choice, `updateFish`
leaves unchanged every next-grid cell that was occupied before the call, and
every cell other than the origin `(x, y)` and the one drawn destination; it
never removes a fish, adds at most two fish, at most one when
`old counter + 1 < FishBreed`, and leaves the number of sharks unchanged. -/
theorem fish_first_writer_wins (w : World) (x y : Nat) (c : Creature) (ng : Grid)
    (r : Rand) :
    (∀ x1 y1, ng.get x1 y1 ≠ none →
      (w.updateFish x y c ng r).1.get x1 y1 = ng.get x1 y1) ∧
    (∀ x1 y1, (x1 ≠ x ∨ y1 ≠ y) →
      (w.emptyNeighbours x y = [] ∨
        (x1 ≠ (w.emptyDest x y r).1 ∨ y1 ≠ (w.emptyDest x y r).2)) →
      (w.updateFish x y c ng r).1.get x1 y1 = ng.get x1 y1) ∧
    ng.count CellType.FishCell ≤ (w.updateFish x y c ng r).1.count CellType.FishCell ∧
    (w.updateFish x y c ng r).1.count CellType.FishCell ≤ ng.count CellType.FishCell + 2 ∧
    (c.BreedCounter + 1 < w.Params.FishBreed →
      (w.updateFish x y c ng r).1.count CellType.FishCell ≤ ng.count CellType.FishCell + 1) ∧
    (w.updateFish x y c ng r).1.count CellType.SharkCell = ng.count CellType.SharkCell :=
  ⟨fun x1 y1 h => updateFish_keeps_occupied w x y c ng r x1 y1 h,
   fun x1 y1 h1 h2 => updateFish_frame w x y c ng r x1 y1 h1 h2,
   updateFish_count w x y c ng r⟩

theorem fish_first_writer_wins_witness :
    ((twoFishGrid 0).get 0 2 ≠ none ∧
      (0 : Int) + 1 < (singleFishWorld sampleParams).Params.FishBreed) ∧
    ((singleFishWorld sampleParams).updateFish 0 0 ⟨CellType.FishCell, 0, 0⟩ (twoFishGrid 0)
      (Rand.const 0)).1.count CellType.FishCell ≤ (twoFishGrid 0).count CellType.FishCell + 1 :=
  ⟨by decide, (fish_first_writer_wins (singleFishWorld sampleParams) 0 0
    ⟨CellType.FishCell, 0, 0⟩ (twoFishGrid 0) (Rand.const 0)).2.2.2.2.1 (by decide)⟩

/-! ## C18: the row partition of `StepParallel` -/

theorem cappedThreads_le (w : World) (threads : Int) (ht : 2 ≤ threads) :
    w.cappedThreads threads ≤ w.Size := by
  unfold World.cappedThreads
  split <;> omega

theorem rowsPerThread_cover (w : World) (threads : Int) (hs : 1 ≤ w.Size)
    (ht : 2 ≤ threads) :
    1 ≤ w.rowsPerThread threads ∧
      w.Size ≤ w.cappedThreads threads * w.rowsPerThread threads := by
  have hT := cappedThreads_pos w threads hs (by omega)
  have hle := cappedThreads_le w threads ht
  unfold World.rowsPerThread
  have h1 := Nat.lt_mul_div_succ (w.Size + w.cappedThreads threads - 1) hT
  have h2 : w.cappedThreads threads *
      ((w.Size + w.cappedThreads threads - 1) / w.cappedThreads threads + 1) =
      w.cappedThreads threads *
        ((w.Size + w.cappedThreads threads - 1) / w.cappedThreads threads) +
      w.cappedThreads threads := by ring
  constructor
  · rw [Nat.le_div_iff_mul_le hT]
    omega
  · omega

theorem mem_workerRows (w : World) (threads : Int) (t y : Nat) :
    y ∈ w.workerRows threads t ↔
      t * w.rowsPerThread threads ≤ y ∧ y < (t + 1) * w.rowsPerThread threads ∧
        y < w.Size := by
  have e : (t + 1) * w.rowsPerThread threads =
      t * w.rowsPerThread threads + w.rowsPerThread threads := by ring
  unfold World.workerRows
  split
  · simp only [List.not_mem_nil, false_iff]
    omega
  · rw [List.mem_range'_1]
    split <;> omega

theorem localGrids_rows (w : World) (threads : Int) (rs : Nat → Rand) :
    w.localGrids (w.cappedThreads threads) (w.rowsPerThread threads) rs =
      (List.range (w.cappedThreads threads)).map (fun t =>
        (w.sharkPhase (w.workerRows threads t)
          (w.fishPhase (w.workerRows threads t) (makeGrid w.Size, rs t))).1) := by
  unfold World.localGrids
  apply List.map_congr_left
  intro t _
  unfold World.workerRows
  simp only
  split
  · rfl
  · rfl

/-- C18: for every `Size >= 1` and every requested thread count of at least 2,
with the thread count capped at `Size` and `rowsPerThread = ceil(Size / threads)`,
worker `t` walks exactly the rows `t * rowsPerThread <= y < min((t+1) * rowsPerThread, Size)`;
these ranges are contiguous from row 0 to row `Size - 1`, and every row of the
grid belongs to the range of exactly one worker, so every fish and every shark
of the previous grid is updated by exactly one worker. -/
theorem row_partition (w : World) (threads : Int) (hs : 1 ≤ w.Size) (ht : 2 ≤ threads) :
    (1 ≤ w.cappedThreads threads ∧ w.cappedThreads threads ≤ w.Size ∧
      (w.cappedThreads threads : Int) ≤ threads) ∧
    (1 ≤ w.rowsPerThread threads ∧
      w.Size ≤ w.cappedThreads threads * w.rowsPerThread threads ∧
      w.cappedThreads threads * (w.rowsPerThread threads - 1) < w.Size) ∧
    (∀ t y, y ∈ w.workerRows threads t ↔
      t * w.rowsPerThread threads ≤ y ∧
        y < min ((t + 1) * w.rowsPerThread threads) w.Size) ∧
    (∀ y, y < w.Size → ∃ t, t < w.cappedThreads threads ∧ y ∈ w.workerRows threads t ∧
      ∀ t1, y ∈ w.workerRows threads t1 → t1 = t) ∧
    (∀ rs : Nat → Rand,
      w.localGrids (w.cappedThreads threads) (w.rowsPerThread threads) rs =
        (List.range (w.cappedThreads threads)).map (fun t =>
          (w.sharkPhase (w.workerRows threads t)
            (w.fishPhase (w.workerRows threads t) (makeGrid w.Size, rs t))).1)) := by
  have hT := cappedThreads_pos w threads hs (by omega)
  have hle := cappedThreads_le w threads ht
  obtain ⟨hr, hcov⟩ := rowsPerThread_cover w threads hs ht
  refine ⟨⟨hT, hle, ?_⟩, ⟨hr, hcov, ?_⟩, ?_, ?_, fun rs => localGrids_rows w threads rs⟩
  · unfold World.cappedThreads
    split <;> omega
  · have h3 : w.cappedThreads threads * w.rowsPerThread threads ≤
        w.Size + w.cappedThreads threads - 1 := by
      unfold World.rowsPerThread
      exact Nat.mul_div_le _ _
    obtain ⟨k, hk⟩ : ∃ k, w.rowsPerThread threads = k + 1 := ⟨w.rowsPerThread threads - 1, by omega⟩
    rw [hk] at h3 ⊢
    have h4 : w.cappedThreads threads * (k + 1) =
        w.cappedThreads threads * k + w.cappedThreads threads := by ring
    rw [Nat.add_sub_cancel]
    omega
  · intro t y
    rw [mem_workerRows]
    constructor
    · intro h
      exact ⟨h.1, by omega⟩
    · intro h
      exact ⟨h.1, by omega, by omega⟩
  · intro y hy
    refine ⟨y / w.rowsPerThread threads, ?_, ?_, ?_⟩
    · rw [Nat.div_lt_iff_lt_mul hr]
      omega
    · rw [mem_workerRows]
      refine ⟨Nat.div_mul_le_self y _, ?_, hy⟩
      have := Nat.lt_mul_div_succ y hr
      rw [Nat.mul_comm]
      exact this
    · intro t1 h1
      rw [mem_workerRows] at h1
      have ha : t1 ≤ y / w.rowsPerThread threads := (Nat.le_div_iff_mul_le hr).mpr h1.1
      have hb : y / w.rowsPerThread threads < t1 + 1 :=
        (Nat.div_lt_iff_lt_mul hr).mpr h1.2.1
      omega

theorem row_partition_witness :
    (1 ≤ (singleFishWorld sampleParams).Size ∧ (2 : Int) ≤ 2) ∧
    (singleFishWorld sampleParams).workerRows 2 0 = [0, 1] ∧
    (singleFishWorld sampleParams).workerRows 2 1 = [2] ∧
    (2 ∈ (singleFishWorld sampleParams).workerRows 2 1 ↔
      1 * (singleFishWorld sampleParams).rowsPerThread 2 ≤ 2 ∧
        2 < min ((1 + 1) * (singleFishWorld sampleParams).rowsPerThread 2)
          (singleFishWorld sampleParams).Size) :=
  ⟨by decide, by decide, by decide,
   (row_partition (singleFishWorld sampleParams) 2 (by decide) (by decide)).2.2.1 1 2⟩

/-! ## C19: the data-model invariant -/

theorem updateFish_WF (w : World) (x y : Nat) (c : Creature) (ng : Grid) (r : Rand)
    (n : Nat) (h : ng.WF n) : (w.updateFish x y c ng r).1.WF n := by
  have hstay : ∀ v, (if ng.get x y = none then ng.set x y v else ng).WF n := by
    intro v
    split
    · exact Grid.WF_set _ _ _ _ _ h
    · exact h
  by_cases he : w.emptyNeighbours x y = []
  · rw [updateFish_noEmpty _ _ _ _ _ _ he]
    exact hstay _
  · by_cases hd : ng.get (w.emptyDest x y r).1 (w.emptyDest x y r).2 = none
    · by_cases hb : c.BreedCounter + 1 ≥ w.Params.FishBreed
      · rw [updateFish_breed _ _ _ _ _ _ he hd hb]
        exact Grid.WF_set _ _ _ _ _ (hstay _)
      · rw [updateFish_move _ _ _ _ _ _ he hd hb]
        exact Grid.WF_set _ _ _ _ _ h
    · rw [updateFish_blocked _ _ _ _ _ _ he hd]
      exact hstay _

theorem updateShark_WF (w : World) (x y : Nat) (c : Creature) (ng : Grid) (r : Rand)
    (n : Nat) (h : ng.WF n) : (w.updateShark x y c ng r).1.WF n := by
  by_cases he : c.Energy ≤ 1
  · rw [updateShark_starve _ _ _ _ _ _ he]
    exact h
  · rw [updateShark_alive _ _ _ _ _ _ (by omega)]
    split
    · apply Grid.WF_set
      split
      · exact Grid.WF_set _ _ _ _ _ h
      · exact h
    · exact Grid.WF_set _ _ _ _ _ h

theorem fishPhase_WF (w : World) (ys : List Nat) (st : Grid × Rand) (n : Nat)
    (h : st.1.WF n) : (w.fishPhase ys st).1.WF n := by
  unfold World.fishPhase
  apply foldl_inv (fun s : Grid × Rand => s.1.WF n) _ _ _ h
  intro s y _ hs
  apply foldl_inv (fun s : Grid × Rand => s.1.WF n) _ _ _ hs
  intro s1 x _ hs1
  cases hg : w.Grid.get x y with
  | none => exact hs1
  | some c =>
    show Grid.WF (if c.Kind ≠ CellType.FishCell then s1 else w.updateFish x y c s1.1 s1.2).1 n
    split
    · exact hs1
    · exact updateFish_WF w x y c _ _ n hs1

theorem sharkPhase_WF (w : World) (ys : List Nat) (st : Grid × Rand) (n : Nat)
    (h : st.1.WF n) : (w.sharkPhase ys st).1.WF n := by
  unfold World.sharkPhase
  apply foldl_inv (fun s : Grid × Rand => s.1.WF n) _ _ _ h
  intro s y _ hs
  apply foldl_inv (fun s : Grid × Rand => s.1.WF n) _ _ _ hs
  intro s1 x _ hs1
  cases hg : w.Grid.get x y with
  | none => exact hs1
  | some c =>
    show Grid.WF (if c.Kind ≠ CellType.SharkCell then s1 else w.updateShark x y c s1.1 s1.2).1 n
    split
    · exact hs1
    · exact updateShark_WF w x y c _ _ n hs1

theorem Step_WF (w : World) (r : Rand) : (w.Step r).1.Grid.WF w.Size := by
  unfold World.Step
  exact sharkPhase_WF w _ _ _ (fishPhase_WF w _ _ _ (makeGrid_WF _))

/-- C19: if every creature of the current grid has kind fish or shark and a
breed counter of at least 0, then after one `Step`, for every random outcome,
the new grid is `Size x Size`, every creature in it has kind fish or shark and
a breed counter of at least 0, and every fish in it has energy 0. -/
theorem data_model_invariant (w : World) (r : Rand)
    (h : Grid.All dataModelOK w.Grid) :
    (w.Step r).1.Size = w.Size ∧ (w.Step r).1.Grid.WF w.Size ∧
    Grid.All dataModelPost (w.Step r).1.Grid := by
  refine ⟨rfl, Step_WF w r, ?_⟩
  apply Step_All
  · intro x y c hg _ b hb
    have h0 := (h x y c hg).2
    refine ⟨Or.inl rfl, ?_, fun _ => rfl⟩
    show 0 ≤ b
    rcases hb with hb | hb <;> omega
  · intro _ _ _ _ _ _
    exact ⟨Or.inr rfl, le_refl _, fun hk => by cases hk⟩
  · intro x y c hg _ _ b e hb _
    have h0 := (h x y c hg).2
    refine ⟨Or.inr rfl, ?_, fun hk => by cases hk⟩
    show 0 ≤ b
    rcases hb with hb | hb <;> omega

theorem data_model_invariant_witness :
    Grid.allCells (fun c => decide (dataModelOK c))
      (sharkEatsFishWorld sampleParams 4).Grid = true ∧
    Grid.All dataModelPost ((sharkEatsFishWorld sampleParams 4).Step (Rand.const 1)).1.Grid :=
  ⟨by decide,
   (data_model_invariant (sharkEatsFishWorld sampleParams 4) (Rand.const 1)
    (Grid.All_of_allCells _ (fun c => decide (dataModelOK c)) _
      (fun _ h => of_decide_eq_true h) (by decide))).2.2⟩

/-! ## C20: fish in a shark-free step -/

theorem fish_step (w : World) (x y : Nat) (c : Creature) (ng : Grid) (r : Rand)
    (hx : x < w.Size) (hy : y < w.Size) (hc : w.Grid.get x y = some c)
    (hwf : ng.WF w.Size) (hfree : ng.get x y = none) :
    ng.count CellType.FishCell + 1 ≤ (w.updateFish x y c ng r).1.count CellType.FishCell ∧
    (∀ x1 y1, (x1 ≠ x ∨ y1 ≠ y) → w.Grid.get x1 y1 ≠ none →
      (w.updateFish x y c ng r).1.get x1 y1 = ng.get x1 y1) := by
  constructor
  · by_cases he : w.emptyNeighbours x y = []
    · rw [updateFish_noEmpty _ _ _ _ _ _ he, if_pos hfree]
      dsimp only
      rw [Grid.count_set _ _ _ _ _ _ hwf hx hy hfree, if_pos rfl]
    · obtain ⟨hdx, hdy, hneq, _⟩ := emptyDest_spec w x y c r hx hy hc he
      by_cases hd : ng.get (w.emptyDest x y r).1 (w.emptyDest x y r).2 = none
      · by_cases hb : c.BreedCounter + 1 ≥ w.Params.FishBreed
        · rw [updateFish_breed _ _ _ _ _ _ he hd hb, if_pos hfree]
          dsimp only
          have hd1 : (ng.set x y (some ⟨CellType.FishCell, 0, 0⟩)).get
              (w.emptyDest x y r).1 (w.emptyDest x y r).2 = none := by
            rw [Grid.get_set_ne _ _ _ _ _ _ hneq]
            exact hd
          rw [Grid.count_set _ _ _ _ _ _ (Grid.WF_set _ _ _ _ _ hwf) hdx hdy hd1, if_pos rfl,
            Grid.count_set _ _ _ _ _ _ hwf hx hy hfree, if_pos rfl]
          omega
        · rw [updateFish_move _ _ _ _ _ _ he hd hb]
          dsimp only
          rw [Grid.count_set _ _ _ _ _ _ hwf hdx hdy hd, if_pos rfl]
      · rw [updateFish_blocked _ _ _ _ _ _ he hd, if_pos hfree]
        dsimp only
        rw [Grid.count_set _ _ _ _ _ _ hwf hx hy hfree, if_pos rfl]
  · intro x1 y1 hne hocc
    apply updateFish_frame w x y c ng r x1 y1 hne
    by_cases he : w.emptyNeighbours x y = []
    · exact Or.inl he
    · right
      obtain ⟨_, _, _, hempty⟩ := emptyDest_spec w x y c r hx hy hc he
      by_contra hcon
      have e1 : x1 = (w.emptyDest x y r).1 := by by_contra h; exact hcon (Or.inl h)
      have e2 : y1 = (w.emptyDest x y r).2 := by by_contra h; exact hcon (Or.inr h)
      rw [e1, e2] at hocc
      exact hocc hempty

theorem sharkPhase_noShark (w : World) (ys : List Nat) (st : Grid × Rand)
    (h : w.Grid.noShark) :
    w.sharkPhase ys st = st := by
  unfold World.sharkPhase
  apply foldl_fixed
  intro s y
  apply foldl_fixed
  intro s1 x
  cases hg : w.Grid.get x y with
  | none => rfl
  | some c =>
    show (if c.Kind ≠ CellType.SharkCell then s1 else w.updateShark x y c s1.1 s1.2) = s1
    rw [if_pos (h x y c hg)]

theorem fishPhase_eq_cells (w : World) (ys : List Nat) (st : Grid × Rand) :
    w.fishPhase ys st =
      ys.foldl (fun st y => (List.range w.Size).foldl (w.fishCell y) st) st := rfl

theorem Count_eq_cells (w : World) :
    w.Count =
      (List.range w.Size).foldl
        (fun acc y => (List.range w.Size).foldl (w.countCell y) acc) (0, 0) := rfl

theorem fishRow_inv (w : World) (y : Nat) (t : List Nat) (hy : y < w.Size) (hyt : y ∉ t) :
    ∀ (xs : List Nat) (acc : Nat × Nat) (st : Grid × Rand),
      (xs.Nodup ∧ (∀ x ∈ xs, x < w.Size) ∧ st.1.WF w.Size ∧
        st.1.count CellType.SharkCell = 0 ∧
        (∀ x ∈ xs, w.Grid.get x y ≠ none → st.1.get x y = none) ∧
        (∀ y1 ∈ t, ∀ x, w.Grid.get x y1 ≠ none → st.1.get x y1 = none) ∧
        acc.1 ≤ st.1.count CellType.FishCell ∧ st.1.count CellType.FishCell ≤ 2 * acc.1) →
      ((xs.foldl (w.fishCell y) st).1.WF w.Size ∧
        (xs.foldl (w.fishCell y) st).1.count CellType.SharkCell = 0 ∧
        (∀ y1 ∈ t, ∀ x, w.Grid.get x y1 ≠ none →
          (xs.foldl (w.fishCell y) st).1.get x y1 = none) ∧
        (xs.foldl (w.countCell y) acc).1 ≤
          (xs.foldl (w.fishCell y) st).1.count CellType.FishCell ∧
        (xs.foldl (w.fishCell y) st).1.count CellType.FishCell ≤
          2 * (xs.foldl (w.countCell y) acc).1) := by
  intro xs
  induction xs with
  | nil =>
    intro acc st h
    exact ⟨h.2.2.1, h.2.2.2.1, h.2.2.2.2.2.1, h.2.2.2.2.2.2.1, h.2.2.2.2.2.2.2⟩
  | cons x xs1 ih =>
    intro acc st h
    obtain ⟨hnd, hlt, hwf, hsh, hrow, hrest, hlo, hhi⟩ := h
    rw [List.foldl_cons, List.foldl_cons]
    have hx : x < w.Size := hlt x (List.mem_cons_self _ _)
    have hnd1 : xs1.Nodup := (List.nodup_cons.mp hnd).2
    have hxn : x ∉ xs1 := (List.nodup_cons.mp hnd).1
    have hlt1 : ∀ x1 ∈ xs1, x1 < w.Size := fun x1 h1 => hlt x1 (List.mem_cons_of_mem _ h1)
    have hrow1 : ∀ x1 ∈ xs1, w.Grid.get x1 y ≠ none → st.1.get x1 y = none :=
      fun x1 h1 => hrow x1 (List.mem_cons_of_mem _ h1)
    apply ih
    unfold World.fishCell World.countCell
    cases hg : w.Grid.get x y with
    | none => exact ⟨hnd1, hlt1, hwf, hsh, hrow1, hrest, hlo, hhi⟩
    | some c =>
      by_cases hk : c.Kind = CellType.FishCell
      · have hfree : st.1.get x y = none :=
          hrow x (List.mem_cons_self _ _) (by rw [hg]; exact Option.some_ne_none c)
        obtain ⟨hge, hframe⟩ := fish_step w x y c st.1 st.2 hx hy hg hwf hfree
        obtain ⟨_, hle, _, hshark⟩ := updateFish_count w x y c st.1 st.2
        simp only [hk, ne_eq, not_true_eq_false, if_false, if_true]
        refine ⟨hnd1, hlt1, updateFish_WF w x y c _ _ _ hwf, by rw [hshark]; exact hsh,
          ?_, ?_, by omega, by omega⟩
        · intro x1 h1 hocc
          rw [hframe x1 y (Or.inl (fun e => hxn (e ▸ h1))) hocc]
          exact hrow1 x1 h1 hocc
        · intro y1 h1 x1 hocc
          rw [hframe x1 y1 (Or.inr (fun e => hyt (e ▸ h1))) hocc]
          exact hrest y1 h1 x1 hocc
      · simp only [hk, ne_eq, not_false_eq_true, if_true, if_false]
        refine ⟨hnd1, hlt1, hwf, hsh, hrow1, hrest, ?_, ?_⟩
        · split <;> exact hlo
        · split <;> exact hhi

theorem fishRows_inv (w : World) :
    ∀ (ys : List Nat) (acc : Nat × Nat) (st : Grid × Rand),
      (ys.Nodup ∧ (∀ y ∈ ys, y < w.Size) ∧ st.1.WF w.Size ∧
        st.1.count CellType.SharkCell = 0 ∧
        (∀ y1 ∈ ys, ∀ x, w.Grid.get x y1 ≠ none → st.1.get x y1 = none) ∧
        acc.1 ≤ st.1.count CellType.FishCell ∧ st.1.count CellType.FishCell ≤ 2 * acc.1) →
      ((ys.foldl (fun st y => (List.range w.Size).foldl (w.fishCell y) st) st).1.WF w.Size ∧
        (ys.foldl (fun st y => (List.range w.Size).foldl (w.fishCell y) st) st).1.count
          CellType.SharkCell = 0 ∧
        (ys.foldl (fun acc y => (List.range w.Size).foldl (w.countCell y) acc) acc).1 ≤
          (ys.foldl (fun st y => (List.range w.Size).foldl (w.fishCell y) st) st).1.count
            CellType.FishCell ∧
        (ys.foldl (fun st y => (List.range w.Size).foldl (w.fishCell y) st) st).1.count
            CellType.FishCell ≤
          2 * (ys.foldl (fun acc y => (List.range w.Size).foldl (w.countCell y) acc) acc).1) := by
  intro ys
  induction ys with
  | nil =>
    intro acc st h
    exact ⟨h.2.2.1, h.2.2.2.1, h.2.2.2.2.2.1, h.2.2.2.2.2.2⟩
  | cons y t ih =>
    intro acc st h
    obtain ⟨hnd, hlt, hwf, hsh, hfree, hlo, hhi⟩ := h
    rw [List.foldl_cons, List.foldl_cons]
    have hy : y < w.Size := hlt y (List.mem_cons_self _ _)
    have hyt : y ∉ t := (List.nodup_cons.mp hnd).1
    obtain ⟨h1, h2, h3, h4, h5⟩ := fishRow_inv w y t hy hyt (List.range w.Size) acc st
      ⟨List.nodup_range _, fun x hx => List.mem_range.mp hx, hwf, hsh,
        fun x _ => hfree y (List.mem_cons_self _ _) x,
        fun y1 hy1 => hfree y1 (List.mem_cons_of_mem _ hy1), hlo, hhi⟩
    exact ih _ _ ⟨(List.nodup_cons.mp hnd).2, fun y1 hy1 => hlt y1 (List.mem_cons_of_mem _ hy1),
      h1, h2, h3, h4, h5⟩

theorem fishPhase_count (w : World) (r : Rand) :
    (w.fishPhase (List.range w.Size) (makeGrid w.Size, r)).1.WF w.Size ∧
    (w.fishPhase (List.range w.Size) (makeGrid w.Size, r)).1.count CellType.SharkCell = 0 ∧
    w.Count.1 ≤
      (w.fishPhase (List.range w.Size) (makeGrid w.Size, r)).1.count CellType.FishCell ∧
    (w.fishPhase (List.range w.Size) (makeGrid w.Size, r)).1.count CellType.FishCell ≤
      2 * w.Count.1 := by
  rw [fishPhase_eq_cells, Count_eq_cells]
  apply fishRows_inv w (List.range w.Size) (0, 0) (makeGrid w.Size, r)
  refine ⟨List.nodup_range _, fun y hy => List.mem_range.mp hy, makeGrid_WF _,
    count_makeGrid _ _, fun _ _ _ _ => get_makeGrid _ _ _, ?_, ?_⟩
  · exact Nat.zero_le _
  · show (makeGrid w.Size).count CellType.FishCell ≤ 2 * 0
    rw [count_makeGrid]

/-- C20: fish are never lost in a shark-free sequential step.  For every world
whose grid holds no shark and every outcome of the random choices, after one
`Step` the grid still holds no shark (`Count` reports 0 sharks) and the fish
count satisfies `fishBefore <= fishAfter <= 2 * fishBefore`. -/
theorem fish_never_lost (w : World) (r : Rand) (h : w.Grid.noShark) :
    (w.Step r).1.Grid.noShark ∧ (w.Step r).1.Count.2 = 0 ∧
    w.Count.1 ≤ (w.Step r).1.Count.1 ∧ (w.Step r).1.Count.1 ≤ 2 * w.Count.1 := by
  have hstep : (w.Step r).1.Grid =
      (w.fishPhase (List.range w.Size) (makeGrid w.Size, r)).1 := by
    unfold World.Step
    rw [sharkPhase_noShark w _ _ h]
  obtain ⟨_, h2, h3, h4⟩ := fishPhase_count w r
  have hcount := Count_eq_count (w.Step r).1 (Step_WF w r)
  refine ⟨?_, ?_, ?_, ?_⟩
  · apply Step_All
    · intro _ _ _ _ _ _ _ hk
      cases hk
    · intro x y c hg hk
      exact absurd hk (h x y c hg)
    · intro x y c hg hk
      exact absurd hk (h x y c hg)
  · rw [hcount, hstep]
    exact h2
  · rw [hcount, hstep]
    exact h3
  · rw [hcount, hstep]
    exact h4

theorem fish_never_lost_witness :
    Grid.allCells (fun c => decide (c.Kind ≠ CellType.SharkCell))
      (singleFishWorld breedingParams).Grid = true ∧
    (singleFishWorld breedingParams).Count.1 ≤
      ((singleFishWorld breedingParams).Step (Rand.const 3)).1.Count.1 ∧
    ((singleFishWorld breedingParams).Step (Rand.const 3)).1.Count.1 ≤
      2 * (singleFishWorld breedingParams).Count.1 :=
  ⟨by decide,
   (fish_never_lost (singleFishWorld breedingParams) (Rand.const 3)
    (Grid.All_of_allCells _ (fun c => decide (c.Kind ≠ CellType.SharkCell)) _
      (fun _ h => of_decide_eq_true h) (by decide))).2.2⟩

/-! ## C21: two sharks and one fish -/

theorem sharkChoice_single_fish (w : World) (x y : Nat) (r : Rand) (d : Nat × Nat)
    (hf : w.fishNeighbours x y = [d]) : w.sharkChoice x y r = (d, true, r.next) := by
  rw [sharkChoice_fish _ _ _ _ (by rw [hf]; exact List.cons_ne_nil _ _), hf]
  have h1 : (r.Intn [d].length).1 = 0 := Nat.mod_one _
  rw [h1]
  rfl

theorem updateShark_single_fish (w : World) (x y : Nat) (c : Creature) (ng : Grid) (r : Rand)
    (d : Nat × Nat) (hf : w.fishNeighbours x y = [d]) (he : 2 ≤ c.Energy)
    (hb : c.BreedCounter + 1 < w.Params.SharkBreed) :
    w.updateShark x y c ng r =
      (ng.set d.1 d.2 (some ⟨CellType.SharkCell, c.BreedCounter + 1, w.Params.Starve⟩),
        r.next) := by
  have hc := sharkChoice_single_fish w x y r d hf
  have hsd : w.sharkDest x y ng r = d := by
    unfold World.sharkDest
    rw [hc]
    rfl
  have hse : w.sharkEnergy x y c r = w.Params.Starve := by
    unfold World.sharkEnergy
    rw [hc]
    rfl
  rw [updateShark_alive _ _ _ _ _ _ he, hsd, hse, if_neg (fun h => by omega), hc]

theorem twoSharks_empties (p : Params) (b e1 e2 : Int) :
    (twoSharksWorld p b e1 e2).emptyNeighbours 1 1 = [(1, 0), (1, 2)] := by
  unfold World.emptyNeighbours twoSharksWorld
  rw [neighbours_three]
  rfl

theorem twoSharks_fishN_left (p : Params) (b e1 e2 : Int) :
    (twoSharksWorld p b e1 e2).fishNeighbours 0 1 = [(1, 1)] := by
  unfold World.fishNeighbours twoSharksWorld
  rw [neighbours_three]
  rfl

theorem twoSharks_fishN_right (p : Params) (b e1 e2 : Int) :
    (twoSharksWorld p b e1 e2).fishNeighbours 2 1 = [(1, 1)] := by
  unfold World.fishNeighbours twoSharksWorld
  rw [neighbours_three]
  rfl

theorem twoSharks_step (p : Params) (b e1 e2 : Int) (r : Rand) :
    ((twoSharksWorld p b e1 e2).Step r).1.Grid =
      ((twoSharksWorld p b e1 e2).updateShark 2 1 ⟨CellType.SharkCell, 0, e2⟩
        ((twoSharksWorld p b e1 e2).updateShark 0 1 ⟨CellType.SharkCell, 0, e1⟩
          ((twoSharksWorld p b e1 e2).updateFish 1 1 ⟨CellType.FishCell, b, 0⟩
            (makeGrid 3) r).1
          ((twoSharksWorld p b e1 e2).updateFish 1 1 ⟨CellType.FishCell, b, 0⟩
            (makeGrid 3) r).2).1
        ((twoSharksWorld p b e1 e2).updateShark 0 1 ⟨CellType.SharkCell, 0, e1⟩
          ((twoSharksWorld p b e1 e2).updateFish 1 1 ⟨CellType.FishCell, b, 0⟩
            (makeGrid 3) r).1
          ((twoSharksWorld p b e1 e2).updateFish 1 1 ⟨CellType.FishCell, b, 0⟩
            (makeGrid 3) r).2).2).1 :=
  rfl

theorem twoSharks_grid (p : Params) (b e1 e2 : Int) (r : Rand)
    (h1 : 2 ≤ e1) (h2 : 2 ≤ e2) (hb : 2 ≤ p.SharkBreed) :
    ((twoSharksWorld p b e1 e2).Step r).1.Grid =
      ((((twoSharksWorld p b e1 e2).updateFish 1 1 ⟨CellType.FishCell, b, 0⟩
        (makeGrid 3) r).1.set 1 1 (some ⟨CellType.SharkCell, 1, p.Starve⟩)).set 1 1
        (some ⟨CellType.SharkCell, 1, p.Starve⟩)) := by
  have hbl : (0 : Int) + 1 < (twoSharksWorld p b e1 e2).Params.SharkBreed := by
    show (0 : Int) + 1 < p.SharkBreed
    omega
  rw [twoSharks_step,
    updateShark_single_fish _ 0 1 ⟨CellType.SharkCell, 0, e1⟩ _ _ (1, 1)
      (twoSharks_fishN_left p b e1 e2) h1 hbl,
    updateShark_single_fish _ 2 1 ⟨CellType.SharkCell, 0, e2⟩ _ _ (1, 1)
      (twoSharks_fishN_right p b e1 e2) h2 hbl]
  rfl

/-- C21: a sequential step can remove a shark that does not starve.  In the 3x3
world with a fish at (1,1) and sharks with breed counter 0 and energy at least
2 at (0,1) and (2,1), with shark breed threshold at least 2, one `Step` yields
for every random outcome fewer sharks than before: both sharks go to the fish
cell (1,1), the write of the shark processed later replaces the earlier one,
and `Count` reports 1 shark where there were 2. -/
theorem step_loses_shark (p : Params) (b e1 e2 : Int) (r : Rand)
    (h1 : 2 ≤ e1) (h2 : 2 ≤ e2) (hb : 2 ≤ p.SharkBreed) :
    (twoSharksWorld p b e1 e2).Count.2 = 2 ∧
    ((twoSharksWorld p b e1 e2).Step r).1.Count.2 = 1 ∧
    ((twoSharksWorld p b e1 e2).Step r).1.Count.2 < (twoSharksWorld p b e1 e2).Count.2 ∧
    ((twoSharksWorld p b e1 e2).Step r).1.Grid.get 1 1 =
      some ⟨CellType.SharkCell, 1, p.Starve⟩ ∧
    ((twoSharksWorld p b e1 e2).Step r).1.Grid.get 0 1 = none ∧
    ((twoSharksWorld p b e1 e2).Step r).1.Grid.get 2 1 = none := by
  have hne : (twoSharksWorld p b e1 e2).emptyNeighbours 1 1 ≠ [] := by
    rw [twoSharks_empties]; exact List.cons_ne_nil _ _
  have hk : r.draws 0 % 2 < 2 := Nat.mod_lt _ (by decide)
  have hdest : (twoSharksWorld p b e1 e2).emptyDest 1 1 r =
      [((1 : Nat), (0 : Nat)), (1, 2)].getD (r.draws 0 % 2) (0, 0) := by
    unfold World.emptyDest
    rw [twoSharks_empties]
    rfl
  have hbefore : (twoSharksWorld p b e1 e2).Count.2 = 2 := rfl
  rw [hbefore]
  unfold World.Count
  rw [twoSharks_grid p b e1 e2 r h1 h2 hb]
  generalize r.draws 0 % 2 = k at hk hdest
  by_cases hbr : b + 1 ≥ p.FishBreed
  · rw [updateFish_breed _ _ _ _ _ _ hne (by rw [get_makeGrid]) hbr, hdest]
    interval_cases k <;>
      exact ⟨rfl, rfl, Nat.lt_succ_of_le (Nat.le_of_eq rfl), rfl, rfl, rfl⟩
  · rw [updateFish_move _ _ _ _ _ _ hne (by rw [get_makeGrid]) hbr, hdest]
    interval_cases k <;>
      exact ⟨rfl, rfl, Nat.lt_succ_of_le (Nat.le_of_eq rfl), rfl, rfl, rfl⟩

theorem step_loses_shark_witness :
    ((2 : Int) ≤ 2 ∧ (2 : Int) ≤ 4 ∧ 2 ≤ sampleParams.SharkBreed) ∧
    ((twoSharksWorld sampleParams 0 2 4).Step (Rand.const 1)).1.Count.2 <
      (twoSharksWorld sampleParams 0 2 4).Count.2 :=
  ⟨by decide,
   (step_loses_shark sampleParams 0 2 4 (Rand.const 1) (by decide) (by decide)
    (by decide)).2.2.1⟩

/-! ## C5: the writes of a sequential step -/

theorem sharkPhase_eq_cells (w : World) (ys : List Nat) (st : Grid × Rand) :
    w.sharkPhase ys st =
      ys.foldl (fun st y => (List.range w.Size).foldl (w.sharkCell y) st) st := rfl

theorem sharkBefore_end (w : World) (st : Grid × Rand) :
    w.sharkBefore 0 w.Size st = w.sharkPhase (List.range w.Size) st := rfl

theorem sharkBefore_succ (w : World) (x y : Nat) (st : Grid × Rand) :
    w.sharkBefore (x + 1) y st = w.sharkCell y (w.sharkBefore x y st) x := by
  unfold World.sharkBefore
  rw [List.range_succ, List.foldl_append]
  rfl

theorem sharkBefore_row (w : World) (y : Nat) (st : Grid × Rand) :
    w.sharkBefore 0 (y + 1) st = w.sharkBefore w.Size y st := by
  unfold World.sharkBefore
  rw [List.range_succ, List.foldl_append]
  rfl

theorem updateShark_frame (w : World) (x y : Nat) (c : Creature) (ng : Grid) (r : Rand)
    (x1 y1 : Nat) (horig : x1 ≠ x ∨ y1 ≠ y)
    (hdest : x1 ≠ (w.sharkDest x y ng r).1 ∨ y1 ≠ (w.sharkDest x y ng r).2) :
    (w.updateShark x y c ng r).1.get x1 y1 = ng.get x1 y1 := by
  by_cases he : c.Energy ≤ 1
  · rw [updateShark_starve _ _ _ _ _ _ he]
  · rw [updateShark_alive _ _ _ _ _ _ (by omega)]
    split
    · show Grid.get (Grid.set _ _ _ _) x1 y1 = _
      rw [Grid.get_set_ne _ _ _ _ _ _ hdest]
      split
      · exact Grid.get_set_ne _ _ _ _ _ _ horig
      · rfl
    · exact Grid.get_set_ne _ _ _ _ _ _ hdest

theorem updateShark_keeps_off_dest (w : World) (x y : Nat) (c : Creature) (ng : Grid)
    (r : Rand) (x1 y1 : Nat) (hocc : ng.get x1 y1 ≠ none)
    (hdest : x1 ≠ (w.sharkDest x y ng r).1 ∨ y1 ≠ (w.sharkDest x y ng r).2) :
    (w.updateShark x y c ng r).1.get x1 y1 = ng.get x1 y1 := by
  by_cases he : c.Energy ≤ 1
  · rw [updateShark_starve _ _ _ _ _ _ he]
  · rw [updateShark_alive _ _ _ _ _ _ (by omega)]
    split
    · show Grid.get (Grid.set _ _ _ _) x1 y1 = _
      rw [Grid.get_set_ne _ _ _ _ _ _ hdest]
      split
      · rename_i hfree
        exact Grid.get_set_of_occupied ng x y x1 y1 _ hocc hfree
      · rfl
    · exact Grid.get_set_ne _ _ _ _ _ _ hdest

/-- The guards hold for the 64-bit shark update as well: it never changes an
occupied next-grid cell other than the final destination. -/
theorem updateShark64_keeps_off_dest (w : World) (x y : Nat) (c : Creature) (ng : Grid)
    (r : Rand) (x1 y1 : Nat) (hocc : ng.get x1 y1 ≠ none)
    (hdest : x1 ≠ (w.sharkDest x y ng r).1 ∨ y1 ≠ (w.sharkDest x y ng r).2) :
    (w.updateShark64 x y c ng r).1.get x1 y1 = ng.get x1 y1 := by
  rw [updateShark64_as_updateShark]
  exact updateShark_keeps_off_dest w x y _ ng r x1 y1 hocc hdest

theorem sharkDest_old (w : World) (x y : Nat) (ng : Grid) (r : Rand) :
    w.sharkDest x y ng r ∈ w.fishNeighbours x y ∨ w.sharkDest x y ng r = (x, y) ∨
      w.sharkDest x y ng r ∈ w.emptyNeighbours x y := by
  by_cases hf : w.fishNeighbours x y = []
  · right
    by_cases he : w.emptyNeighbours x y = []
    · exact Or.inl (sharkDest_stays w x y ng r hf (Or.inl he)).2
    · have hc := sharkChoice_empty w x y r hf he
      have hcases : w.sharkDest x y ng r = (x, y) ∨
          w.sharkDest x y ng r = (w.sharkChoice x y r).1 := by
        unfold World.sharkDest
        split
        · exact Or.inl rfl
        · exact Or.inr rfl
      rcases hcases with h1 | h1
      · exact Or.inl h1
      · right
        have hd : w.sharkDest x y ng r = w.emptyDest x y r := by
          rw [h1, hc]
          rfl
        rw [hd]
        exact emptyDest_mem w x y r he
  · exact Or.inl (sharkDest_ate w x y ng r hf).2.2

theorem cell_ne_of_kind (w : World) (x y x1 y1 : Nat) (c c1 : Creature)
    (h : w.Grid.get x y = some c) (h1 : w.Grid.get x1 y1 = some c1) (hk : c.Kind ≠ c1.Kind) :
    x1 ≠ x ∨ y1 ≠ y := by
  by_contra hc
  have hx : x1 = x := by by_contra h2; exact hc (Or.inl h2)
  have hy : y1 = y := by by_contra h2; exact hc (Or.inr h2)
  subst hx; subst hy
  rw [h] at h1
  cases h1
  exact hk rfl

theorem cell_ne_of_free (w : World) (d : Nat × Nat) (x1 y1 : Nat) (c1 : Creature)
    (h : w.Grid.get d.1 d.2 = none) (h1 : w.Grid.get x1 y1 = some c1) :
    x1 ≠ d.1 ∨ y1 ≠ d.2 := by
  by_contra hc
  have hx : x1 = d.1 := by by_contra h2; exact hc (Or.inl h2)
  have hy : y1 = d.2 := by by_contra h2; exact hc (Or.inr h2)
  rw [hx, hy, h] at h1
  cases h1

theorem fishCell_keeps_nonfish (w : World) (y x : Nat) (st : Grid × Rand) (x1 y1 : Nat)
    (c1 : Creature) (h1 : w.Grid.get x1 y1 = some c1) (hk : c1.Kind ≠ CellType.FishCell) :
    (w.fishCell y st x).1.get x1 y1 = st.1.get x1 y1 := by
  unfold World.fishCell
  cases hg : w.Grid.get x y with
  | none => rfl
  | some c =>
    dsimp only
    split
    · rfl
    · rename_i hfish
      have hfish : c.Kind = CellType.FishCell := by
        by_contra hne
        exact hfish hne
      apply updateFish_frame
      · exact cell_ne_of_kind w x y x1 y1 c c1 hg h1 (by rw [hfish]; exact fun h => hk h.symm)
      · by_cases he : w.emptyNeighbours x y = []
        · exact Or.inl he
        · exact Or.inr (cell_ne_of_free w _ x1 y1 c1
            (emptyNeighbours_spec w x y _ (emptyDest_mem w x y st.2 he)).2 h1)

theorem fishPhase_keeps_nonfish (w : World) (ys : List Nat) (st : Grid × Rand) (x1 y1 : Nat)
    (c1 : Creature) (h1 : w.Grid.get x1 y1 = some c1) (hk : c1.Kind ≠ CellType.FishCell) :
    (w.fishPhase ys st).1.get x1 y1 = st.1.get x1 y1 := by
  rw [fishPhase_eq_cells]
  apply foldl_inv (fun s : Grid × Rand => s.1.get x1 y1 = st.1.get x1 y1)
  · rfl
  · intro s y _ hs
    apply foldl_inv (fun s : Grid × Rand => s.1.get x1 y1 = st.1.get x1 y1)
    · exact hs
    · intro s2 x _ hs2
      show (w.fishCell y s2 x).1.get x1 y1 = _
      rw [fishCell_keeps_nonfish w y x s2 x1 y1 c1 h1 hk]
      exact hs2

theorem sharkCell_keeps_other (w : World) (y x : Nat) (st : Grid × Rand) (x1 y1 : Nat)
    (c1 : Creature) (h1 : w.Grid.get x1 y1 = some c1) (hk : c1.Kind ≠ CellType.FishCell)
    (hne : x1 ≠ x ∨ y1 ≠ y) :
    (w.sharkCell y st x).1.get x1 y1 = st.1.get x1 y1 := by
  unfold World.sharkCell
  cases hg : w.Grid.get x y with
  | none => rfl
  | some c =>
    dsimp only
    split
    · rfl
    · apply updateShark_frame _ _ _ _ _ _ _ _ hne
      rcases sharkDest_old w x y st.1 st.2 with h | h | h
      · obtain ⟨_, cf, hcf, hkf⟩ := fishNeighbours_spec w x y _ h
        exact cell_ne_of_kind w _ _ x1 y1 cf c1 hcf h1 (by rw [hkf]; exact fun h => hk h.symm)
      · rw [h]
        exact hne
      · exact cell_ne_of_free w _ x1 y1 c1 (emptyNeighbours_spec w x y _ h).2 h1

theorem sharkRow_keeps_later (w : World) (y : Nat) (st : Grid × Rand) (x1 y1 : Nat)
    (c1 : Creature) (h1 : w.Grid.get x1 y1 = some c1) (hk : c1.Kind ≠ CellType.FishCell) :
    ∀ n, (y1 ≠ y ∨ n ≤ x1) →
      ((List.range n).foldl (w.sharkCell y) st).1.get x1 y1 = st.1.get x1 y1 := by
  intro n
  induction n with
  | zero => intro _; rfl
  | succ n ih =>
    intro hlater
    rw [List.range_succ, List.foldl_append]
    show (w.sharkCell y _ n).1.get x1 y1 = _
    rw [sharkCell_keeps_other w y n _ x1 y1 c1 h1 hk (by omega)]
    exact ih (by omega)

theorem sharkRows_keep_later (w : World) (st : Grid × Rand) (x1 y1 : Nat)
    (c1 : Creature) (h1 : w.Grid.get x1 y1 = some c1) (hk : c1.Kind ≠ CellType.FishCell) :
    ∀ m, m ≤ y1 →
      ((List.range m).foldl (fun st y => (List.range w.Size).foldl (w.sharkCell y) st) st).1.get
        x1 y1 = st.1.get x1 y1 := by
  intro m
  induction m with
  | zero => intro _; rfl
  | succ m ih =>
    intro hm
    rw [List.range_succ, List.foldl_append]
    show ((List.range w.Size).foldl (w.sharkCell m) _).1.get x1 y1 = _
    rw [sharkRow_keeps_later w m _ x1 y1 c1 h1 hk w.Size (Or.inl (by omega))]
    exact ih (by omega)

/-- When the shark loops of `Step` reach a cell that holds a shark in the
previous grid, that cell is still empty in the next grid. -/
theorem sharkBefore_origin_free (w : World) (x y : Nat) (c : Creature) (r : Rand)
    (hc : w.Grid.get x y = some c) (hk : c.Kind = CellType.SharkCell) :
    (w.sharkBefore x y (w.fishPhase (List.range w.Size) (makeGrid w.Size, r))).1.get x y =
      none := by
  have hnf : c.Kind ≠ CellType.FishCell := by rw [hk]; exact fun h => by cases h
  unfold World.sharkBefore
  rw [sharkRow_keeps_later w y _ x y c hc hnf x (Or.inr (le_refl x)),
    sharkRows_keep_later w _ x y c hc hnf y (le_refl y),
    fishPhase_keeps_nonfish w _ _ x y c hc hnf]
  exact get_makeGrid _ _ _

/-- C5 (amended): `updateFish` never changes a next-grid cell that is already
occupied.  `updateShark` never changes an occupied next-grid cell other than the
shark's final destination: the child write is guarded, so an occupied origin is
kept when the shark moves away, and a non-eating shark whose chosen neighbour
is occupied stays.  An occupied final destination is the cell of the eaten fish
or the shark's own cell.  During `Step` the shark loops pass through the states
`sharkBefore`, and when they reach a shark its own cell is still empty in the
next grid: the update of that shark leaves every occupied cell as it is, except
the cell of the fish it eats, which the unconditional parent write replaces. -/
theorem writes_keep_occupied_cells (w : World) (x y : Nat) (c : Creature) (ng : Grid)
    (r : Rand) :
    (∀ x1 y1, ng.get x1 y1 ≠ none →
      (w.updateFish x y c ng r).1.get x1 y1 = ng.get x1 y1) ∧
    (∀ x1 y1, ng.get x1 y1 ≠ none →
      (x1 ≠ (w.sharkDest x y ng r).1 ∨ y1 ≠ (w.sharkDest x y ng r).2) →
      (w.updateShark x y c ng r).1.get x1 y1 = ng.get x1 y1) ∧
    (ng.get x y ≠ none → ((w.sharkDest x y ng r).1 ≠ x ∨ (w.sharkDest x y ng r).2 ≠ y) →
      (w.updateShark x y c ng r).1.get x y = ng.get x y) ∧
    (ng.get (w.sharkDest x y ng r).1 (w.sharkDest x y ng r).2 ≠ none →
      w.sharkDest x y ng r ∈ w.fishNeighbours x y ∨ w.sharkDest x y ng r = (x, y)) ∧
    (w.Step r).1.Grid =
      (w.sharkBefore 0 w.Size (w.fishPhase (List.range w.Size) (makeGrid w.Size, r))).1 ∧
    (∀ st, w.sharkBefore (x + 1) y st = w.sharkCell y (w.sharkBefore x y st) x ∧
      w.sharkBefore 0 (y + 1) st = w.sharkBefore w.Size y st) ∧
    (∀ st, st = w.sharkBefore x y (w.fishPhase (List.range w.Size) (makeGrid w.Size, r)) →
      w.Grid.get x y = some c → c.Kind = CellType.SharkCell →
      st.1.get x y = none ∧
      w.sharkCell y st x = w.updateShark x y c st.1 st.2 ∧
      ∀ x1 y1, st.1.get x1 y1 ≠ none →
        (w.updateShark x y c st.1 st.2).1.get x1 y1 = st.1.get x1 y1 ∨
        ((x1, y1) = w.sharkDest x y st.1 st.2 ∧
          w.sharkDest x y st.1 st.2 ∈ w.fishNeighbours x y)) := by
  refine ⟨fun x1 y1 h => updateFish_keeps_occupied w x y c ng r x1 y1 h,
    fun x1 y1 h hd => updateShark_keeps_off_dest w x y c ng r x1 y1 h hd,
    fun h hd => updateShark_keeps_off_dest w x y c ng r x y h ?_, ?_, rfl,
    fun st => ⟨sharkBefore_succ w x y st, sharkBefore_row w y st⟩, ?_⟩
  · rcases hd with hd | hd
    · exact Or.inl (Ne.symm hd)
    · exact Or.inr (Ne.symm hd)
  · intro hocc
    rcases sharkDest_cases w x y ng r with h | h | h
    · exact Or.inl h
    · exact Or.inr h
    · exact absurd h hocc
  · intro st hst hc hk
    have hfree : st.1.get x y = none := by
      rw [hst]
      exact sharkBefore_origin_free w x y c r hc hk
    refine ⟨hfree, ?_, ?_⟩
    · unfold World.sharkCell
      rw [hc]
      dsimp only
      rw [if_neg (fun h => h hk)]
    · intro x1 y1 hocc
      by_cases hd : x1 ≠ (w.sharkDest x y st.1 st.2).1 ∨ y1 ≠ (w.sharkDest x y st.1 st.2).2
      · exact Or.inl (updateShark_keeps_off_dest w x y c st.1 st.2 x1 y1 hocc hd)
      · right
        have hx : x1 = (w.sharkDest x y st.1 st.2).1 := by
          by_contra h2; exact hd (Or.inl h2)
        have hy : y1 = (w.sharkDest x y st.1 st.2).2 := by
          by_contra h2; exact hd (Or.inr h2)
        have hp : (x1, y1) = w.sharkDest x y st.1 st.2 := Prod.ext hx hy
        refine ⟨hp, ?_⟩
        rcases sharkDest_cases w x y st.1 st.2 with h | h | h
        · exact h
        · rw [← hp] at h
          cases h
          exact absurd hfree hocc
        · rw [← hp] at h
          exact absurd h hocc

theorem writes_keep_occupied_cells_witness :
    ((twoFishGrid 0).get 0 2 ≠ none ∧
      ((singleFishWorld breedingParams).updateFish 0 0 ⟨CellType.FishCell, 0, 0⟩ (twoFishGrid 0)
        (Rand.const 0)).1.get 0 2 = (twoFishGrid 0).get 0 2) ∧
    ((twoFishGrid 0).get 0 0 ≠ none ∧
      ((sharkEatsFishWorld sharkBreedingParams 0).sharkDest 0 0 (twoFishGrid 0)
        (Rand.const 0)).2 ≠ 0 ∧
      ((sharkEatsFishWorld sharkBreedingParams 0).updateShark 0 0 ⟨CellType.SharkCell, 0, 2⟩
        (twoFishGrid 0) (Rand.const 0)).1.get 0 0 = (twoFishGrid 0).get 0 0) ∧
    ((sharkEatsFishWorld sharkBreedingParams 0).Grid.get 0 0 =
        some ⟨CellType.SharkCell, 0, 2⟩ ∧
      ((sharkEatsFishWorld sharkBreedingParams 0).sharkBefore 0 0
        ((sharkEatsFishWorld sharkBreedingParams 0).fishPhase (List.range 3)
          (makeGrid 3, Rand.const 0))).1.get 0 0 = none) :=
  ⟨⟨by decide, (writes_keep_occupied_cells (singleFishWorld breedingParams) 0 0
      ⟨CellType.FishCell, 0, 0⟩ (twoFishGrid 0) (Rand.const 0)).1 0 2 (by decide)⟩,
   ⟨by decide, by decide, (writes_keep_occupied_cells (sharkEatsFishWorld sharkBreedingParams 0)
      0 0 ⟨CellType.SharkCell, 0, 2⟩ (twoFishGrid 0) (Rand.const 0)).2.2.1 (by decide)
      (Or.inr (by decide))⟩,
   ⟨rfl, ((writes_keep_occupied_cells (sharkEatsFishWorld sharkBreedingParams 0)
      0 0 ⟨CellType.SharkCell, 0, 2⟩ (makeGrid 3) (Rand.const 0)).2.2.2.2.2.2 _ rfl rfl rfl).1⟩⟩

end WaTor
